import Mathlib

/-!
# rocBLAS: argument validation, layout resolution and workspace negotiation

A shallow embedding of the dispatch layer of rocBLAS:

* `rocblas_ger_arg_check`, `ger_kernel` and `rocblas_ger_template`
  (library/src/blas2/rocblas_ger.hpp),
* the four `load_batched_ptr` overloads (library/src/blas1/rocblas_batched_arrays.h),
* `rocblas_trmv_strided_batched_impl`, `rocblas_gemv_batched_impl` and
  `rocblas_spmv_strided_batched_impl` (library/src/blas2),
* `scal_kernel` and `rocblas_scal_template` (library/src/blas1/rocblas_scal.hpp),
* `rocblas_swap_batched_template` (library/src/blas1/rocblas_swap_batched.hpp),
* `infer_batch_strides`, the two `validateArgs` overloads and
  `rocblas_gemm_batched_template` (library/src/blas3/Tensile/gemm_host.hpp),
* `rocblas_trsm_strided_batched_ex` (library/src/blas3/rocblas_trsm_strided_batched.cpp).

Conventions. A `rocblas_int` is a 32-bit signed integer and a `rocblas_stride`
a 64-bit signed integer; both are embedded as `Int`, with the wraparound of a
machine operation written out (`wrapInt32`, `wrapInt64`, `toSizeT`) where the
source performs arithmetic. A pointer is an `Int` address counted in elements,
the null pointer being `0`. A call that has side effects returns, next to its
status, the list of the effects it performed, in program order. A kernel launch
is a record of its grid and its arguments; the grid is run one thread at a time
under a schedule, and the results on kernels hold for every schedule.
-/

set_option linter.unusedVariables false

namespace RocBLAS

/-! ## Machine integers -/

/-- Wraparound of an integer to the signed 32-bit range. -/
def wrapInt32 (z : Int) : Int := (z + 2 ^ 31) % 2 ^ 32 - 2 ^ 31

/-- Wraparound of an integer to the signed 64-bit range. -/
def wrapInt64 (z : Int) : Int := (z + 2 ^ 63) % 2 ^ 64 - 2 ^ 63

/-- Conversion of a signed integer to the unsigned 64-bit `size_t`. -/
def toSizeT (z : Int) : Nat := (z % 2 ^ 64).toNat

/-- Range of a `rocblas_int`. -/
def isInt32 (z : Int) : Prop := -2 ^ 31 ≤ z ∧ z < 2 ^ 31

/-- Range of a `rocblas_stride`. -/
def isInt64 (z : Int) : Prop := -2 ^ 63 ≤ z ∧ z < 2 ^ 63

instance (z : Int) : Decidable (isInt32 z) :=
  inferInstanceAs (Decidable (-2 ^ 31 ≤ z ∧ z < 2 ^ 31))

instance (z : Int) : Decidable (isInt64 z) :=
  inferInstanceAs (Decidable (-2 ^ 63 ≤ z ∧ z < 2 ^ 63))

/-! ## Status codes and enumerations -/

/-- The status codes of `rocblas_status`. The enumeration is declared in a header
that is not among the sources; the values are those the sources return, and
`internal_error` and `size_increased`, two further values of the enumeration
that a member function of the handle may return. -/
inductive rocblas_status where
  | rocblas_status_success
  | rocblas_status_invalid_handle
  | rocblas_status_not_implemented
  | rocblas_status_invalid_pointer
  | rocblas_status_invalid_size
  | rocblas_status_memory_error
  | rocblas_status_internal_error
  | rocblas_status_size_increased
  | rocblas_status_size_unchanged
  | rocblas_status_continue
  deriving DecidableEq, Repr

open rocblas_status

/-- A device or host address, counted in elements; `0` is the null pointer. -/
abbrev Ptr := Int

/-! ## `rocblas_ger_arg_check` (rocblas_ger.hpp, lines 63-92) -/

/-- The argument check of the rank-1 update, with the parameters of the source
in the order of the source. -/
def rocblas_ger_arg_check (m n : Int) (alpha : Ptr) (stride_alpha : Int)
    (x : Ptr) (offsetx incx stridex : Int)
    (y : Ptr) (offsety incy stridey : Int)
    (A : Ptr) (offsetA lda strideA : Int) (batch_count : Int) : rocblas_status :=
  if m < 0 ∨ n < 0 ∨ incx = 0 ∨ incy = 0 ∨ lda < m ∨ lda < 1 ∨ batch_count < 0 then
    rocblas_status_invalid_size
  else if m = 0 ∨ n = 0 ∨ batch_count = 0 then
    rocblas_status_success
  else if alpha = 0 ∨ x = 0 ∨ y = 0 ∨ A = 0 then
    rocblas_status_invalid_pointer
  else
    rocblas_status_continue

/-! ## `load_batched_ptr` (rocblas_batched_arrays.h, lines 117-152)

The four layouts are `strided_batched_arrays<T> = T*`,
`const_strided_batched_arrays<T> = const T*`, `batched_arrays<T> = T**` and
`const_batched_arrays<T> = const T* const*`. An array of base pointers is
embedded as the function giving the pointer stored at each index. -/

/-- The overload for `const_batched_arrays<T>` (lines 117-124):
`return x[batch_index] + offset;`. -/
def const_batched_arrays.load_batched_ptr (x : Int → Ptr) (batch_index offset : Int)
    (stride : Int) : Ptr :=
  x batch_index + offset

/-- The overload for `batched_arrays<T>` (lines 126-133):
`return x[batch_index] + offset;`. -/
def batched_arrays.load_batched_ptr (x : Int → Ptr) (batch_index offset : Int)
    (stride : Int) : Ptr :=
  x batch_index + offset

/-- The overload for `const_strided_batched_arrays<T>` (lines 135-142):
`return (x + rocblas_stride(batch_index) * stride) + offset;`, the product
being a multiplication of two `rocblas_stride` values. -/
def const_strided_batched_arrays.load_batched_ptr (x : Ptr) (batch_index offset : Int)
    (stride : Int) : Ptr :=
  (x + wrapInt64 (wrapInt64 batch_index * stride)) + offset

/-- The overload for `strided_batched_arrays<T>` (lines 145-152):
`return (x + rocblas_stride(batch_index) * stride) + offset;`. -/
def strided_batched_arrays.load_batched_ptr (x : Ptr) (batch_index offset : Int)
    (stride : Int) : Ptr :=
  (x + wrapInt64 (wrapInt64 batch_index * stride)) + offset

/-! ## The execution context -/

/-- The values of `rocblas_fill` (declared in a header that is not among the
sources): the two the sources name and `full`, which is neither. -/
inductive rocblas_fill where
  | rocblas_fill_upper
  | rocblas_fill_lower
  | rocblas_fill_full
  deriving DecidableEq, Repr

/-- The values of `rocblas_operation` (declared in a header that is not among
the sources). -/
inductive rocblas_operation where
  | rocblas_operation_none
  | rocblas_operation_transpose
  | rocblas_operation_conjugate_transpose
  deriving DecidableEq, Repr

/-- The values of `rocblas_diagonal` (declared in a header that is not among the
sources). -/
inductive rocblas_diagonal where
  | rocblas_diagonal_non_unit
  | rocblas_diagonal_unit
  deriving DecidableEq, Repr

/-- The values of `rocblas_pointer_mode` (declared in a header that is not among
the sources). -/
inductive rocblas_pointer_mode where
  | rocblas_pointer_mode_host
  | rocblas_pointer_mode_device
  deriving DecidableEq, Repr

open rocblas_fill rocblas_operation rocblas_diagonal rocblas_pointer_mode

/-- The element types `T` the routines are instantiated with
(rocblas_trmv_strided_batched.cpp, lines 214-217). -/
inductive rocblas_type where
  | float
  | double
  | rocblas_float_complex
  | rocblas_double_complex
  deriving DecidableEq, Repr

/-- The value of `sizeof(T)` for each element type. -/
def rocblas_type.sizeof : rocblas_type → Nat
  | .float => 4
  | .double => 8
  | .rocblas_float_complex => 8
  | .rocblas_double_complex => 16

/-- Modelled from the spec: the trace flag of the layer-mode bitmask ("gated
independently by three bitmask flags on the ExecutionContext"); the enumeration
`rocblas_layer_mode` is declared in a header that is not among the sources. -/
def rocblas_layer_mode_log_trace : Nat := 1

/-- Modelled from the spec: the bench flag of the layer-mode bitmask. -/
def rocblas_layer_mode_log_bench : Nat := 2

/-- Modelled from the spec: the profile flag of the layer-mode bitmask. -/
def rocblas_layer_mode_log_profile : Nat := 4

/-- The members of the handle that the embedded routines use. The handle class
is declared in `handle.h`, which is not among the sources, so its two member
functions with a result are fields: `set_optimal_device_memory_size` gives the
status returned for a reported size and `device_malloc` the pointer returned
for a requested size (`0` when the allocation fails). -/
structure _rocblas_handle where
  layer_mode : Nat
  pointer_mode : rocblas_pointer_mode
  is_device_memory_size_query : Bool
  set_optimal_device_memory_size : Nat → rocblas_status
  device_malloc : Nat → Ptr

/-- A `rocblas_handle` is a pointer to the handle object; `none` is null. -/
abbrev rocblas_handle := Option _rocblas_handle

/-- The observable effects of one call, `α` being the argument record of the
kernel template the call may reach. -/
inductive Effect (α : Type) where
  | log_trace
  | log_bench
  | log_profile
  | set_optimal_device_memory_size (bytes : Nat)
  | device_malloc (bytes : Nat)
  | template_call (args : α)

/-- Whether an effect is a log record (trace, bench or profile). -/
def Effect.is_log {α : Type} : Effect α → Bool
  | .log_trace => true
  | .log_bench => true
  | .log_profile => true
  | _ => false

/-- Whether an effect reports a device memory size. -/
def Effect.is_size_report {α : Type} : Effect α → Bool
  | .set_optimal_device_memory_size _ => true
  | _ => false

/-- Whether an effect is a call of `device_malloc`. -/
def Effect.is_device_malloc {α : Type} : Effect α → Bool
  | .device_malloc _ => true
  | _ => false

/-- Whether an effect is a call of the kernel template. -/
def Effect.is_template_call {α : Type} : Effect α → Bool
  | .template_call _ => true
  | _ => false

/-! ## `rocblas_trmv_strided_batched_impl` (rocblas_trmv_strided_batched.cpp, lines 29-180) -/

/-- The arguments `rocblas_trmv_strided_batched_impl` passes to
`rocblas_trmv_strided_batched_template` (lines 166-179). -/
structure trmv_template_args where
  uplo : rocblas_fill
  transa : rocblas_operation
  diag : rocblas_diagonal
  m : Int
  a : Ptr
  lda : Int
  stridea : Int
  x : Ptr
  incx : Int
  stridex : Int
  w : Ptr
  stridew : Int
  batch_count : Int
  deriving DecidableEq, Repr

/-- The log records of rocblas_trmv_strided_batched.cpp, lines 48-130, and of
rocblas_spmv_strided_batched.cpp, lines 37-103: inside the guard on the three
flags, one record per flag that is set, in the order trace, bench, profile. -/
def log_records {α : Type} (layer_mode : Nat) : List (Effect α) :=
  if layer_mode
      &&& (rocblas_layer_mode_log_trace ||| rocblas_layer_mode_log_bench
            ||| rocblas_layer_mode_log_profile) ≠ 0 then
    (if layer_mode &&& rocblas_layer_mode_log_trace ≠ 0 then [Effect.log_trace] else [])
      ++ (if layer_mode &&& rocblas_layer_mode_log_bench ≠ 0 then [Effect.log_bench] else [])
      ++ (if layer_mode &&& rocblas_layer_mode_log_profile ≠ 0 then [Effect.log_profile] else [])
  else []

/-- The workspace size of line 148, `size_t dev_bytes = m * batch_count * sizeof(T);`:
the product `m * batch_count` is a multiplication of two `rocblas_int`, its
result is converted to `size_t` and multiplied by `sizeof(T)` in `size_t`. -/
def trmv_dev_bytes (T : rocblas_type) (m batch_count : Int) : Nat :=
  (toSizeT (wrapInt32 (m * batch_count)) * T.sizeof) % 2 ^ 64

/-- The implementation of the strided-batched triangular matrix-vector product.
`T` is the element type and `rocblas_trmv_strided_batched_template` the kernel
template (declared in a header that is not among the sources), given by the
status it returns. The result is the returned status and the effects of the call. -/
def rocblas_trmv_strided_batched_impl (T : rocblas_type)
    (rocblas_trmv_strided_batched_template : trmv_template_args → rocblas_status)
    (handle : rocblas_handle) (uplo : rocblas_fill) (transa : rocblas_operation)
    (diag : rocblas_diagonal) (m : Int) (a : Ptr) (lda stridea : Int) (x : Ptr)
    (incx stridex batch_count : Int) :
    rocblas_status × List (Effect trmv_template_args) :=
  match handle with
  | none => (rocblas_status_invalid_handle, [])
  | some h =>
    let logged : List (Effect trmv_template_args) := log_records h.layer_mode
    if uplo ≠ rocblas_fill_lower ∧ uplo ≠ rocblas_fill_upper then
      (rocblas_status_not_implemented, logged)
    else if m < 0 ∨ lda < m ∨ lda < 1 ∨ incx = 0 ∨ batch_count < 0 then
      (rocblas_status_invalid_size, logged)
    else if m = 0 ∨ batch_count = 0 then
      (if h.is_device_memory_size_query then rocblas_status_size_unchanged
        else rocblas_status_success, logged)
    else
      let dev_bytes := trmv_dev_bytes T m batch_count
      if h.is_device_memory_size_query then
        (h.set_optimal_device_memory_size dev_bytes,
          logged ++ [Effect.set_optimal_device_memory_size dev_bytes])
      else if a = 0 ∨ x = 0 then
        (rocblas_status_invalid_pointer, logged)
      else
        let w := h.device_malloc dev_bytes
        if w = 0 then
          (rocblas_status_memory_error, logged ++ [Effect.device_malloc dev_bytes])
        else
          let stridew := m
          let args : trmv_template_args :=
            { uplo := uplo, transa := transa, diag := diag, m := m, a := a, lda := lda,
              stridea := stridea, x := x, incx := incx, stridex := stridex, w := w,
              stridew := stridew, batch_count := batch_count }
          (rocblas_trmv_strided_batched_template args,
            logged ++ [Effect.device_malloc dev_bytes, Effect.template_call args])

/-- The status the strided-batched banded test expects from its early check
(testing_tbmv_strided_batched.hpp, lines 103-134): `some s` when the test takes
the branch of line 104 and expects `s`, `none` when it goes on to the numerical
comparison. -/
def testing_tbmv_strided_batched_expected (M K lda incx batch_count : Int) :
    Option rocblas_status :=
  if M < 0 ∨ K < 0 ∨ lda < M ∨ lda < 1 ∨ incx = 0 ∨ K ≥ lda ∨ batch_count ≤ 0 then
    some (if M < 0 ∨ K < 0 ∨ lda < M ∨ lda < 1 ∨ incx = 0 ∨ K ≥ lda ∨ batch_count < 0 then
      rocblas_status_invalid_size
    else rocblas_status_success)
  else none

/-! ## `rocblas_gemv_batched_impl` (rocblas_gemv_batched.cpp, lines 23-142) -/

/-- The arguments `rocblas_gemv_batched_impl` passes to
`rocblas_gemv_batched_template` (line 141). -/
structure gemv_template_args where
  transA : rocblas_operation
  m : Int
  n : Int
  alpha : Ptr
  A : Ptr
  lda : Int
  x : Ptr
  incx : Int
  beta : Ptr
  y : Ptr
  incy : Int
  batch_count : Int
  deriving DecidableEq, Repr

/-- The log records of lines 45-132: the bench record is emitted in host
pointer mode only, the trace record in both pointer modes. -/
def gemv_log_records {α : Type} (layer_mode : Nat) (pointer_mode : rocblas_pointer_mode) :
    List (Effect α) :=
  if layer_mode
      &&& (rocblas_layer_mode_log_trace ||| rocblas_layer_mode_log_bench
            ||| rocblas_layer_mode_log_profile) ≠ 0 then
    (if pointer_mode = rocblas_pointer_mode_host then
        (if layer_mode &&& rocblas_layer_mode_log_trace ≠ 0 then [Effect.log_trace] else [])
          ++ (if layer_mode &&& rocblas_layer_mode_log_bench ≠ 0 then [Effect.log_bench] else [])
      else
        (if layer_mode &&& rocblas_layer_mode_log_trace ≠ 0 then [Effect.log_trace] else []))
      ++ (if layer_mode &&& rocblas_layer_mode_log_profile ≠ 0 then [Effect.log_profile] else [])
  else []

/-- Modelled from the spec: the macro `RETURN_ZERO_DEVICE_MEMORY_SIZE_IF_QUERIED`
(defined in `handle.h`, which is not among the sources). In size-query mode a
call that needs no workspace returns the "size unchanged" status without
executing: `some rocblas_status_size_unchanged` is the early return, `none`
means the routine goes on. -/
def RETURN_ZERO_DEVICE_MEMORY_SIZE_IF_QUERIED (h : _rocblas_handle) : Option rocblas_status :=
  if h.is_device_memory_size_query then some rocblas_status_size_unchanged else none

/-- The implementation of the batched general matrix-vector product.
`rocblas_gemv_batched_template` is the kernel template (declared in a header
that is not among the sources), given by the status it returns. -/
def rocblas_gemv_batched_impl
    (rocblas_gemv_batched_template : gemv_template_args → rocblas_status)
    (handle : rocblas_handle) (transA : rocblas_operation) (m n : Int) (alpha : Ptr)
    (A : Ptr) (lda : Int) (x : Ptr) (incx : Int) (beta : Ptr) (y : Ptr) (incy : Int)
    (batch_count : Int) : rocblas_status × List (Effect gemv_template_args) :=
  match handle with
  | none => (rocblas_status_invalid_handle, [])
  | some h =>
    match RETURN_ZERO_DEVICE_MEMORY_SIZE_IF_QUERIED h with
    | some s => (s, [])
    | none =>
      if alpha = 0 ∨ beta = 0 then
        (rocblas_status_invalid_pointer, [])
      else
        let logged : List (Effect gemv_template_args) :=
          gemv_log_records h.layer_mode h.pointer_mode
        if A = 0 ∨ x = 0 ∨ y = 0 then
          (rocblas_status_invalid_pointer, logged)
        else if m < 0 ∨ n < 0 ∨ lda < m ∨ lda < 1 ∨ incx = 0 ∨ incy = 0 then
          (rocblas_status_invalid_size, logged)
        else if batch_count < 0 then
          (rocblas_status_invalid_size, logged)
        else
          let args : gemv_template_args :=
            { transA := transA, m := m, n := n, alpha := alpha, A := A, lda := lda, x := x,
              incx := incx, beta := beta, y := y, incy := incy, batch_count := batch_count }
          (rocblas_gemv_batched_template args, logged ++ [Effect.template_call args])

/-! ## `rocblas_spmv_strided_batched_impl` (rocblas_spmv_strided_batched.cpp, lines 17-146) -/

/-- The arguments `rocblas_spmv_strided_batched_impl` passes to
`rocblas_spmv_arg_check` (lines 105-123) and, unchanged, to
`rocblas_spmv_template` (lines 127-145). -/
structure spmv_args where
  uplo : rocblas_fill
  n : Int
  alpha : Ptr
  stride_alpha : Int
  A : Ptr
  offseta : Int
  strideA : Int
  x : Ptr
  offsetx : Int
  incx : Int
  stridex : Int
  beta : Ptr
  stride_beta : Int
  y : Ptr
  offsety : Int
  incy : Int
  stridey : Int
  batch_count : Int
  deriving DecidableEq, Repr

/-- The implementation of the strided-batched packed symmetric matrix-vector
product. `rocblas_spmv_arg_check` and `rocblas_spmv_template` are declared in
`rocblas_spmv.hpp`, which is not among the sources; each is given by the status
it returns. -/
def rocblas_spmv_strided_batched_impl
    (rocblas_spmv_arg_check : _rocblas_handle → spmv_args → rocblas_status)
    (rocblas_spmv_template : _rocblas_handle → spmv_args → rocblas_status)
    (handle : rocblas_handle) (uplo : rocblas_fill) (n : Int) (alpha : Ptr) (A : Ptr)
    (strideA : Int) (x : Ptr) (incx stridex : Int) (beta : Ptr) (y : Ptr)
    (incy stridey batch_count : Int) : rocblas_status × List (Effect spmv_args) :=
  match handle with
  | none => (rocblas_status_invalid_handle, [])
  | some h =>
    match RETURN_ZERO_DEVICE_MEMORY_SIZE_IF_QUERIED h with
    | some s => (s, [])
    | none =>
      let logged : List (Effect spmv_args) := log_records h.layer_mode
      let args : spmv_args :=
        { uplo := uplo, n := n, alpha := alpha, stride_alpha := 0, A := A, offseta := 0,
          strideA := strideA, x := x, offsetx := 0, incx := incx, stridex := stridex,
          beta := beta, stride_beta := 0, y := y, offsety := 0, incy := incy,
          stridey := stridey, batch_count := batch_count }
      let arg_status := rocblas_spmv_arg_check h args
      if arg_status ≠ rocblas_status_continue then
        (arg_status, logged)
      else
        (rocblas_spmv_template h args, logged ++ [Effect.template_call args])

/-- A handle in normal mode, with all three log flags set, whose pool serves
every request at address `4096`. -/
def sample_handle : _rocblas_handle :=
  { layer_mode := 7, pointer_mode := rocblas_pointer_mode_host,
    is_device_memory_size_query := false,
    set_optimal_device_memory_size := fun _ => rocblas_status_internal_error,
    device_malloc := fun _ => 4096 }

/-- A handle in size-query mode: a reported size of zero leaves the recorded
size unchanged, a larger one increases it. -/
def sample_query_handle : _rocblas_handle :=
  { layer_mode := 0, pointer_mode := rocblas_pointer_mode_host,
    is_device_memory_size_query := true,
    set_optimal_device_memory_size := fun bytes =>
      if bytes > 0 then rocblas_status_size_increased else rocblas_status_size_unchanged,
    device_malloc := fun _ => 0 }

/-- A handle in normal mode whose pool is exhausted: every allocation fails. -/
def sample_exhausted_handle : _rocblas_handle :=
  { layer_mode := 1, pointer_mode := rocblas_pointer_mode_device,
    is_device_memory_size_query := false,
    set_optimal_device_memory_size := fun _ => rocblas_status_internal_error,
    device_malloc := fun _ => 0 }

/-! ## The shift for negative increments
(rocblas_ger.hpp, lines 120-122; rocblas_swap_batched.hpp, lines 44-46) -/

/-- The shift computed once per operand,
`inc < 0 ? offset - ptrdiff_t(inc) * (len - 1) : offset`: the difference
`len - 1` is a `rocblas_int` subtraction, the product and the outer subtraction
are taken in the 64-bit `ptrdiff_t`. -/
def inc_shift (offset inc len : Int) : Int :=
  if inc < 0 then wrapInt64 (offset - wrapInt64 (wrapInt64 inc * wrapInt32 (len - 1)))
  else offset

/-- The launch of `rocblas_swap_kernel_batched` issued by
`rocblas_swap_batched_template` (lines 49-60): the grid `dim3(blocks, batch_count)`,
the block size `NB` and the kernel arguments. -/
structure swap_batched_launch where
  blocks : Int
  batch_count : Int
  NB : Int
  n : Int
  x : Ptr
  shiftx : Int
  incx : Int
  y : Ptr
  shifty : Int
  incy : Int
  deriving DecidableEq, Repr

/-- The template of the batched swap (rocblas_swap_batched.hpp, lines 29-63):
the returned status and the kernel launches it issued. -/
def rocblas_swap_batched_template (NB : Int) (n : Int) (x : Ptr) (offsetx incx : Int)
    (y : Ptr) (offsety incy : Int) (batch_count : Int) :
    rocblas_status × List swap_batched_launch :=
  if n ≤ 0 ∨ batch_count = 0 then
    (rocblas_status_success, [])
  else
    let shiftx := inc_shift offsetx incx n
    let shifty := inc_shift offsety incy n
    let blocks := wrapInt32 (wrapInt32 (Int.tdiv (wrapInt32 (n - 1)) NB) + 1)
    (rocblas_status_success,
      [{ blocks := blocks, batch_count := batch_count, NB := NB, n := n, x := x,
         shiftx := shiftx, incx := incx, y := y, shifty := shifty, incy := incy }])

/-! ## The matrix-multiply bridge (Tensile/gemm_host.hpp) -/

/-- Inference of the batch strides (lines 20-44): the three outputs
`(stride_a, stride_b, stride_c)`, each a product of two `rocblas_int`. -/
def infer_batch_strides (trans_a trans_b : rocblas_operation) (m n k : Int)
    (ld_a ld_b ld_c : Int) : Int × Int × Int :=
  let num_cols_c := n
  let num_rows_c := m
  let num_cols_a := if trans_a = rocblas_operation_none then k else m
  let num_rows_a := if trans_a = rocblas_operation_none then m else k
  let num_cols_b := if trans_b = rocblas_operation_none then n else k
  let num_rows_b := if trans_b = rocblas_operation_none then k else n
  (wrapInt32 (ld_a * num_cols_a), wrapInt32 (ld_b * num_cols_b),
    wrapInt32 (ld_c * num_cols_c))

/-- The argument validation of the strided form (lines 49-96). -/
def validateArgs (handle : rocblas_handle) (trans_a trans_b : rocblas_operation)
    (m n k : Int) (alpha : Ptr) (a : Ptr) (ld_a stride_a : Int) (b : Ptr)
    (ld_b stride_b : Int) (beta : Ptr) (c : Ptr) (ld_c stride_c : Int)
    (batch_count : Int) : rocblas_status :=
  if m = 0 ∨ n = 0 ∨ k = 0 ∨ batch_count = 0 then
    rocblas_status_success
  else if m < 0 ∨ n < 0 ∨ k < 0 ∨ batch_count < 0 then
    rocblas_status_invalid_size
  else if handle.isNone then
    rocblas_status_invalid_handle
  else if c = 0 ∨ a = 0 ∨ b = 0 ∨ alpha = 0 ∨ beta = 0 then
    rocblas_status_invalid_pointer
  else
    let num_cols_c := n
    let num_rows_c := m
    let num_cols_a := if trans_a = rocblas_operation_none then k else m
    let num_rows_a := if trans_a = rocblas_operation_none then m else k
    let num_cols_b := if trans_b = rocblas_operation_none then n else k
    let num_rows_b := if trans_b = rocblas_operation_none then k else n
    if num_rows_a > ld_a ∨ num_rows_b > ld_b ∨ num_rows_c > ld_c then
      rocblas_status_invalid_size
    else
      rocblas_status_success

/-- The argument validation of the array-of-pointers form (lines 98-147); `a`,
`b` and `c` are the arrays of pointers, whose entries are not examined. -/
def validateArgs_batched (handle : rocblas_handle) (trans_a trans_b : rocblas_operation)
    (m n k : Int) (alpha : Ptr) (a : Ptr) (ld_a : Int) (b : Ptr) (ld_b : Int)
    (beta : Ptr) (c : Ptr) (ld_c : Int) (batch_count : Int) : rocblas_status :=
  if m = 0 ∨ n = 0 ∨ k = 0 ∨ batch_count = 0 then
    rocblas_status_success
  else if m < 0 ∨ n < 0 ∨ k < 0 ∨ batch_count < 0 then
    rocblas_status_invalid_size
  else if handle.isNone then
    rocblas_status_invalid_handle
  else if c = 0 ∨ a = 0 ∨ b = 0 ∨ alpha = 0 ∨ beta = 0 then
    rocblas_status_invalid_pointer
  else
    let num_cols_c := n
    let num_rows_c := m
    let num_cols_a := if trans_a = rocblas_operation_none then k else m
    let num_rows_a := if trans_a = rocblas_operation_none then m else k
    let num_cols_b := if trans_b = rocblas_operation_none then n else k
    let num_rows_b := if trans_b = rocblas_operation_none then k else n
    if num_rows_a > ld_a ∨ num_rows_b > ld_b ∨ num_rows_c > ld_c then
      rocblas_status_invalid_size
    else
      rocblas_status_success

/-- Conversion of a `rocblas_int` to `unsigned int`. -/
def toUInt32 (z : Int) : Nat := (z % 2 ^ 32).toNat

/-- A thread step that writes at most one location: the location `addr t`, if
any, receives `f t` of its current content. -/
def point_step {τ κ β : Type} [DecidableEq κ] (addr : τ → Option κ) (f : τ → β → β)
    (mem : κ → β) (t : τ) : κ → β :=
  match addr t with
  | none => mem
  | some a => Function.update mem a (f t (mem a))

/-! ## `scal_kernel` and `rocblas_scal_template` (rocblas_scal.hpp) -/

/-- Modelled from the spec: the coordinates of a thread of the grid of
`scal_kernel`, the built-in variables `hipBlockIdx_x`, `hipBlockIdx_y` and
`hipThreadIdx_x` of the execution substrate ("low-level kernel-launch mechanics
are treated as primitives supplied by the execution substrate"). They are
declared by the runtime, not by the sources, as 32-bit unsigned integers: a
coordinate is a natural number below `2 ^ 32`, and an expression of the kernel
that combines coordinates, or a coordinate and a `rocblas_int`, is evaluated in
32-bit unsigned arithmetic (`toUInt32`). -/
structure scal_thread where
  hipBlockIdx_x : Nat
  hipBlockIdx_y : Nat
  hipThreadIdx_x : Nat
  deriving DecidableEq, Repr

/-- One thread of `scal_kernel` (lines 8-28) in the strided form, the one
compiled when `scal_batched` is not defined: `T* x = xa + hipBlockIdx_y * stridex`,
`tid = hipBlockIdx_x * hipBlockDim_x + hipThreadIdx_x` and, if `tid < n`,
`x[tid * incx] *= alpha`. The product `hipBlockIdx_y * stridex` of a 32-bit
unsigned built-in and a `rocblas_int` is a 32-bit unsigned product, added to
the pointer as an unsigned offset; the right-hand side of `tid` is 32-bit
unsigned arithmetic, widened to the `ptrdiff_t` `tid`; `tid * incx` is a 64-bit
product. The scalar `alpha` is the value `load_scalar` yields: the value passed
in host pointer mode, the value pointed to in device pointer mode. -/
def scal_kernel {α : Type} [Mul α] (hipBlockDim_x : Nat) (t : scal_thread) (n : Int)
    (alpha : α) (xa : Ptr) (offsetx incx stridex : Int) (mem : Int → α) : Int → α :=
  let x : Ptr := xa + (toUInt32 ((t.hipBlockIdx_y : Int) * stridex) : Int)
  let tid : Int :=
    (toUInt32 ((t.hipBlockIdx_x : Int) * (hipBlockDim_x : Int) + (t.hipThreadIdx_x : Int)) : Int)
  if tid < n then
    Function.update mem (x + tid * incx) (mem (x + tid * incx) * alpha)
  else
    mem

/-- A launch of `scal_kernel` issued by `rocblas_scal_template` (lines 48-53):
the grid `blocks`, the block size `threads`, whether `alpha` was passed as a
device pointer, and the kernel arguments. -/
structure scal_launch (α : Type) where
  gridDim_x : Nat
  gridDim_y : Nat
  hipBlockDim_x : Nat
  alpha_on_device : Bool
  n : Int
  alpha : α
  xa : Ptr
  offsetx : Int
  incx : Int
  stridex : Int

/-- The threads of the grid of a launch. -/
def scal_launch.threads {α : Type} (L : scal_launch α) : List scal_thread :=
  (List.product (List.range L.gridDim_y)
    (List.product (List.range L.gridDim_x) (List.range L.hipBlockDim_x))).map
    fun p => { hipBlockIdx_x := p.2.1, hipBlockIdx_y := p.1, hipThreadIdx_x := p.2.2 }

/-- The buffer after the threads of `schedule` have run the kernel of the
launch, one after the other. -/
def scal_launch.run {α : Type} [Mul α] (L : scal_launch α) (schedule : List scal_thread)
    (mem : Int → α) : Int → α :=
  schedule.foldl
    (fun buf t => scal_kernel L.hipBlockDim_x t L.n L.alpha L.xa L.offsetx L.incx L.stridex buf)
    mem

/-- The template of the scaling operation (lines 30-56) on the strided layout,
`NB` being the block size it is instantiated with and `alpha` the scalar that
the pointer `alpha` designates: the returned status and the kernel launches
issued. -/
def rocblas_scal_template {α : Type} (NB : Int) (handle : _rocblas_handle) (n : Int)
    (alpha : α) (x : Ptr) (batched_offsetx incx stridex batch_count : Int) :
    rocblas_status × List (scal_launch α) :=
  if n ≤ 0 ∨ incx ≤ 0 ∨ batch_count ≤ 0 then
    (rocblas_status_success, [])
  else
    let blocks_x := toUInt32 (wrapInt32 (wrapInt32 (Int.tdiv (wrapInt32 (n - 1)) NB) + 1))
    let blocks_y := toUInt32 batch_count
    let threads_x := toUInt32 NB
    if rocblas_pointer_mode_device = handle.pointer_mode then
      (rocblas_status_success,
        [{ gridDim_x := blocks_x, gridDim_y := blocks_y, hipBlockDim_x := threads_x,
           alpha_on_device := true, n := n, alpha := alpha, xa := x,
           offsetx := batched_offsetx, incx := incx, stridex := stridex }])
    else
      (rocblas_status_success,
        [{ gridDim_x := blocks_x, gridDim_y := blocks_y, hipBlockDim_x := threads_x,
           alpha_on_device := false, n := n, alpha := alpha, xa := x,
           offsetx := batched_offsetx, incx := incx, stridex := stridex }])

/-- The location a thread of a launch of `scal_kernel` writes, if any: the
address `x + tid * incx` of the kernel when `tid < n`, with the 32-bit unsigned
batch offset `hipBlockIdx_y * stridex` and the 32-bit unsigned `tid` of the
kernel. -/
def scal_launch.address {α : Type} (L : scal_launch α) (t : scal_thread) : Option Int :=
  if (toUInt32 ((t.hipBlockIdx_x : Int) * (L.hipBlockDim_x : Int)
      + (t.hipThreadIdx_x : Int)) : Int) < L.n then
    some (L.xa + (toUInt32 ((t.hipBlockIdx_y : Int) * L.stridex) : Int)
      + (toUInt32 ((t.hipBlockIdx_x : Int) * (L.hipBlockDim_x : Int)
          + (t.hipThreadIdx_x : Int)) : Int) * L.incx)
  else none

/-- The buffer after a call of `rocblas_scal_template`: the launches it issued
have run, each under the schedule that `schedule` gives for it. -/
def scal_template_run {α : Type} [Mul α] (schedule : scal_launch α → List scal_thread)
    (NB : Int) (handle : _rocblas_handle) (n : Int) (alpha : α) (x : Ptr)
    (batched_offsetx incx stridex batch_count : Int) (mem : Int → α) : Int → α :=
  (rocblas_scal_template NB handle n alpha x batched_offsetx incx stridex batch_count).2.foldl
    (fun buf L => L.run (schedule L) buf) mem

/-! ## `ger_kernel` and `rocblas_ger_template` (rocblas_ger.hpp) -/

/-- A batched operand of the rank-1 update, in one of the two layouts the
template is instantiated with: one base pointer for all batch members
(strided), or an array of pointers, one for each batch member. -/
inductive batch_operand where
  | strided (base : Ptr)
  | batched (pointers : Int → Ptr)

/-- Modelled from the spec: `load_ptr_batch`, declared in `utility.h`, which is
not among the sources. "Plain/strided-array variant: address = base +
batch_index × batch_stride + element_offset. Array-of-device-pointers variant:
address = (array[batch_index]) + element_offset". -/
def load_ptr_batch (p : batch_operand) (block : Nat) (offset stride : Int) : Ptr :=
  match p with
  | .strided base => base + (block : Int) * stride + offset
  | .batched pointers => pointers (block : Int) + offset

/-- The scalar argument of a kernel: the value itself in host pointer mode, a
device pointer in device pointer mode. -/
inductive scalar_operand (α : Type) where
  | host (value : α)
  | device (pointer : Ptr)

/-- Modelled from the spec: `load_scalar`, declared in `utility.h`, which is not
among the sources. "ScalarOperand (alpha/beta): either a host-resident value or
a device-resident value (possibly itself strided per batch element,
stride_alpha)"; `dev` is the device memory the kernel reads. -/
def load_scalar {α : Type} (dev : Int → α) (s : scalar_operand α) (block : Nat)
    (stride : Int) : α :=
  match s with
  | .host value => value
  | .device pointer => dev (pointer + (block : Int) * stride)

/-- Modelled from the spec: the coordinates of a block of the grid of
`ger_kernel`, the built-in variables `hipBlockIdx_x`, `hipBlockIdx_y` and
`hipBlockIdx_z` of the execution substrate, 32-bit unsigned integers as for
`scal_thread`. The index expressions of `ger_kernel`,
`hipBlockIdx_x * hipBlockDim_x + hipThreadIdx_x` and its `y` counterpart, stay
below `m + 64` and `n + 16` inside the grid of `rocblas_ger_template`, where
they do not wrap, and are written as exact sums. -/
structure ger_block where
  hipBlockIdx_x : Nat
  hipBlockIdx_y : Nat
  hipBlockIdx_z : Nat
  deriving DecidableEq, Repr

/-- Modelled from the spec: the coordinates of a thread in its block, the
built-in variables `hipThreadIdx_x` and `hipThreadIdx_y` of the execution
substrate. -/
structure ger_thread where
  hipThreadIdx_x : Nat
  hipThreadIdx_y : Nat
  deriving DecidableEq, Repr

/-- The shared arrays `xdata[DIM_X]` and `ydata[DIM_Y]` of a block (lines 33-34);
a slot that has not been written holds `none`. -/
structure ger_shared (α : Type) where
  xdata : Nat → Option α
  ydata : Nat → Option α

/-- A launch of `ger_kernel` issued by `rocblas_ger_template` (lines 129-175):
the grid, the block size, the template flag `CONJ` and the kernel arguments. -/
structure ger_launch (α : Type) where
  gridDim_x : Nat
  gridDim_y : Nat
  gridDim_z : Nat
  hipBlockDim_x : Nat
  hipBlockDim_y : Nat
  CONJ : Bool
  m : Int
  n : Int
  alpha_device_host : scalar_operand α
  stride_alpha : Int
  xa : batch_operand
  shiftx : Int
  incx : Int
  stridex : Int
  ya : batch_operand
  shifty : Int
  incy : Int
  stridey : Int
  Aa : batch_operand
  shifta : Int
  lda : Int
  strideA : Int

/-- One thread of `ger_kernel` up to the barrier (lines 36-52): the thread with
`hipThreadIdx_y == 0` and `tx < m` stores `x[tx * incx]` in `xdata[hipThreadIdx_x]`,
the thread with `hipThreadIdx_x == 0` and `ty < n` stores `y[ty * incy]` in
`ydata[hipThreadIdx_y]`. The vectors are read through `__restrict__` pointers
from the device memory `dev`, which the kernel does not write. -/
def ger_kernel_load {α : Type} (L : ger_launch α) (dev : Int → α) (blk : ger_block)
    (t : ger_thread) (sh : ger_shared α) : ger_shared α :=
  let x : Ptr := load_ptr_batch L.xa blk.hipBlockIdx_z L.shiftx L.stridex
  let y : Ptr := load_ptr_batch L.ya blk.hipBlockIdx_z L.shifty L.stridey
  let tx : Int := (blk.hipBlockIdx_x : Int) * (L.hipBlockDim_x : Int) + (t.hipThreadIdx_x : Int)
  let ty : Int := (blk.hipBlockIdx_y : Int) * (L.hipBlockDim_y : Int) + (t.hipThreadIdx_y : Int)
  let sh1 : ger_shared α :=
    if t.hipThreadIdx_y = 0 ∧ tx < L.m then
      { sh with xdata := Function.update sh.xdata t.hipThreadIdx_x (some (dev (x + tx * L.incx))) }
    else sh
  if t.hipThreadIdx_x = 0 ∧ ty < L.n then
    { sh1 with ydata := Function.update sh1.ydata t.hipThreadIdx_y (some (dev (y + ty * L.incy))) }
  else sh1

/-- One thread of `ger_kernel` after the barrier (lines 56-60): if `tx < m` and
`ty < n`, `A[tx + lda * ty] += alpha * xdata[hipThreadIdx_x] * (CONJ ?
conj(ydata[hipThreadIdx_y]) : ydata[hipThreadIdx_y])`. The result is `none` when
the thread reads a shared slot that has not been written. -/
def ger_kernel_update {α : Type} [Add α] [Mul α] (conj : α → α) (L : ger_launch α)
    (dev : Int → α) (blk : ger_block) (t : ger_thread) (sh : ger_shared α)
    (Amem : Int → α) : Option (Int → α) :=
  let alpha : α := load_scalar dev L.alpha_device_host blk.hipBlockIdx_z L.stride_alpha
  let A : Ptr := load_ptr_batch L.Aa blk.hipBlockIdx_z L.shifta L.strideA
  let tx : Int := (blk.hipBlockIdx_x : Int) * (L.hipBlockDim_x : Int) + (t.hipThreadIdx_x : Int)
  let ty : Int := (blk.hipBlockIdx_y : Int) * (L.hipBlockDim_y : Int) + (t.hipThreadIdx_y : Int)
  if tx < L.m ∧ ty < L.n then
    match sh.xdata t.hipThreadIdx_x, sh.ydata t.hipThreadIdx_y with
    | some xv, some yv =>
      some (Function.update Amem (A + (tx + L.lda * ty))
        (Amem (A + (tx + L.lda * ty)) + alpha * xv * (if L.CONJ then conj yv else yv)))
    | _, _ => none
  else
    some Amem

/-- The schedule of one block: the block, the order in which its threads run
the part of the kernel before the barrier, and the order in which they run the
part after it. -/
structure ger_block_schedule where
  block : ger_block
  load_order : List ger_thread
  update_order : List ger_thread

/-- The blocks of the grid of a launch. -/
def ger_launch.blocks {α : Type} (L : ger_launch α) : List ger_block :=
  (List.product (List.range L.gridDim_z)
    (List.product (List.range L.gridDim_y) (List.range L.gridDim_x))).map
    fun p => { hipBlockIdx_x := p.2.2, hipBlockIdx_y := p.2.1, hipBlockIdx_z := p.1 }

/-- The threads of a block of a launch. -/
def ger_launch.block_threads {α : Type} (L : ger_launch α) : List ger_thread :=
  (List.product (List.range L.hipBlockDim_y) (List.range L.hipBlockDim_x)).map
    fun p => { hipThreadIdx_x := p.2, hipThreadIdx_y := p.1 }

/-- The schedule that runs the blocks and the threads in the order of their
coordinates. -/
def ger_launch.schedule {α : Type} (L : ger_launch α) : List ger_block_schedule :=
  L.blocks.map fun blk =>
    { block := blk, load_order := L.block_threads, update_order := L.block_threads }

/-- A schedule of a launch runs every block of the grid once, in any order, and
in each block every thread once before the barrier and once after it, in any
orders. -/
def ger_launch.valid_schedule {α : Type} (L : ger_launch α)
    (schedule : List ger_block_schedule) : Prop :=
  (schedule.map fun s => s.block).Perm L.blocks
  ∧ ∀ s ∈ schedule, s.load_order.Perm L.block_threads ∧ s.update_order.Perm L.block_threads

/-- The matrix memory after one block has run: all its threads run the part
before the barrier, from shared arrays not yet written, then all run the part
after it. -/
def ger_launch.run_block {α : Type} [Add α] [Mul α] (conj : α → α) (L : ger_launch α)
    (dev : Int → α) (s : ger_block_schedule) (Amem : Int → α) : Option (Int → α) :=
  let sh : ger_shared α :=
    s.load_order.foldl (fun sh t => ger_kernel_load L dev s.block t sh)
      { xdata := fun _ => none, ydata := fun _ => none }
  s.update_order.foldlM (fun A t => ger_kernel_update conj L dev s.block t sh A) Amem

/-- The matrix memory after the blocks of a schedule have run, one after the
other. -/
def ger_launch.run {α : Type} [Add α] [Mul α] (conj : α → α) (L : ger_launch α)
    (dev : Int → α) (schedule : List ger_block_schedule) (Amem : Int → α) :
    Option (Int → α) :=
  schedule.foldlM (fun A s => L.run_block conj dev s A) Amem

/-- The template of the rank-1 update (lines 94-177): the returned status and
the kernel launches issued. `host` is the host memory, from which `*alpha` is
read in host pointer mode. -/
def rocblas_ger_template {α : Type} (CONJ : Bool) (handle : _rocblas_handle)
    (host : Int → α) (m n : Int) (alpha : Ptr) (stride_alpha : Int) (x : batch_operand)
    (offsetx incx stridex : Int) (y : batch_operand) (offsety incy stridey : Int)
    (A : batch_operand) (offsetA lda strideA batch_count : Int) :
    rocblas_status × List (ger_launch α) :=
  if m = 0 ∨ n = 0 ∨ batch_count = 0 then
    (rocblas_status_success, [])
  else
    let shiftx := inc_shift offsetx incx m
    let shifty := inc_shift offsety incy n
    let DIM_X : Int := 64
    let DIM_Y : Int := 16
    let blocksX := wrapInt32 (wrapInt32 (Int.tdiv (wrapInt32 (m - 1)) DIM_X) + 1)
    let blocksY := wrapInt32 (wrapInt32 (Int.tdiv (wrapInt32 (n - 1)) DIM_Y) + 1)
    if handle.pointer_mode = rocblas_pointer_mode_device then
      (rocblas_status_success,
        [{ gridDim_x := toUInt32 blocksX, gridDim_y := toUInt32 blocksY,
           gridDim_z := toUInt32 batch_count, hipBlockDim_x := toUInt32 DIM_X,
           hipBlockDim_y := toUInt32 DIM_Y, CONJ := CONJ, m := m, n := n,
           alpha_device_host := scalar_operand.device alpha, stride_alpha := stride_alpha,
           xa := x, shiftx := shiftx, incx := incx, stridex := stridex, ya := y,
           shifty := shifty, incy := incy, stridey := stridey, Aa := A, shifta := offsetA,
           lda := lda, strideA := strideA }])
    else
      (rocblas_status_success,
        [{ gridDim_x := toUInt32 blocksX, gridDim_y := toUInt32 blocksY,
           gridDim_z := toUInt32 batch_count, hipBlockDim_x := toUInt32 DIM_X,
           hipBlockDim_y := toUInt32 DIM_Y, CONJ := CONJ, m := m, n := n,
           alpha_device_host := scalar_operand.host (host alpha),
           stride_alpha := stride_alpha, xa := x, shiftx := shiftx, incx := incx,
           stridex := stridex, ya := y, shifty := shifty, incy := incy, stridey := stridey,
           Aa := A, shifta := offsetA, lda := lda, strideA := strideA }])

/-- The matrix memory after a call of `rocblas_ger_template`: the launches it
issued have run, each under the schedule that `schedule` gives for it. -/
def ger_template_run {α : Type} [Add α] [Mul α] (conj : α → α)
    (schedule : ger_launch α → List ger_block_schedule) (dev : Int → α) (CONJ : Bool)
    (handle : _rocblas_handle) (host : Int → α) (m n : Int) (alpha : Ptr)
    (stride_alpha : Int) (x : batch_operand) (offsetx incx stridex : Int)
    (y : batch_operand) (offsety incy stridey : Int) (A : batch_operand)
    (offsetA lda strideA batch_count : Int) (Amem : Int → α) : Option (Int → α) :=
  (rocblas_ger_template CONJ handle host m n alpha stride_alpha x offsetx incx stridex y
    offsety incy stridey A offsetA lda strideA batch_count).2.foldlM
    (fun buf L => L.run conj dev (schedule L) buf) Amem

/-- The location a thread of a block of `ger_kernel` updates, if any: the
address of `A[tx + lda * ty]` when `tx < m` and `ty < n`. -/
def ger_launch.address {α : Type} (L : ger_launch α) (p : ger_block × ger_thread) :
    Option Int :=
  if (p.1.hipBlockIdx_x : Int) * (L.hipBlockDim_x : Int) + (p.2.hipThreadIdx_x : Int) < L.m
      ∧ (p.1.hipBlockIdx_y : Int) * (L.hipBlockDim_y : Int) + (p.2.hipThreadIdx_y : Int) < L.n
  then
    some (load_ptr_batch L.Aa p.1.hipBlockIdx_z L.shifta L.strideA
      + (((p.1.hipBlockIdx_x : Int) * (L.hipBlockDim_x : Int) + (p.2.hipThreadIdx_x : Int))
        + L.lda * ((p.1.hipBlockIdx_y : Int) * (L.hipBlockDim_y : Int)
            + (p.2.hipThreadIdx_y : Int))))
  else none

/-- The value a thread of a block of `ger_kernel` adds to the location it
updates: `alpha * x[tx * incx] * y[ty * incy]`, the last factor conjugated when
`CONJ` is set. -/
def ger_launch.increment {α : Type} [Mul α] (conj : α → α) (L : ger_launch α)
    (dev : Int → α) (p : ger_block × ger_thread) : α :=
  load_scalar dev L.alpha_device_host p.1.hipBlockIdx_z L.stride_alpha
    * dev (load_ptr_batch L.xa p.1.hipBlockIdx_z L.shiftx L.stridex
        + ((p.1.hipBlockIdx_x : Int) * (L.hipBlockDim_x : Int) + (p.2.hipThreadIdx_x : Int))
          * L.incx)
    * (if L.CONJ then
        conj (dev (load_ptr_batch L.ya p.1.hipBlockIdx_z L.shifty L.stridey
          + ((p.1.hipBlockIdx_y : Int) * (L.hipBlockDim_y : Int)
              + (p.2.hipThreadIdx_y : Int)) * L.incy))
      else
        dev (load_ptr_batch L.ya p.1.hipBlockIdx_z L.shifty L.stridey
          + ((p.1.hipBlockIdx_y : Int) * (L.hipBlockDim_y : Int)
              + (p.2.hipThreadIdx_y : Int)) * L.incy))

/-- The launch that `rocblas_ger_template` issues on a call that is not a quick
return, its scalar argument being the pointer `alpha` in device pointer mode
and the value `*alpha` in host pointer mode. -/
def ger_template_launch {α : Type} (CONJ : Bool) (handle : _rocblas_handle)
    (host : Int → α) (m n : Int) (alpha : Ptr) (stride_alpha : Int) (x : batch_operand)
    (offsetx incx stridex : Int) (y : batch_operand) (offsety incy stridey : Int)
    (A : batch_operand) (offsetA lda strideA batch_count : Int) : ger_launch α :=
  { gridDim_x := toUInt32 (wrapInt32 (wrapInt32 (Int.tdiv (wrapInt32 (m - 1)) 64) + 1)),
    gridDim_y := toUInt32 (wrapInt32 (wrapInt32 (Int.tdiv (wrapInt32 (n - 1)) 16) + 1)),
    gridDim_z := toUInt32 batch_count, hipBlockDim_x := toUInt32 64,
    hipBlockDim_y := toUInt32 16, CONJ := CONJ, m := m, n := n,
    alpha_device_host :=
      if handle.pointer_mode = rocblas_pointer_mode_device then scalar_operand.device alpha
      else scalar_operand.host (host alpha),
    stride_alpha := stride_alpha, xa := x, shiftx := inc_shift offsetx incx m,
    incx := incx, stridex := stridex, ya := y, shifty := inc_shift offsety incy n,
    incy := incy, stridey := stridey, Aa := A, shifta := offsetA, lda := lda,
    strideA := strideA }

/-! ## The kinds of log records -/

/-- Whether an effect is a trace record. -/
def Effect.is_log_trace {α : Type} : Effect α → Bool
  | .log_trace => true
  | _ => false

/-- Whether an effect is a bench record. -/
def Effect.is_log_bench {α : Type} : Effect α → Bool
  | .log_bench => true
  | _ => false

/-- Whether an effect is a profile record. -/
def Effect.is_log_profile {α : Type} : Effect α → Bool
  | .log_profile => true
  | _ => false

/-! ## The array-of-pointers form of `scal_kernel` (rocblas_scal.hpp, lines 15-19) -/

/-- Modelled from the spec: the side of a triangular solve, an enumeration of
the public header `rocblas-types.h`, which is not among the sources. -/
inductive rocblas_side where
  | rocblas_side_left
  | rocblas_side_right
  | rocblas_side_both
  deriving DecidableEq, Repr

/-- Modelled from the spec: the tag of the numeric type of a computation
("one entry point per (operation, numeric-type, layout-variant) combination"),
an enumeration of the public header `rocblas-types.h`, which is not among the
sources. The source names the enumerators `rocblas_datatype_f64_r` and
`rocblas_datatype_f32_r`; the others are the remaining real and complex,
floating-point and integer types of the enumeration. -/
inductive rocblas_datatype where
  | rocblas_datatype_f16_r
  | rocblas_datatype_f32_r
  | rocblas_datatype_f64_r
  | rocblas_datatype_f16_c
  | rocblas_datatype_f32_c
  | rocblas_datatype_f64_c
  | rocblas_datatype_i8_r
  | rocblas_datatype_u8_r
  | rocblas_datatype_i32_r
  | rocblas_datatype_u32_r
  | rocblas_datatype_i8_c
  | rocblas_datatype_u8_c
  | rocblas_datatype_i32_c
  | rocblas_datatype_u32_c
  deriving DecidableEq, Repr

open rocblas_datatype

/-- The block size of the single-precision solve (line 11). -/
def STRSM_BLOCK : Int := 128

/-- The block size of the double-precision solve (line 12). -/
def DTRSM_BLOCK : Int := 128

/-- A call of `rocblas_trsm_strided_batched_ex_impl<BLOCK>` as written in lines
108-124 and 127-143: the block size it is instantiated with, the element type
`T` of the pointers after the `static_cast`, and the seventeen arguments. -/
structure trsm_ex_impl_call where
  BLOCK : Int
  T : rocblas_type
  handle : rocblas_handle
  side : rocblas_side
  uplo : rocblas_fill
  transA : rocblas_operation
  diag : rocblas_diagonal
  m : Int
  n : Int
  alpha : Ptr
  A : Ptr
  lda : Int
  stride_A : Int
  B : Ptr
  ldb : Int
  stride_B : Int
  batch_count : Int
  invA : Ptr
  invA_size : Int

/-- The extended strided-batched triangular solve (lines 87-150), a `switch` on
`compute_type`. `rocblas_trsm_strided_batched_ex_impl` is declared in
`rocblas_trsm_strided_batched.hpp`, which is not among the sources; it is given
by the status it returns. The result is the returned status and the calls of
the implementation that were made. -/
def rocblas_trsm_strided_batched_ex
    (rocblas_trsm_strided_batched_ex_impl : trsm_ex_impl_call → rocblas_status)
    (handle : rocblas_handle) (side : rocblas_side) (uplo : rocblas_fill)
    (transA : rocblas_operation) (diag : rocblas_diagonal) (m n : Int) (alpha : Ptr)
    (A : Ptr) (lda stride_A : Int) (B : Ptr) (ldb stride_B batch_count : Int)
    (invA : Ptr) (invA_size stride_invA : Int) (compute_type : rocblas_datatype) :
    rocblas_status × List trsm_ex_impl_call :=
  match compute_type with
  | rocblas_datatype_f64_r =>
    let call : trsm_ex_impl_call :=
      { BLOCK := DTRSM_BLOCK, T := rocblas_type.double, handle := handle, side := side,
        uplo := uplo, transA := transA, diag := diag, m := m, n := n, alpha := alpha, A := A,
        lda := lda, stride_A := stride_A, B := B, ldb := ldb, stride_B := stride_B,
        batch_count := batch_count, invA := invA, invA_size := invA_size }
    (rocblas_trsm_strided_batched_ex_impl call, [call])
  | rocblas_datatype_f32_r =>
    let call : trsm_ex_impl_call :=
      { BLOCK := STRSM_BLOCK, T := rocblas_type.float, handle := handle, side := side,
        uplo := uplo, transA := transA, diag := diag, m := m, n := n, alpha := alpha, A := A,
        lda := lda, stride_A := stride_A, B := B, ldb := ldb, stride_B := stride_B,
        batch_count := batch_count, invA := invA, invA_size := invA_size }
    (rocblas_trsm_strided_batched_ex_impl call, [call])
  | _ => (rocblas_status_not_implemented, [])

/-! ## `rocblas_swap_kernel_batched` (rocblas_swap_batched.hpp, lines 9-27) -/

/-- Modelled from the spec: the coordinates of a thread of the grid of
`rocblas_swap_kernel_batched`, the built-in variables `blockIdx.x`, `blockIdx.y`
and `threadIdx.x` of the execution substrate, 32-bit unsigned integers as for
`scal_thread`. -/
structure swap_thread where
  blockIdx_x : Nat
  blockIdx_y : Nat
  threadIdx_x : Nat
  deriving DecidableEq, Repr

/-- One thread of `rocblas_swap_kernel_batched` (lines 9-27):
`tid = blockIdx.x * blockDim.x + threadIdx.x`, 32-bit unsigned arithmetic widened
to the `ssize_t` `tid`, and, if `tid < n`,
`rocblas_swap_vals(xb + tid * incx, yb + tid * incy)` for
`xb = x[blockIdx.y] + shiftx` and `yb = y[blockIdx.y] + shifty`; the products
`tid * incx` and `tid * incy` are 64-bit. `x` and `y` are the arrays of the base
pointers of the batch members. `rocblas_swap_vals` is declared in
`rocblas_swap.hpp`, which is not among the sources; it is given by what it does
to the memory. -/
def rocblas_swap_kernel_batched {α : Type}
    (rocblas_swap_vals : Ptr → Ptr → (Int → α) → (Int → α)) (blockDim_x : Nat)
    (t : swap_thread) (n : Int) (x : Nat → Ptr) (shiftx incx : Int) (y : Nat → Ptr)
    (shifty incy : Int) (mem : Int → α) : Int → α :=
  let tid : Int :=
    (toUInt32 ((t.blockIdx_x : Int) * (blockDim_x : Int) + (t.threadIdx_x : Int)) : Int)
  if tid < n then
    let xb : Ptr := x t.blockIdx_y + shiftx
    let yb : Ptr := y t.blockIdx_y + shifty
    rocblas_swap_vals (xb + tid * incx) (yb + tid * incy) mem
  else
    mem

/-- One thread of the kernel of a launch issued by
`rocblas_swap_batched_template` (lines 49-60): the block size is `dim3(NB)` and
the kernel arguments are those of the launch; `arrays p` is the array of
pointers stored at the device address `p`. -/
def swap_batched_launch.thread {α : Type} (L : swap_batched_launch)
    (rocblas_swap_vals : Ptr → Ptr → (Int → α) → (Int → α)) (arrays : Ptr → Nat → Ptr)
    (t : swap_thread) (mem : Int → α) : Int → α :=
  rocblas_swap_kernel_batched rocblas_swap_vals (toUInt32 L.NB) t L.n (arrays L.x) L.shiftx
    L.incx (arrays L.y) L.shifty L.incy mem

/-! ## Shared lemmas -/

/-- A signed 32-bit value is unchanged by reduction to 32 bits. -/
theorem wrapInt32_of_isInt32 (z : Int) (h : isInt32 z) : wrapInt32 z = z := by
  unfold isInt32 at h
  unfold wrapInt32
  have h1 : (z + 2 ^ 31) % 2 ^ 32 = z + 2 ^ 31 :=
    Int.emod_eq_of_lt (by omega) (by omega)
  omega

/-- A signed 64-bit value is unchanged by reduction to 64 bits. -/
theorem wrapInt64_of_isInt64 (z : Int) (h : isInt64 z) : wrapInt64 z = z := by
  unfold isInt64 at h
  unfold wrapInt64
  have h1 : (z + 2 ^ 63) % 2 ^ 64 = z + 2 ^ 63 :=
    Int.emod_eq_of_lt (by omega) (by omega)
  omega

/-- Every signed 32-bit value is a signed 64-bit value. -/
theorem isInt64_of_isInt32 (z : Int) (h : isInt32 z) : isInt64 z := by
  unfold isInt32 at h
  unfold isInt64
  constructor <;> omega

/-! ## The argument check of the rank-1 update -/

/-- C1: whenever `m < 0`, `n < 0`, `incx = 0`, `incy = 0`, `lda < m`, `lda < 1`
or `batch_count < 0`, `rocblas_ger_arg_check` returns `invalid_size`, whatever
the pointers `alpha`, `x`, `y`, `A` (null or not) and the remaining arguments are. -/
theorem ger_arg_check_invalid_size (m n : Int) (alpha : Ptr) (stride_alpha : Int)
    (x : Ptr) (offsetx incx stridex : Int) (y : Ptr) (offsety incy stridey : Int)
    (A : Ptr) (offsetA lda strideA : Int) (batch_count : Int)
    (h : m < 0 ∨ n < 0 ∨ incx = 0 ∨ incy = 0 ∨ lda < m ∨ lda < 1 ∨ batch_count < 0) :
    rocblas_ger_arg_check m n alpha stride_alpha x offsetx incx stridex y offsety incy
      stridey A offsetA lda strideA batch_count = rocblas_status_invalid_size := by
  unfold rocblas_ger_arg_check
  rw [if_pos h]

/-- Witness of C1: four null pointers together with a leading dimension `3`
smaller than `m = 5` give `invalid_size`. -/
theorem ger_arg_check_invalid_size_witness :
    rocblas_ger_arg_check 5 2 0 0 0 0 1 0 0 0 1 0 0 0 3 0 1 = rocblas_status_invalid_size :=
  ger_arg_check_invalid_size 5 2 0 0 0 0 1 0 0 0 1 0 0 0 3 0 1 (by decide)

/-- C2: when every size check passes (`m ≥ 0`, `n ≥ 0`, `incx ≠ 0`, `incy ≠ 0`,
`lda ≥ m`, `lda ≥ 1`, `batch_count ≥ 0`) and one of `m`, `n`, `batch_count` is
zero, `rocblas_ger_arg_check` returns `success` for every value of the four
pointers. -/
theorem ger_arg_check_degenerate_success (m n : Int) (alpha : Ptr) (stride_alpha : Int)
    (x : Ptr) (offsetx incx stridex : Int) (y : Ptr) (offsety incy stridey : Int)
    (A : Ptr) (offsetA lda strideA : Int) (batch_count : Int)
    (hm : m ≥ 0) (hn : n ≥ 0) (hincx : incx ≠ 0) (hincy : incy ≠ 0) (hlda : lda ≥ m)
    (hlda1 : lda ≥ 1) (hb : batch_count ≥ 0) (hz : m = 0 ∨ n = 0 ∨ batch_count = 0) :
    rocblas_ger_arg_check m n alpha stride_alpha x offsetx incx stridex y offsety incy
      stridey A offsetA lda strideA batch_count = rocblas_status_success := by
  unfold rocblas_ger_arg_check
  have hsize : ¬ (m < 0 ∨ n < 0 ∨ incx = 0 ∨ incy = 0 ∨ lda < m ∨ lda < 1 ∨ batch_count < 0) := by
    omega
  rw [if_neg hsize, if_pos hz]

/-- Witness of C2: `batch_count = 0` with four null pointers gives `success`. -/
theorem ger_arg_check_degenerate_success_witness :
    rocblas_ger_arg_check 2 2 0 0 0 0 1 0 0 0 (-1) 0 0 0 2 0 0 = rocblas_status_success :=
  ger_arg_check_degenerate_success 2 2 0 0 0 0 1 0 0 0 (-1) 0 0 0 2 0 0
    (by decide) (by decide) (by decide) (by decide) (by decide) (by decide) (by decide)
    (by decide)

/-- C3: on a non-degenerate shape that passes the size checks (`m > 0`, `n > 0`,
`batch_count > 0`, `incx ≠ 0`, `incy ≠ 0`, `lda ≥ m`) `rocblas_ger_arg_check`
returns `invalid_pointer` if one of `alpha`, `x`, `y`, `A` is null and
`continue` otherwise; and, for all arguments, `continue` is returned if and only
if every size check passes, none of `m`, `n`, `batch_count` is zero and the four
pointers are non-null. -/
theorem ger_arg_check_pointer_or_continue (m n : Int) (alpha : Ptr) (stride_alpha : Int)
    (x : Ptr) (offsetx incx stridex : Int) (y : Ptr) (offsety incy stridey : Int)
    (A : Ptr) (offsetA lda strideA : Int) (batch_count : Int) :
    (m > 0 → n > 0 → batch_count > 0 → incx ≠ 0 → incy ≠ 0 → lda ≥ m →
      rocblas_ger_arg_check m n alpha stride_alpha x offsetx incx stridex y offsety incy
        stridey A offsetA lda strideA batch_count
        = if alpha = 0 ∨ x = 0 ∨ y = 0 ∨ A = 0 then rocblas_status_invalid_pointer
          else rocblas_status_continue)
    ∧ (rocblas_ger_arg_check m n alpha stride_alpha x offsetx incx stridex y offsety incy
        stridey A offsetA lda strideA batch_count = rocblas_status_continue
      ↔ (¬ (m < 0 ∨ n < 0 ∨ incx = 0 ∨ incy = 0 ∨ lda < m ∨ lda < 1 ∨ batch_count < 0)
          ∧ ¬ (m = 0 ∨ n = 0 ∨ batch_count = 0)
          ∧ alpha ≠ 0 ∧ x ≠ 0 ∧ y ≠ 0 ∧ A ≠ 0)) := by
  constructor
  · intro hm hn hb hincx hincy hlda
    unfold rocblas_ger_arg_check
    have hsize :
        ¬ (m < 0 ∨ n < 0 ∨ incx = 0 ∨ incy = 0 ∨ lda < m ∨ lda < 1 ∨ batch_count < 0) := by
      omega
    have hdeg : ¬ (m = 0 ∨ n = 0 ∨ batch_count = 0) := by omega
    rw [if_neg hsize, if_neg hdeg]
  · unfold rocblas_ger_arg_check
    by_cases hsize :
        (m < 0 ∨ n < 0 ∨ incx = 0 ∨ incy = 0 ∨ lda < m ∨ lda < 1 ∨ batch_count < 0)
    · rw [if_pos hsize]
      constructor
      · intro hc; cases hc
      · intro hc; exact absurd hsize hc.1
    · rw [if_neg hsize]
      by_cases hdeg : (m = 0 ∨ n = 0 ∨ batch_count = 0)
      · rw [if_pos hdeg]
        constructor
        · intro hc; cases hc
        · intro hc; exact absurd hdeg hc.2.1
      · rw [if_neg hdeg]
        by_cases hp : (alpha = 0 ∨ x = 0 ∨ y = 0 ∨ A = 0)
        · rw [if_pos hp]
          constructor
          · intro hc; cases hc
          · intro hc
            rcases hp with hp | hp | hp | hp
            · exact absurd hp hc.2.2.1
            · exact absurd hp hc.2.2.2.1
            · exact absurd hp hc.2.2.2.2.1
            · exact absurd hp hc.2.2.2.2.2
        · rw [if_neg hp]
          constructor
          · intro _
            refine ⟨hsize, hdeg, ?_, ?_, ?_, ?_⟩
            · intro h0; exact hp (Or.inl h0)
            · intro h0; exact hp (Or.inr (Or.inl h0))
            · intro h0; exact hp (Or.inr (Or.inr (Or.inl h0)))
            · intro h0; exact hp (Or.inr (Or.inr (Or.inr h0)))
          · intro _; rfl

/-- Witness of C3: on the shape `m = n = 2`, `lda = 2`, `batch_count = 3` a null
`A` gives `invalid_pointer`. -/
theorem ger_arg_check_pointer_or_continue_witness :
    rocblas_ger_arg_check 2 2 8 0 16 0 1 0 24 0 1 0 0 0 2 0 3
      = rocblas_status_invalid_pointer :=
  (ger_arg_check_pointer_or_continue 2 2 8 0 16 0 1 0 24 0 1 0 0 0 2 0 3).1
    (by decide) (by decide) (by decide) (by decide) (by decide) (by decide)

/-! ## Address resolution -/

/-- C4: for the strided layouts `load_batched_ptr` returns
`x + batch_index * stride + offset`, the product being the exact integer product
for every 32-bit `batch_index` and every `stride` whose product with it fits in
64 bits; and the mutable and the read-only overloads return the same address for
the same arguments, whatever these are. -/
theorem strided_load_batched_ptr_address (x : Ptr) (batch_index offset stride : Int) :
    strided_batched_arrays.load_batched_ptr x batch_index offset stride
      = const_strided_batched_arrays.load_batched_ptr x batch_index offset stride
    ∧ (isInt32 batch_index → isInt64 (batch_index * stride) →
        strided_batched_arrays.load_batched_ptr x batch_index offset stride
          = x + batch_index * stride + offset
        ∧ const_strided_batched_arrays.load_batched_ptr x batch_index offset stride
          = x + batch_index * stride + offset) := by
  refine ⟨rfl, ?_⟩
  intro hb hp
  have h1 : wrapInt64 batch_index = batch_index :=
    wrapInt64_of_isInt64 batch_index (isInt64_of_isInt32 batch_index hb)
  have h2 : wrapInt64 (batch_index * stride) = batch_index * stride :=
    wrapInt64_of_isInt64 (batch_index * stride) hp
  unfold strided_batched_arrays.load_batched_ptr
    const_strided_batched_arrays.load_batched_ptr
  rw [h1, h2]
  exact ⟨rfl, rfl⟩

/-- Witness of C4: with `batch_index = 65536` and `stride = 65536` the resolved
address is `100 + 2 ^ 32 + 7`; the product is not reduced to 32 bits. -/
theorem strided_load_batched_ptr_address_witness :
    strided_batched_arrays.load_batched_ptr 100 65536 7 65536 = 100 + 65536 * 65536 + 7
    ∧ const_strided_batched_arrays.load_batched_ptr 100 65536 7 65536
        = 100 + 65536 * 65536 + 7 :=
  (strided_load_batched_ptr_address 100 65536 7 65536).2 (by decide) (by decide)

/-- C5: for the array-of-pointers layouts `load_batched_ptr` returns
`x[batch_index] + offset`, and the result is the same for any two values of
`stride`. -/
theorem batched_load_batched_ptr_address (x : Int → Ptr) (batch_index offset : Int)
    (stride stride2 : Int) :
    batched_arrays.load_batched_ptr x batch_index offset stride = x batch_index + offset
    ∧ const_batched_arrays.load_batched_ptr x batch_index offset stride
        = x batch_index + offset
    ∧ batched_arrays.load_batched_ptr x batch_index offset stride
        = batched_arrays.load_batched_ptr x batch_index offset stride2
    ∧ const_batched_arrays.load_batched_ptr x batch_index offset stride
        = const_batched_arrays.load_batched_ptr x batch_index offset stride2 :=
  ⟨rfl, rfl, rfl, rfl⟩

/-! ## The implementations: handle check, size query, degenerate shapes, allocation -/

/-- Every record of `log_records` is a log record. -/
theorem log_records_is_log {α : Type} (layer_mode : Nat) :
    ∀ e ∈ (log_records layer_mode : List (Effect α)), e.is_log = true := by
  intro e he
  unfold log_records at he
  split at he
  · simp only [List.mem_append] at he
    rcases he with (he | he) | he
    · split at he
      · simp only [List.mem_singleton] at he; subst he; rfl
      · simp at he
    · split at he
      · simp only [List.mem_singleton] at he; subst he; rfl
      · simp at he
    · split at he
      · simp only [List.mem_singleton] at he; subst he; rfl
      · simp at he
  · simp at he

/-- A log record is neither a size report, nor an allocation, nor a call of the
kernel template. -/
theorem is_log_exclusive {α : Type} (e : Effect α) (h : e.is_log = true) :
    e.is_size_report = false ∧ e.is_device_malloc = false ∧ e.is_template_call = false := by
  cases e <;> simp_all [Effect.is_log, Effect.is_size_report, Effect.is_device_malloc,
    Effect.is_template_call]

/-- A `uplo` that is lower or upper passes the test of line 132. -/
theorem uplo_supported (uplo : rocblas_fill)
    (hu : uplo = rocblas_fill_lower ∨ uplo = rocblas_fill_upper) :
    ¬ (uplo ≠ rocblas_fill_lower ∧ uplo ≠ rocblas_fill_upper) := by
  rcases hu with hu | hu <;> subst hu <;> simp

/-- C6: with a null handle each of `rocblas_gemv_batched_impl`,
`rocblas_spmv_strided_batched_impl` and `rocblas_trmv_strided_batched_impl`
returns `invalid_handle` for every value of all the other arguments, and the
call has no effect at all: no log record, no reported size, no allocation and no
call of a kernel template. -/
theorem null_handle_invalid_handle :
    (∀ (tmpl : gemv_template_args → rocblas_status) (transA : rocblas_operation)
        (m n : Int) (alpha A : Ptr) (lda : Int) (x : Ptr) (incx : Int) (beta y : Ptr)
        (incy batch_count : Int),
        rocblas_gemv_batched_impl tmpl none transA m n alpha A lda x incx beta y incy
          batch_count = (rocblas_status_invalid_handle, []))
    ∧ (∀ (arg_check tmpl : _rocblas_handle → spmv_args → rocblas_status)
        (uplo : rocblas_fill) (n : Int) (alpha A : Ptr) (strideA : Int) (x : Ptr)
        (incx stridex : Int) (beta y : Ptr) (incy stridey batch_count : Int),
        rocblas_spmv_strided_batched_impl arg_check tmpl none uplo n alpha A strideA x incx
          stridex beta y incy stridey batch_count = (rocblas_status_invalid_handle, []))
    ∧ (∀ (T : rocblas_type) (tmpl : trmv_template_args → rocblas_status)
        (uplo : rocblas_fill) (transa : rocblas_operation) (diag : rocblas_diagonal)
        (m : Int) (a : Ptr) (lda stridea : Int) (x : Ptr) (incx stridex batch_count : Int),
        rocblas_trmv_strided_batched_impl T tmpl none uplo transa diag m a lda stridea x
          incx stridex batch_count = (rocblas_status_invalid_handle, [])) :=
  ⟨fun _ _ _ _ _ _ _ _ _ _ _ _ _ => rfl, fun _ _ _ _ _ _ _ _ _ _ _ _ _ _ _ => rfl,
    fun _ _ _ _ _ _ _ _ _ _ _ _ _ => rfl⟩

/-- The size query of the triangular product. With a non-null handle in
size-query mode, `uplo` lower or upper, `m > 0`, `batch_count > 0`, `lda ≥ m` and
`incx ≠ 0`, `rocblas_trmv_strided_batched_impl` returns the status of
`handle->set_optimal_device_memory_size(dev_bytes)` for `dev_bytes` the value
computed at line 148; the size is reported once, after the log records, and the
call performs neither `device_malloc` nor the kernel template, for every value
of the pointers `a` and `x`. Whenever the `rocblas_int` product
`m * batch_count` is representable, `dev_bytes` is the exact product
`m * batch_count * sizeof(T)`. -/
theorem trmv_size_query (T : rocblas_type) (tmpl : trmv_template_args → rocblas_status)
    (h : _rocblas_handle) (uplo : rocblas_fill) (transa : rocblas_operation)
    (diag : rocblas_diagonal) (m : Int) (a : Ptr) (lda stridea : Int) (x : Ptr)
    (incx stridex batch_count : Int)
    (hq : h.is_device_memory_size_query = true)
    (hu : uplo = rocblas_fill_lower ∨ uplo = rocblas_fill_upper)
    (hm : m > 0) (hb : batch_count > 0) (hlda : lda ≥ m) (hincx : incx ≠ 0) :
    (rocblas_trmv_strided_batched_impl T tmpl (some h) uplo transa diag m a lda stridea x
        incx stridex batch_count).1
      = h.set_optimal_device_memory_size (trmv_dev_bytes T m batch_count)
    ∧ (rocblas_trmv_strided_batched_impl T tmpl (some h) uplo transa diag m a lda stridea x
        incx stridex batch_count).2
      = log_records h.layer_mode
          ++ [Effect.set_optimal_device_memory_size (trmv_dev_bytes T m batch_count)]
    ∧ (∀ e ∈ (rocblas_trmv_strided_batched_impl T tmpl (some h) uplo transa diag m a lda
          stridea x incx stridex batch_count).2,
        e.is_device_malloc = false ∧ e.is_template_call = false)
    ∧ (isInt32 (m * batch_count) →
        (trmv_dev_bytes T m batch_count : Int) = m * batch_count * T.sizeof) := by
  have hup := uplo_supported uplo hu
  have hsize : ¬ (m < 0 ∨ lda < m ∨ lda < 1 ∨ incx = 0 ∨ batch_count < 0) := by omega
  have hdeg : ¬ (m = 0 ∨ batch_count = 0) := by omega
  have hres : rocblas_trmv_strided_batched_impl T tmpl (some h) uplo transa diag m a lda
      stridea x incx stridex batch_count
      = (h.set_optimal_device_memory_size (trmv_dev_bytes T m batch_count),
          log_records h.layer_mode
            ++ [Effect.set_optimal_device_memory_size (trmv_dev_bytes T m batch_count)]) := by
    simp only [rocblas_trmv_strided_batched_impl]
    rw [if_neg hup, if_neg hsize, if_neg hdeg, if_pos hq]
  rw [hres]
  refine ⟨rfl, rfl, ?_, ?_⟩
  · intro e he
    simp only [List.mem_append, List.mem_singleton] at he
    rcases he with he | he
    · have hl := is_log_exclusive e (log_records_is_log h.layer_mode e he)
      exact ⟨hl.2.1, hl.2.2⟩
    · subst he
      exact ⟨rfl, rfl⟩
  · intro hfit
    have hpos : 0 < m * batch_count := Int.mul_pos hm hb
    have hw : wrapInt32 (m * batch_count) = m * batch_count :=
      wrapInt32_of_isInt32 _ hfit
    unfold isInt32 at hfit
    have hsz : 1 ≤ T.sizeof ∧ T.sizeof ≤ 16 := by
      cases T <;> simp [rocblas_type.sizeof]
    unfold trmv_dev_bytes toSizeT
    rw [hw]
    have hmod : (m * batch_count) % 2 ^ 64 = m * batch_count :=
      Int.emod_eq_of_lt (by omega) (by omega)
    rw [hmod]
    obtain ⟨k, hk⟩ := Int.eq_ofNat_of_zero_le (le_of_lt hpos)
    rw [hk] at hfit ⊢
    simp only [Int.toNat_ofNat]
    have hk2 : k < 2 ^ 31 := by omega
    have hlt : k * T.sizeof < 2 ^ 64 := by
      calc k * T.sizeof ≤ k * 16 := Nat.mul_le_mul_left k hsz.2
        _ < 2 ^ 64 := by omega
    rw [Nat.mod_eq_of_lt hlt]
    push_cast
    rfl

/-- An instance of the size query: for `m = 100`, `batch_count = 5` on `float`
data with null `a` and `x` it reports 2000 bytes and returns what the handle
returns for that size. -/
theorem trmv_size_query_instance :
    (rocblas_trmv_strided_batched_impl .float (fun _ => rocblas_status_success)
        (some sample_query_handle) rocblas_fill_upper rocblas_operation_none
        rocblas_diagonal_non_unit 100 0 100 10000 0 1 100 5).1
      = rocblas_status_size_increased
    ∧ (rocblas_trmv_strided_batched_impl .float (fun _ => rocblas_status_success)
        (some sample_query_handle) rocblas_fill_upper rocblas_operation_none
        rocblas_diagonal_non_unit 100 0 100 10000 0 1 100 5).2
      = [Effect.set_optimal_device_memory_size 2000] :=
  ⟨(trmv_size_query .float (fun _ => rocblas_status_success) sample_query_handle
      rocblas_fill_upper rocblas_operation_none rocblas_diagonal_non_unit 100 0 100 10000 0 1
      100 5 rfl (Or.inr rfl) (by decide) (by decide) (by decide) (by decide)).1,
    (trmv_size_query .float (fun _ => rocblas_status_success) sample_query_handle
      rocblas_fill_upper rocblas_operation_none rocblas_diagonal_non_unit 100 0 100 10000 0 1
      100 5 rfl (Or.inr rfl) (by decide) (by decide) (by decide) (by decide)).2.1⟩

/-- C8: with a non-null handle and `uplo` lower or upper, whenever `m < 0`,
`lda < m`, `lda < 1`, `incx = 0` or `batch_count < 0`,
`rocblas_trmv_strided_batched_impl` returns `invalid_size`, in size-query mode
and in normal mode alike and for every value of the pointers `a` and `x`,
without reporting a size, allocating or calling the kernel template; and for
the same `m`, `lda`, `incx`, `batch_count` the strided-batched banded test
takes its early branch and expects `invalid_size`, whatever its `K` is. -/
theorem trmv_invalid_size (T : rocblas_type) (tmpl : trmv_template_args → rocblas_status)
    (h : _rocblas_handle) (uplo : rocblas_fill) (transa : rocblas_operation)
    (diag : rocblas_diagonal) (m : Int) (a : Ptr) (lda stridea : Int) (x : Ptr)
    (incx stridex batch_count : Int)
    (hu : uplo = rocblas_fill_lower ∨ uplo = rocblas_fill_upper)
    (hs : m < 0 ∨ lda < m ∨ lda < 1 ∨ incx = 0 ∨ batch_count < 0) :
    (rocblas_trmv_strided_batched_impl T tmpl (some h) uplo transa diag m a lda stridea x
        incx stridex batch_count).1 = rocblas_status_invalid_size
    ∧ (∀ e ∈ (rocblas_trmv_strided_batched_impl T tmpl (some h) uplo transa diag m a lda
          stridea x incx stridex batch_count).2,
        e.is_size_report = false ∧ e.is_device_malloc = false ∧ e.is_template_call = false)
    ∧ (∀ K : Int, testing_tbmv_strided_batched_expected m K lda incx batch_count
        = some rocblas_status_invalid_size) := by
  have hup := uplo_supported uplo hu
  have hres : rocblas_trmv_strided_batched_impl T tmpl (some h) uplo transa diag m a lda
      stridea x incx stridex batch_count
      = (rocblas_status_invalid_size, log_records h.layer_mode) := by
    simp only [rocblas_trmv_strided_batched_impl]
    rw [if_neg hup, if_pos hs]
  rw [hres]
  refine ⟨rfl, ?_, ?_⟩
  · intro e he
    exact is_log_exclusive e (log_records_is_log h.layer_mode e he)
  · intro K
    have h1 : m < 0 ∨ K < 0 ∨ lda < m ∨ lda < 1 ∨ incx = 0 ∨ K ≥ lda ∨ batch_count ≤ 0 := by
      omega
    have h2 : m < 0 ∨ K < 0 ∨ lda < m ∨ lda < 1 ∨ incx = 0 ∨ K ≥ lda ∨ batch_count < 0 := by
      omega
    unfold testing_tbmv_strided_batched_expected
    rw [if_pos h1, if_pos h2]

/-- Witness of C8: null `a` and `x` together with `lda = 50 < m = 100` give
`invalid_size`. -/
theorem trmv_invalid_size_witness :
    (rocblas_trmv_strided_batched_impl .double (fun _ => rocblas_status_success)
        (some sample_handle) rocblas_fill_lower rocblas_operation_transpose
        rocblas_diagonal_unit 100 0 50 10000 0 1 100 5).1 = rocblas_status_invalid_size :=
  (trmv_invalid_size .double (fun _ => rocblas_status_success) sample_handle
    rocblas_fill_lower rocblas_operation_transpose rocblas_diagonal_unit 100 0 50 10000 0 1
    100 5 (Or.inl rfl) (by decide)).1

/-- C9: with a non-null handle, `uplo` lower or upper, `m ≥ 0`, `lda ≥ m`,
`lda ≥ 1`, `incx ≠ 0`, `batch_count ≥ 0` and `m = 0` or `batch_count = 0`,
`rocblas_trmv_strided_batched_impl` returns `success` when the handle is not in
size-query mode and `size_unchanged` when it is, for every value of the
pointers `a` and `x`; the call reports no size and calls neither
`device_malloc` nor the kernel template. -/
theorem trmv_degenerate (T : rocblas_type) (tmpl : trmv_template_args → rocblas_status)
    (h : _rocblas_handle) (uplo : rocblas_fill) (transa : rocblas_operation)
    (diag : rocblas_diagonal) (m : Int) (a : Ptr) (lda stridea : Int) (x : Ptr)
    (incx stridex batch_count : Int)
    (hu : uplo = rocblas_fill_lower ∨ uplo = rocblas_fill_upper)
    (hm : m ≥ 0) (hlda : lda ≥ m) (hlda1 : lda ≥ 1) (hincx : incx ≠ 0)
    (hb : batch_count ≥ 0) (hz : m = 0 ∨ batch_count = 0) :
    (h.is_device_memory_size_query = false →
        (rocblas_trmv_strided_batched_impl T tmpl (some h) uplo transa diag m a lda stridea
          x incx stridex batch_count).1 = rocblas_status_success)
    ∧ (h.is_device_memory_size_query = true →
        (rocblas_trmv_strided_batched_impl T tmpl (some h) uplo transa diag m a lda stridea
          x incx stridex batch_count).1 = rocblas_status_size_unchanged)
    ∧ (∀ e ∈ (rocblas_trmv_strided_batched_impl T tmpl (some h) uplo transa diag m a lda
          stridea x incx stridex batch_count).2,
        e.is_size_report = false ∧ e.is_device_malloc = false
          ∧ e.is_template_call = false) := by
  have hup := uplo_supported uplo hu
  have hsize : ¬ (m < 0 ∨ lda < m ∨ lda < 1 ∨ incx = 0 ∨ batch_count < 0) := by omega
  have hres : rocblas_trmv_strided_batched_impl T tmpl (some h) uplo transa diag m a lda
      stridea x incx stridex batch_count
      = (if h.is_device_memory_size_query then rocblas_status_size_unchanged
          else rocblas_status_success, log_records h.layer_mode) := by
    simp only [rocblas_trmv_strided_batched_impl]
    rw [if_neg hup, if_neg hsize, if_pos hz]
  rw [hres]
  refine ⟨?_, ?_, ?_⟩
  · intro hq
    simp [hq]
  · intro hq
    simp [hq]
  · intro e he
    exact is_log_exclusive e (log_records_is_log h.layer_mode e he)

/-- Witness of C9: `batch_count = 0` with null `a` and `x` gives `success` in
normal mode. -/
theorem trmv_degenerate_witness :
    (rocblas_trmv_strided_batched_impl .float (fun _ => rocblas_status_success)
        (some sample_handle) rocblas_fill_upper rocblas_operation_none
        rocblas_diagonal_non_unit 100 0 100 10000 0 1 100 0).1 = rocblas_status_success :=
  (trmv_degenerate .float (fun _ => rocblas_status_success) sample_handle
    rocblas_fill_upper rocblas_operation_none rocblas_diagonal_non_unit 100 0 100 10000 0 1
    100 0 (Or.inr rfl) (by decide) (by decide) (by decide) (by decide) (by decide)
    (by decide)).1 rfl

/-- C10: with a non-null handle not in size-query mode, `uplo` lower or upper,
`m > 0`, `batch_count > 0`, `lda ≥ m`, `incx ≠ 0` and non-null `a` and `x`, if
`handle->device_malloc` returns null then `rocblas_trmv_strided_batched_impl`
returns `memory_error`, which is not `success`, and the kernel template is not
called: the only effect after the log records is the failed allocation. -/
theorem trmv_malloc_failure (T : rocblas_type) (tmpl : trmv_template_args → rocblas_status)
    (h : _rocblas_handle) (uplo : rocblas_fill) (transa : rocblas_operation)
    (diag : rocblas_diagonal) (m : Int) (a : Ptr) (lda stridea : Int) (x : Ptr)
    (incx stridex batch_count : Int)
    (hq : h.is_device_memory_size_query = false)
    (hu : uplo = rocblas_fill_lower ∨ uplo = rocblas_fill_upper)
    (hm : m > 0) (hb : batch_count > 0) (hlda : lda ≥ m) (hincx : incx ≠ 0)
    (ha : a ≠ 0) (hx : x ≠ 0)
    (hnull : h.device_malloc (trmv_dev_bytes T m batch_count) = 0) :
    (rocblas_trmv_strided_batched_impl T tmpl (some h) uplo transa diag m a lda stridea x
        incx stridex batch_count).1 = rocblas_status_memory_error
    ∧ (rocblas_trmv_strided_batched_impl T tmpl (some h) uplo transa diag m a lda stridea x
        incx stridex batch_count).1 ≠ rocblas_status_success
    ∧ (rocblas_trmv_strided_batched_impl T tmpl (some h) uplo transa diag m a lda stridea x
        incx stridex batch_count).2
      = log_records h.layer_mode ++ [Effect.device_malloc (trmv_dev_bytes T m batch_count)]
    ∧ (∀ e ∈ (rocblas_trmv_strided_batched_impl T tmpl (some h) uplo transa diag m a lda
          stridea x incx stridex batch_count).2, e.is_template_call = false) := by
  have hup := uplo_supported uplo hu
  have hsize : ¬ (m < 0 ∨ lda < m ∨ lda < 1 ∨ incx = 0 ∨ batch_count < 0) := by omega
  have hdeg : ¬ (m = 0 ∨ batch_count = 0) := by omega
  have hptr : ¬ (a = 0 ∨ x = 0) := by
    intro hp
    rcases hp with hp | hp
    · exact ha hp
    · exact hx hp
  have hnq : ¬ (h.is_device_memory_size_query = true) := by
    rw [hq]; exact Bool.false_ne_true
  have hres : rocblas_trmv_strided_batched_impl T tmpl (some h) uplo transa diag m a lda
      stridea x incx stridex batch_count
      = (rocblas_status_memory_error,
          log_records h.layer_mode
            ++ [Effect.device_malloc (trmv_dev_bytes T m batch_count)]) := by
    simp only [rocblas_trmv_strided_batched_impl]
    rw [if_neg hup, if_neg hsize, if_neg hdeg, if_neg hnq, if_neg hptr, if_pos hnull]
  rw [hres]
  refine ⟨rfl, ?_, rfl, ?_⟩
  · intro hc; cases hc
  · intro e he
    simp only [List.mem_append, List.mem_singleton] at he
    rcases he with he | he
    · exact (is_log_exclusive e (log_records_is_log h.layer_mode e he)).2.2
    · subst he
      rfl

/-- Witness of C10: on an exhausted pool the call with `m = 100`,
`batch_count = 5` and non-null `a`, `x` returns `memory_error`. -/
theorem trmv_malloc_failure_witness :
    (rocblas_trmv_strided_batched_impl .float (fun _ => rocblas_status_success)
        (some sample_exhausted_handle) rocblas_fill_upper rocblas_operation_none
        rocblas_diagonal_non_unit 100 4096 100 10000 8192 1 100 5).1
      = rocblas_status_memory_error :=
  (trmv_malloc_failure .float (fun _ => rocblas_status_success) sample_exhausted_handle
    rocblas_fill_upper rocblas_operation_none rocblas_diagonal_non_unit 100 4096 100 10000
    8192 1 100 5 rfl (Or.inr rfl) (by decide) (by decide) (by decide) (by decide)
    (by decide) (by decide) rfl).1

/-! ## Reaching the kernel template -/

/-- No record of `log_records` is a call of the kernel template. -/
theorem log_records_not_template {α : Type} (layer_mode : Nat) :
    ∀ e ∈ (log_records layer_mode : List (Effect α)), e.is_template_call = false :=
  fun e he => (is_log_exclusive e (log_records_is_log layer_mode e he)).2.2

/-- The two outcomes of `rocblas_trmv_strided_batched_impl`: either every
check passes and the allocation succeeds, and the call ends with the
allocation followed by one call of the template whose status it returns; or
one of them fails and no effect of the call is a call of the template. -/
theorem trmv_impl_dichotomy (T : rocblas_type) (tmpl : trmv_template_args → rocblas_status)
    (h : _rocblas_handle) (uplo : rocblas_fill) (transa : rocblas_operation)
    (diag : rocblas_diagonal) (m : Int) (a : Ptr) (lda stridea : Int) (x : Ptr)
    (incx stridex batch_count : Int) :
    (((uplo = rocblas_fill_lower ∨ uplo = rocblas_fill_upper) ∧ m > 0 ∧ lda ≥ m ∧ incx ≠ 0
        ∧ batch_count > 0 ∧ h.is_device_memory_size_query = false ∧ a ≠ 0 ∧ x ≠ 0
        ∧ h.device_malloc (trmv_dev_bytes T m batch_count) ≠ 0)
      ∧ rocblas_trmv_strided_batched_impl T tmpl (some h) uplo transa diag m a lda stridea x
          incx stridex batch_count
        = (tmpl { uplo := uplo, transa := transa, diag := diag, m := m, a := a, lda := lda,
                  stridea := stridea, x := x, incx := incx, stridex := stridex,
                  w := h.device_malloc (trmv_dev_bytes T m batch_count), stridew := m,
                  batch_count := batch_count },
            log_records h.layer_mode
              ++ [Effect.device_malloc (trmv_dev_bytes T m batch_count),
                  Effect.template_call
                    { uplo := uplo, transa := transa, diag := diag, m := m, a := a,
                      lda := lda, stridea := stridea, x := x, incx := incx,
                      stridex := stridex,
                      w := h.device_malloc (trmv_dev_bytes T m batch_count), stridew := m,
                      batch_count := batch_count }]))
    ∨ (¬ ((uplo = rocblas_fill_lower ∨ uplo = rocblas_fill_upper) ∧ m > 0 ∧ lda ≥ m
          ∧ incx ≠ 0 ∧ batch_count > 0 ∧ h.is_device_memory_size_query = false ∧ a ≠ 0
          ∧ x ≠ 0 ∧ h.device_malloc (trmv_dev_bytes T m batch_count) ≠ 0)
      ∧ ∀ e ∈ (rocblas_trmv_strided_batched_impl T tmpl (some h) uplo transa diag m a lda
          stridea x incx stridex batch_count).2, e.is_template_call = false) := by
  have hlog := log_records_not_template (α := trmv_template_args) h.layer_mode
  have hlog1 : ∀ (b : Effect trmv_template_args), b.is_template_call = false →
      ∀ e ∈ log_records h.layer_mode ++ [b], e.is_template_call = false := by
    intro b hb e he
    simp only [List.mem_append, List.mem_singleton] at he
    rcases he with he | he
    · exact hlog e he
    · subst he; exact hb
  simp only [rocblas_trmv_strided_batched_impl]
  by_cases hup : uplo ≠ rocblas_fill_lower ∧ uplo ≠ rocblas_fill_upper
  · rw [if_pos hup]
    right
    refine ⟨?_, hlog⟩
    rintro ⟨hu, -⟩
    exact uplo_supported uplo hu hup
  rw [if_neg hup]
  by_cases hsize : m < 0 ∨ lda < m ∨ lda < 1 ∨ incx = 0 ∨ batch_count < 0
  · rw [if_pos hsize]
    right
    refine ⟨?_, hlog⟩
    rintro ⟨-, hm, hl, hi, hb, -⟩
    omega
  rw [if_neg hsize]
  by_cases hdeg : m = 0 ∨ batch_count = 0
  · rw [if_pos hdeg]
    right
    refine ⟨?_, hlog⟩
    rintro ⟨-, hm, hl, hi, hb, -⟩
    omega
  rw [if_neg hdeg]
  by_cases hq : h.is_device_memory_size_query = true
  · rw [if_pos hq]
    right
    refine ⟨?_, hlog1 _ rfl⟩
    rintro ⟨-, -, -, -, -, hq2, -⟩
    rw [hq] at hq2
    exact Bool.noConfusion hq2
  rw [if_neg hq]
  by_cases hptr : a = 0 ∨ x = 0
  · rw [if_pos hptr]
    right
    refine ⟨?_, hlog⟩
    rintro ⟨-, -, -, -, -, -, ha, hx, -⟩
    rcases hptr with hp | hp
    · exact ha hp
    · exact hx hp
  rw [if_neg hptr]
  by_cases hw : h.device_malloc (trmv_dev_bytes T m batch_count) = 0
  · rw [if_pos hw]
    right
    refine ⟨?_, hlog1 _ rfl⟩
    rintro ⟨-, -, -, -, -, -, -, -, hw2⟩
    exact hw2 hw
  rw [if_neg hw]
  left
  refine ⟨⟨?_, ?_, ?_, ?_, ?_, ?_, ?_, ?_, hw⟩, rfl⟩
  · by_contra hu
    apply hup
    constructor
    · intro h1; exact hu (Or.inl h1)
    · intro h1; exact hu (Or.inr h1)
  · omega
  · omega
  · omega
  · omega
  · cases hq2 : h.is_device_memory_size_query
    · rfl
    · exact absurd hq2 hq
  · intro h0; exact hptr (Or.inl h0)
  · intro h0; exact hptr (Or.inr h0)

/-- C11: the kernel template is called by `rocblas_trmv_strided_batched_impl`
if and only if the handle is non-null, `uplo` is lower or upper, `m > 0`,
`lda ≥ m`, `incx ≠ 0`, `batch_count > 0`, the handle is not in size-query mode,
`a` and `x` are non-null and `device_malloc` returned a non-null workspace.
When it is called it is called exactly once, on the arguments of the call with
the allocated workspace and workspace stride `m`, and the implementation
returns the status of the template. Hence a call that returns a status the
template does not itself return (such as the `invalid_handle`,
`not_implemented`, `invalid_size`, `invalid_pointer`, `memory_error` and
size-query statuses produced by the implementation) has not reached the
template. -/
theorem trmv_template_reached (T : rocblas_type)
    (tmpl : trmv_template_args → rocblas_status) (handle : rocblas_handle)
    (uplo : rocblas_fill) (transa : rocblas_operation) (diag : rocblas_diagonal) (m : Int)
    (a : Ptr) (lda stridea : Int) (x : Ptr) (incx stridex batch_count : Int) :
    ((∃ e ∈ (rocblas_trmv_strided_batched_impl T tmpl handle uplo transa diag m a lda
          stridea x incx stridex batch_count).2, e.is_template_call = true)
      ↔ ∃ h, handle = some h ∧ (uplo = rocblas_fill_lower ∨ uplo = rocblas_fill_upper)
          ∧ m > 0 ∧ lda ≥ m ∧ incx ≠ 0 ∧ batch_count > 0
          ∧ h.is_device_memory_size_query = false ∧ a ≠ 0 ∧ x ≠ 0
          ∧ h.device_malloc (trmv_dev_bytes T m batch_count) ≠ 0)
    ∧ ((∃ e ∈ (rocblas_trmv_strided_batched_impl T tmpl handle uplo transa diag m a lda
          stridea x incx stridex batch_count).2, e.is_template_call = true)
      → ∃ h, handle = some h
          ∧ (rocblas_trmv_strided_batched_impl T tmpl handle uplo transa diag m a lda
              stridea x incx stridex batch_count).2.filter Effect.is_template_call
            = [Effect.template_call
                { uplo := uplo, transa := transa, diag := diag, m := m, a := a, lda := lda,
                  stridea := stridea, x := x, incx := incx, stridex := stridex,
                  w := h.device_malloc (trmv_dev_bytes T m batch_count), stridew := m,
                  batch_count := batch_count }]
          ∧ (rocblas_trmv_strided_batched_impl T tmpl handle uplo transa diag m a lda
              stridea x incx stridex batch_count).1
            = tmpl { uplo := uplo, transa := transa, diag := diag, m := m, a := a,
                     lda := lda, stridea := stridea, x := x, incx := incx,
                     stridex := stridex,
                     w := h.device_malloc (trmv_dev_bytes T m batch_count), stridew := m,
                     batch_count := batch_count })
    ∧ (∀ s : rocblas_status, (∀ args, tmpl args ≠ s)
      → (rocblas_trmv_strided_batched_impl T tmpl handle uplo transa diag m a lda stridea x
          incx stridex batch_count).1 = s
      → ¬ ∃ e ∈ (rocblas_trmv_strided_batched_impl T tmpl handle uplo transa diag m a lda
          stridea x incx stridex batch_count).2, e.is_template_call = true) := by
  cases handle with
  | none =>
    refine ⟨⟨?_, ?_⟩, ?_, ?_⟩
    · rintro ⟨e, he, -⟩
      simp [rocblas_trmv_strided_batched_impl] at he
    · rintro ⟨h, hh, -⟩
      cases hh
    · rintro ⟨e, he, -⟩
      simp [rocblas_trmv_strided_batched_impl] at he
    · intro s _ _
      rintro ⟨e, he, -⟩
      simp [rocblas_trmv_strided_batched_impl] at he
  | some h =>
    have hfilter : (log_records h.layer_mode : List (Effect trmv_template_args)).filter
        Effect.is_template_call = [] := by
      rw [List.filter_eq_nil_iff]
      intro e he
      rw [log_records_not_template h.layer_mode e he]
      exact Bool.false_ne_true
    rcases trmv_impl_dichotomy T tmpl h uplo transa diag m a lda stridea x incx stridex
      batch_count with ⟨hc, hres⟩ | ⟨hc, hno⟩
    · rw [hres]
      refine ⟨⟨fun _ => ⟨h, rfl, hc⟩, fun _ => ?_⟩, fun _ => ⟨h, rfl, ?_, rfl⟩, ?_⟩
      · exact ⟨_, List.mem_append_right _
          (List.mem_cons_of_mem _ (List.mem_singleton.mpr rfl)), rfl⟩
      · simp [List.filter_append, hfilter, List.filter, Effect.is_template_call]
      · intro s hs hr
        exact absurd hr (hs _)
    · have hnone : ¬ ∃ e ∈ (rocblas_trmv_strided_batched_impl T tmpl (some h) uplo transa
          diag m a lda stridea x incx stridex batch_count).2, e.is_template_call = true := by
        rintro ⟨e, he, ht⟩
        rw [hno e he] at ht
        exact Bool.noConfusion ht
      refine ⟨⟨fun hex => absurd hex hnone, ?_⟩, fun hex => absurd hex hnone,
        fun _ _ _ => hnone⟩
      rintro ⟨h2, hh, hc2⟩
      cases hh
      exact absurd hc2 hc

/-- Witness of C11: with every check passed on a handle whose pool serves the
request, the effects of the call contain a call of the template. -/
theorem trmv_template_reached_witness :
    (rocblas_trmv_strided_batched_impl .float (fun _ => rocblas_status_success)
        (some sample_handle) rocblas_fill_upper rocblas_operation_none
        rocblas_diagonal_non_unit 100 4096 100 10000 8192 1 100 5).2.any
      Effect.is_template_call = true :=
  List.any_eq_true.mpr
    ((trmv_template_reached .float (fun _ => rocblas_status_success) (some sample_handle)
      rocblas_fill_upper rocblas_operation_none rocblas_diagonal_non_unit 100 4096 100 10000
      8192 1 100 5).1.2
      ⟨sample_handle, rfl, Or.inr rfl, by decide, by decide, by decide, by decide, rfl,
        by decide, by decide, by decide⟩)

/-! ## The shift for negative increments -/

/-- The shift `inc_shift` of a negative increment, for `rocblas_int` `offset`,
`inc < 0` and `len ≥ 1` and every logical index `0 ≤ i < len`:
`shift + i * inc = offset + (len - 1 - i) * |inc|`; and with `inc = -1` the
position of logical index `i` is the position of index `len - 1 - i` of the
traversal with `inc = +1`. -/
theorem inc_shift_negative (offset inc len i : Int) (ho : isInt32 offset)
    (hinc : isInt32 inc) (hl : isInt32 len) (hlen : len ≥ 1) (hneg : inc < 0)
    (hi0 : 0 ≤ i) (hi1 : i < len) :
    inc_shift offset inc len + i * inc = offset + (len - 1 - i) * |inc|
    ∧ inc_shift offset (-1) len + i * (-1) = inc_shift offset 1 len + (len - 1 - i) * 1 := by
  unfold isInt32 at ho hinc hl
  have hlen1 : wrapInt32 (len - 1) = len - 1 :=
    wrapInt32_of_isInt32 _ (by unfold isInt32; constructor <;> omega)
  have hshift : ∀ c : Int, c < 0 → -2 ^ 31 ≤ c →
      inc_shift offset c len = offset - c * (len - 1) := by
    intro c hc0 hc1
    have hcw : wrapInt64 c = c :=
      wrapInt64_of_isInt64 _ (by unfold isInt64; constructor <;> omega)
    have hp1 : c * (len - 1) ≤ 0 :=
      mul_nonpos_of_nonpos_of_nonneg (le_of_lt hc0) (by omega)
    have hp2 : -(2 ^ 31 * 2 ^ 31) ≤ c * (len - 1) := by
      have h1 : (-c) * (len - 1) ≤ 2 ^ 31 * 2 ^ 31 :=
        mul_le_mul (by omega) (by omega) (by omega) (by norm_num)
      have h2 : (-c) * (len - 1) = -(c * (len - 1)) := by ring
      omega
    have hpw : wrapInt64 (c * (len - 1)) = c * (len - 1) :=
      wrapInt64_of_isInt64 _ (by unfold isInt64; constructor <;> omega)
    have hdw : wrapInt64 (offset - c * (len - 1)) = offset - c * (len - 1) :=
      wrapInt64_of_isInt64 _ (by unfold isInt64; constructor <;> omega)
    unfold inc_shift
    rw [if_pos hc0, hlen1, hcw, hpw, hdw]
  constructor
  · rw [hshift inc hneg hinc.1, abs_of_neg hneg]
    ring
  · rw [hshift (-1) (by norm_num) (by norm_num)]
    have h1 : inc_shift offset 1 len = offset := by
      unfold inc_shift
      rw [if_neg (by norm_num)]
    rw [h1]
    ring

/-! ## The matrix-multiply bridge -/

/-- C16: for every input of `infer_batch_strides` the outputs are
`stride_a = ld_a * (k if trans_a is none, else m)`,
`stride_b = ld_b * (n if trans_b is none, else k)` and `stride_c = ld_c * n`,
the products being those of the `rocblas_int` type of the outputs; whenever the
three products are representable in that type, the outputs are the exact
integer products. -/
theorem infer_batch_strides_outputs (trans_a trans_b : rocblas_operation)
    (m n k ld_a ld_b ld_c : Int) :
    infer_batch_strides trans_a trans_b m n k ld_a ld_b ld_c
      = (wrapInt32 (ld_a * (if trans_a = rocblas_operation_none then k else m)),
          wrapInt32 (ld_b * (if trans_b = rocblas_operation_none then n else k)),
          wrapInt32 (ld_c * n))
    ∧ (isInt32 (ld_a * (if trans_a = rocblas_operation_none then k else m)) →
        isInt32 (ld_b * (if trans_b = rocblas_operation_none then n else k)) →
        isInt32 (ld_c * n) →
        infer_batch_strides trans_a trans_b m n k ld_a ld_b ld_c
          = (ld_a * (if trans_a = rocblas_operation_none then k else m),
              ld_b * (if trans_b = rocblas_operation_none then n else k),
              ld_c * n)) := by
  refine ⟨rfl, ?_⟩
  intro ha hb hc
  simp only [infer_batch_strides]
  rw [wrapInt32_of_isInt32 _ ha, wrapInt32_of_isInt32 _ hb, wrapInt32_of_isInt32 _ hc]

/-- Witness of C16: `A` transposed (3 rows stored with leading dimension 7,
`m = 4` columns), `B` not transposed (`n = 5` columns, leading dimension 8) and
`C` with leading dimension 9. -/
theorem infer_batch_strides_outputs_witness :
    infer_batch_strides rocblas_operation_transpose rocblas_operation_none 4 5 3 7 8 9
      = (28, 40, 45) :=
  (infer_batch_strides_outputs rocblas_operation_transpose rocblas_operation_none 4 5 3 7 8
    9).2 (by decide) (by decide) (by decide)

/-- C18: for both `validateArgs` overloads with a non-null handle, `m`, `n`,
`k`, `batch_count` positive and non-null `alpha`, `a`, `b`, `beta`, `c`, the
result is `invalid_size` if and only if `ld_a < rows(A)` or `ld_b < rows(B)` or
`ld_c < m`, where `rows(A)` is `m` when `trans_a` is none and `k` otherwise and
`rows(B)` is `k` when `trans_b` is none and `n` otherwise; in every other such
case the result is `success`. -/
theorem validateArgs_leading_dimensions (h : _rocblas_handle)
    (trans_a trans_b : rocblas_operation) (m n k : Int) (alpha a : Ptr)
    (ld_a stride_a : Int) (b : Ptr) (ld_b stride_b : Int) (beta c : Ptr)
    (ld_c stride_c batch_count : Int)
    (hm : m > 0) (hn : n > 0) (hk : k > 0) (hbc : batch_count > 0)
    (halpha : alpha ≠ 0) (ha : a ≠ 0) (hb : b ≠ 0) (hbeta : beta ≠ 0) (hc : c ≠ 0) :
    (validateArgs (some h) trans_a trans_b m n k alpha a ld_a stride_a b ld_b stride_b beta c
        ld_c stride_c batch_count = rocblas_status_invalid_size
      ↔ (ld_a < (if trans_a = rocblas_operation_none then m else k)
          ∨ ld_b < (if trans_b = rocblas_operation_none then k else n) ∨ ld_c < m))
    ∧ (¬ (ld_a < (if trans_a = rocblas_operation_none then m else k)
          ∨ ld_b < (if trans_b = rocblas_operation_none then k else n) ∨ ld_c < m) →
        validateArgs (some h) trans_a trans_b m n k alpha a ld_a stride_a b ld_b stride_b
          beta c ld_c stride_c batch_count = rocblas_status_success)
    ∧ (validateArgs_batched (some h) trans_a trans_b m n k alpha a ld_a b ld_b beta c ld_c
        batch_count = rocblas_status_invalid_size
      ↔ (ld_a < (if trans_a = rocblas_operation_none then m else k)
          ∨ ld_b < (if trans_b = rocblas_operation_none then k else n) ∨ ld_c < m))
    ∧ (¬ (ld_a < (if trans_a = rocblas_operation_none then m else k)
          ∨ ld_b < (if trans_b = rocblas_operation_none then k else n) ∨ ld_c < m) →
        validateArgs_batched (some h) trans_a trans_b m n k alpha a ld_a b ld_b beta c ld_c
          batch_count = rocblas_status_success) := by
  have hzero : ¬ (m = 0 ∨ n = 0 ∨ k = 0 ∨ batch_count = 0) := by omega
  have hnegs : ¬ (m < 0 ∨ n < 0 ∨ k < 0 ∨ batch_count < 0) := by omega
  have hhandle : ¬ ((some h : rocblas_handle).isNone = true) := by simp
  have hptr : ¬ (c = 0 ∨ a = 0 ∨ b = 0 ∨ alpha = 0 ∨ beta = 0) := by
    rintro (h0 | h0 | h0 | h0 | h0)
    · exact hc h0
    · exact ha h0
    · exact hb h0
    · exact halpha h0
    · exact hbeta h0
  have h1 : validateArgs (some h) trans_a trans_b m n k alpha a ld_a stride_a b ld_b stride_b
      beta c ld_c stride_c batch_count
      = if (if trans_a = rocblas_operation_none then m else k) > ld_a
            ∨ (if trans_b = rocblas_operation_none then k else n) > ld_b ∨ m > ld_c
        then rocblas_status_invalid_size else rocblas_status_success := by
    simp only [validateArgs]
    rw [if_neg hzero, if_neg hnegs, if_neg hhandle, if_neg hptr]
  have h2 : validateArgs_batched (some h) trans_a trans_b m n k alpha a ld_a b ld_b beta c
      ld_c batch_count
      = if (if trans_a = rocblas_operation_none then m else k) > ld_a
            ∨ (if trans_b = rocblas_operation_none then k else n) > ld_b ∨ m > ld_c
        then rocblas_status_invalid_size else rocblas_status_success := by
    simp only [validateArgs_batched]
    rw [if_neg hzero, if_neg hnegs, if_neg hhandle, if_neg hptr]
  rw [h1, h2]
  by_cases hld : (if trans_a = rocblas_operation_none then m else k) > ld_a
      ∨ (if trans_b = rocblas_operation_none then k else n) > ld_b ∨ m > ld_c
  · rw [if_pos hld]
    exact ⟨⟨fun _ => hld, fun _ => rfl⟩, fun hn => absurd hld hn,
      ⟨fun _ => hld, fun _ => rfl⟩, fun hn => absurd hld hn⟩
  · rw [if_neg hld]
    refine ⟨⟨fun hc => ?_, fun hn => absurd hn hld⟩, fun _ => rfl,
      ⟨fun hc => ?_, fun hn => absurd hn hld⟩, fun _ => rfl⟩
    · cases hc
    · cases hc

/-- Witness of C18: with `A` transposed, `k = 5` rows of `A` do not fit in the
leading dimension `ld_a = 4`, although `m = 3` would. -/
theorem validateArgs_leading_dimensions_witness :
    validateArgs (some sample_handle) rocblas_operation_transpose rocblas_operation_none
        3 2 5 8 16 4 0 24 5 0 32 40 3 0 1 = rocblas_status_invalid_size :=
  ((validateArgs_leading_dimensions sample_handle rocblas_operation_transpose
      rocblas_operation_none 3 2 5 8 16 4 0 24 5 0 32 40 3 0 1 (by decide) (by decide)
      (by decide) (by decide) (by decide) (by decide) (by decide) (by decide)
      (by decide)).1).2 (Or.inl (by decide))

/-- Counterexample to C19: with a null handle, both `validateArgs` overloads
return `success` when `m = 0` and `invalid_size` when `m = -1`, not
`invalid_handle`: the quick return and the negative-size check come before the
handle check. -/
theorem validateArgs_null_handle_counterexample :
    validateArgs none rocblas_operation_none rocblas_operation_none 0 1 1 8 16 1 0 24 1 0 32
        40 1 0 1 = rocblas_status_success
    ∧ validateArgs_batched none rocblas_operation_none rocblas_operation_none 0 1 1 8 16 1
        24 1 32 40 1 1 = rocblas_status_success
    ∧ validateArgs none rocblas_operation_none rocblas_operation_none (-1) 1 1 8 16 1 0 24 1
        0 32 40 1 0 1 = rocblas_status_invalid_size
    ∧ validateArgs_batched none rocblas_operation_none rocblas_operation_none (-1) 1 1 8 16
        1 24 1 32 40 1 1 = rocblas_status_invalid_size
    ∧ validateArgs none rocblas_operation_none rocblas_operation_none 0 1 1 8 16 1 0 24 1 0 32
        40 1 0 1 ≠ rocblas_status_invalid_handle
    ∧ validateArgs_batched none rocblas_operation_none rocblas_operation_none 0 1 1 8 16 1
        24 1 32 40 1 1 ≠ rocblas_status_invalid_handle := by
  refine ⟨?_, ?_, ?_, ?_, ?_, ?_⟩ <;> decide

/-- C19, amended: for both `validateArgs` overloads, a null handle yields
`invalid_handle` whenever `m`, `n`, `k` and `batch_count` are all positive, for
every value of the pointers, leading dimensions, strides and transpose flags:
the handle check is made before any pointer or leading dimension is examined. -/
theorem validateArgs_null_handle (trans_a trans_b : rocblas_operation) (m n k : Int)
    (alpha a : Ptr) (ld_a stride_a : Int) (b : Ptr) (ld_b stride_b : Int) (beta c : Ptr)
    (ld_c stride_c batch_count : Int)
    (hm : m > 0) (hn : n > 0) (hk : k > 0) (hbc : batch_count > 0) :
    validateArgs none trans_a trans_b m n k alpha a ld_a stride_a b ld_b stride_b beta c
        ld_c stride_c batch_count = rocblas_status_invalid_handle
    ∧ validateArgs_batched none trans_a trans_b m n k alpha a ld_a b ld_b beta c ld_c
        batch_count = rocblas_status_invalid_handle := by
  have hzero : ¬ (m = 0 ∨ n = 0 ∨ k = 0 ∨ batch_count = 0) := by omega
  have hnegs : ¬ (m < 0 ∨ n < 0 ∨ k < 0 ∨ batch_count < 0) := by omega
  have hhandle : (none : rocblas_handle).isNone = true := rfl
  constructor
  · simp only [validateArgs]
    rw [if_neg hzero, if_neg hnegs, if_pos hhandle]
  · simp only [validateArgs_batched]
    rw [if_neg hzero, if_neg hnegs, if_pos hhandle]

/-- Witness of the amended C19: positive sizes, null handle, null pointers and
leading dimensions that are too small still give `invalid_handle`. -/
theorem validateArgs_null_handle_witness :
    validateArgs none rocblas_operation_none rocblas_operation_transpose 4 5 6 0 0 1 0 0 1 0
        0 0 1 0 2 = rocblas_status_invalid_handle
    ∧ validateArgs_batched none rocblas_operation_none rocblas_operation_transpose 4 5 6 0 0
        1 0 1 0 0 1 2 = rocblas_status_invalid_handle :=
  validateArgs_null_handle rocblas_operation_none rocblas_operation_transpose 4 5 6 0 0 1 0 0
    1 0 0 0 1 0 2 (by decide) (by decide) (by decide) (by decide)

/-- Counterexample to C20: with a non-null handle, `m = 0` and `n = -1`, both
`validateArgs` overloads return `success`, not `invalid_size`: the quick return
on a zero size comes before the negative-size check. -/
theorem validateArgs_negative_size_counterexample :
    validateArgs (some sample_handle) rocblas_operation_none rocblas_operation_none 0 (-1) 1
        8 16 1 0 24 1 0 32 40 1 0 1 = rocblas_status_success
    ∧ validateArgs_batched (some sample_handle) rocblas_operation_none
        rocblas_operation_none 0 (-1) 1 8 16 1 24 1 32 40 1 1 = rocblas_status_success
    ∧ validateArgs (some sample_handle) rocblas_operation_none rocblas_operation_none 0 (-1) 1
        8 16 1 0 24 1 0 32 40 1 0 1 ≠ rocblas_status_invalid_size
    ∧ validateArgs_batched (some sample_handle) rocblas_operation_none
        rocblas_operation_none 0 (-1) 1 8 16 1 24 1 32 40 1 1
        ≠ rocblas_status_invalid_size := by
  refine ⟨?_, ?_, ?_, ?_⟩ <;> decide

/-- C20, amended: for both `validateArgs` overloads, whenever one of `m`, `n`,
`k`, `batch_count` is negative and none of the four is zero, the result is
`invalid_size`, whatever the handle and the other arguments are. -/
theorem validateArgs_negative_size (handle : rocblas_handle)
    (trans_a trans_b : rocblas_operation) (m n k : Int) (alpha a : Ptr)
    (ld_a stride_a : Int) (b : Ptr) (ld_b stride_b : Int) (beta c : Ptr)
    (ld_c stride_c batch_count : Int)
    (hneg : m < 0 ∨ n < 0 ∨ k < 0 ∨ batch_count < 0)
    (hzero : m ≠ 0 ∧ n ≠ 0 ∧ k ≠ 0 ∧ batch_count ≠ 0) :
    validateArgs handle trans_a trans_b m n k alpha a ld_a stride_a b ld_b stride_b beta c
        ld_c stride_c batch_count = rocblas_status_invalid_size
    ∧ validateArgs_batched handle trans_a trans_b m n k alpha a ld_a b ld_b beta c ld_c
        batch_count = rocblas_status_invalid_size := by
  have hz : ¬ (m = 0 ∨ n = 0 ∨ k = 0 ∨ batch_count = 0) := by omega
  constructor
  · simp only [validateArgs]
    rw [if_neg hz, if_pos hneg]
  · simp only [validateArgs_batched]
    rw [if_neg hz, if_pos hneg]

/-- Witness of the amended C20: `k = -3` with the other sizes positive gives
`invalid_size`, here with a null handle and null pointers. -/
theorem validateArgs_negative_size_witness :
    validateArgs none rocblas_operation_none rocblas_operation_none 2 2 (-3) 0 0 2 0 0 2 0 0
        0 2 0 1 = rocblas_status_invalid_size
    ∧ validateArgs_batched none rocblas_operation_none rocblas_operation_none 2 2 (-3) 0 0 2
        0 2 0 0 2 1 = rocblas_status_invalid_size :=
  validateArgs_negative_size none rocblas_operation_none rocblas_operation_none 2 2 (-3) 0 0
    2 0 0 2 0 0 0 2 0 1 (by decide) (by decide)

/-! ## Running a grid of threads that write distinct locations -/

/-- When the threads of a list write pairwise distinct locations, the fold of
`point_step` over the list leaves at each location written by a thread `t` the
value `f t` of its initial content, and leaves every other location unchanged. -/
theorem foldl_point_step {τ κ β : Type} [DecidableEq κ] (addr : τ → Option κ)
    (f : τ → β → β) :
    ∀ (l : List τ) (mem : κ → β),
      l.Pairwise (fun t1 t2 => ∀ a, addr t1 = some a → addr t2 ≠ some a) →
      ∀ a, (∀ t ∈ l, addr t = some a → l.foldl (point_step addr f) mem a = f t (mem a))
        ∧ ((∀ t ∈ l, addr t ≠ some a) → l.foldl (point_step addr f) mem a = mem a) := by
  intro l
  induction l with
  | nil =>
    intro mem _ a
    exact ⟨fun t ht => absurd ht (List.not_mem_nil t), fun _ => rfl⟩
  | cons t0 l ih =>
    intro mem hpw a
    rw [List.pairwise_cons] at hpw
    obtain ⟨hhead, htail⟩ := hpw
    have hstep : ∀ c, addr t0 ≠ some c → point_step addr f mem t0 c = mem c := by
      intro c hc
      unfold point_step
      cases h0 : addr t0 with
      | none => rfl
      | some a0 =>
        have hne : c ≠ a0 := by
          intro hca
          apply hc
          rw [h0, hca]
        exact Function.update_noteq hne _ _
    obtain ⟨ih1, ih2⟩ := ih (point_step addr f mem t0) htail a
    constructor
    · intro t ht hat
      rw [List.foldl_cons]
      rcases List.mem_cons.mp ht with hE | hT
      · subst hE
        rw [ih2 (fun t' ht' => hhead t' ht' a hat)]
        unfold point_step
        rw [hat]
        exact Function.update_same _ _ _
      · have h0 : addr t0 ≠ some a := fun h0 => hhead t hT a h0 hat
        rw [ih1 t hT hat, hstep a h0]
    · intro hall
      rw [List.foldl_cons]
      have h0 : addr t0 ≠ some a := hall t0 (List.mem_cons_self _ _)
      rw [ih2 (fun t ht => hall t (List.mem_cons_of_mem _ ht)), hstep a h0]

/-- A linear thread index determines its block and its position in the block. -/
theorem block_thread_unique (d b t b2 t2 : Nat) (ht : t < d) (ht2 : t2 < d)
    (h : b * d + t = b2 * d + t2) : b = b2 ∧ t = t2 := by
  have hd : 0 < d := by omega
  have h1 : (b * d + t) / d = b := by
    rw [Nat.add_comm, Nat.add_mul_div_right _ _ hd, Nat.div_eq_of_lt ht, Nat.zero_add]
  have h2 : (b2 * d + t2) / d = b2 := by
    rw [Nat.add_comm, Nat.add_mul_div_right _ _ hd, Nat.div_eq_of_lt ht2, Nat.zero_add]
  have hb : b = b2 := by rw [← h1, ← h2, h]
  subst hb
  exact ⟨rfl, by omega⟩

/-! ## The scaling kernel -/

/-- A value in the range of a 32-bit unsigned integer is its own conversion. -/
theorem toUInt32_of_range (z : Int) (h0 : 0 ≤ z) (h1 : z < 2 ^ 32) :
    ((toUInt32 z : Nat) : Int) = z := by
  unfold toUInt32
  rw [Int.emod_eq_of_lt h0 h1]
  exact Int.toNat_of_nonneg h0

/-- A thread of `scal_kernel` writes at most the location `scal_launch.address`,
which receives its content times `alpha`. -/
theorem scal_kernel_point_step {α : Type} [Mul α] (L : scal_launch α) (mem : Int → α)
    (t : scal_thread) :
    scal_kernel L.hipBlockDim_x t L.n L.alpha L.xa L.offsetx L.incx L.stridex mem
      = point_step L.address (fun _ v => v * L.alpha) mem t := by
  unfold scal_kernel point_step scal_launch.address
  by_cases h : (toUInt32 ((t.hipBlockIdx_x : Int) * (L.hipBlockDim_x : Int)
      + (t.hipThreadIdx_x : Int)) : Int) < L.n
  · simp only [if_pos h]
  · simp only [if_neg h]

/-- Running a launch of `scal_kernel` is a fold of `point_step`. -/
theorem scal_launch_run_eq {α : Type} [Mul α] (L : scal_launch α)
    (schedule : List scal_thread) (mem : Int → α) :
    L.run schedule mem
      = schedule.foldl (point_step L.address (fun _ v => v * L.alpha)) mem := by
  unfold scal_launch.run
  congr 1
  funext buf t
  exact scal_kernel_point_step L buf t

/-- The threads of the grid of a launch of `scal_kernel`. -/
theorem scal_launch_mem_threads {α : Type} (L : scal_launch α) (t : scal_thread) :
    t ∈ L.threads ↔ t.hipBlockIdx_x < L.gridDim_x ∧ t.hipBlockIdx_y < L.gridDim_y
      ∧ t.hipThreadIdx_x < L.hipBlockDim_x := by
  unfold scal_launch.threads
  simp only [List.mem_map, Prod.exists, List.pair_mem_product, List.mem_range]
  constructor
  · rintro ⟨b, c, d, ⟨hb, hc, hd⟩, rfl⟩
    exact ⟨hc, hb, hd⟩
  · rintro ⟨h1, h2, h3⟩
    exact ⟨t.hipBlockIdx_y, t.hipBlockIdx_x, t.hipThreadIdx_x, ⟨h2, h1, h3⟩, rfl⟩

/-- The list of the threads of a grid has no duplicate. -/
theorem scal_launch_nodup_threads {α : Type} (L : scal_launch α) : L.threads.Nodup := by
  unfold scal_launch.threads
  apply List.Nodup.map
  · rintro ⟨a, b, c⟩ ⟨a2, b2, c2⟩ h
    simp only [scal_thread.mk.injEq] at h
    obtain ⟨h1, h2, h3⟩ := h
    subst h1; subst h2; subst h3
    rfl
  · exact List.Nodup.product (List.nodup_range _)
      (List.Nodup.product (List.nodup_range _) (List.nodup_range _))

/-- The state of the buffer after a launch of `scal_kernel` whose grid covers
the `n` elements of each of its `gridDim_y` batch members and has at most
`2 ^ 32` threads per batch member, when distinct batch members address distinct
locations: under every schedule of the grid, element `i < n` of member `b`, at
the 32-bit unsigned batch offset `b * stridex`, has been multiplied by `alpha`
and every other location is unchanged. -/
theorem scal_launch_run_spec {α : Type} [Mul α] (L : scal_launch α) (mem : Int → α)
    (hd : 0 < L.hipBlockDim_x) (hincx : 0 < L.incx)
    (hcover : L.n ≤ (L.gridDim_x : Int) * (L.hipBlockDim_x : Int))
    (hgrid : L.gridDim_x * L.hipBlockDim_x ≤ 2 ^ 32)
    (hdisj : ∀ b b2 i i2 : Nat, b < L.gridDim_y → b2 < L.gridDim_y → (i : Int) < L.n →
      (i2 : Int) < L.n →
      L.xa + (toUInt32 ((b : Int) * L.stridex) : Int) + (i : Int) * L.incx
        = L.xa + (toUInt32 ((b2 : Int) * L.stridex) : Int) + (i2 : Int) * L.incx → b = b2)
    (schedule : List scal_thread) (hs : schedule.Perm L.threads) :
    (∀ b i : Nat, b < L.gridDim_y → (i : Int) < L.n →
        L.run schedule mem
            (L.xa + (toUInt32 ((b : Int) * L.stridex) : Int) + (i : Int) * L.incx)
          = mem (L.xa + (toUInt32 ((b : Int) * L.stridex) : Int) + (i : Int) * L.incx)
            * L.alpha)
    ∧ (∀ a : Int, (∀ b i : Nat, b < L.gridDim_y → (i : Int) < L.n →
          a ≠ L.xa + (toUInt32 ((b : Int) * L.stridex) : Int) + (i : Int) * L.incx) →
        L.run schedule mem a = mem a) := by
  have hmem : ∀ t, t ∈ schedule ↔ t.hipBlockIdx_x < L.gridDim_x
      ∧ t.hipBlockIdx_y < L.gridDim_y ∧ t.hipThreadIdx_x < L.hipBlockDim_x :=
    fun t => (hs.mem_iff).trans (scal_launch_mem_threads L t)
  have hnodup : schedule.Nodup := (hs.nodup_iff).mpr (scal_launch_nodup_threads L)
  -- inside the grid the 32-bit unsigned `tid` does not wrap
  have htid : ∀ bx tx : Nat, bx < L.gridDim_x → tx < L.hipBlockDim_x →
      ((toUInt32 ((bx : Int) * (L.hipBlockDim_x : Int) + (tx : Int)) : Nat) : Int)
        = ((bx * L.hipBlockDim_x + tx : Nat) : Int) := by
    intro bx tx hbx htx
    have h1 : bx * L.hipBlockDim_x + tx < L.gridDim_x * L.hipBlockDim_x := by
      calc bx * L.hipBlockDim_x + tx < bx * L.hipBlockDim_x + L.hipBlockDim_x := by omega
        _ = (bx + 1) * L.hipBlockDim_x := by ring
        _ ≤ L.gridDim_x * L.hipBlockDim_x := Nat.mul_le_mul_right _ hbx
    have h2 : ((bx * L.hipBlockDim_x + tx : Nat) : Int) < 2 ^ 32 := by
      have : bx * L.hipBlockDim_x + tx < 2 ^ 32 := lt_of_lt_of_le h1 hgrid
      exact_mod_cast this
    have h3 : (bx : Int) * (L.hipBlockDim_x : Int) + (tx : Int)
        = ((bx * L.hipBlockDim_x + tx : Nat) : Int) := by push_cast; rfl
    rw [h3]
    exact toUInt32_of_range _ (Int.natCast_nonneg _) h2
  -- the location of an active thread of the grid
  have haddr : ∀ t a, t ∈ schedule → L.address t = some a →
      ((t.hipBlockIdx_x * L.hipBlockDim_x + t.hipThreadIdx_x : Nat) : Int) < L.n
      ∧ a = L.xa + (toUInt32 ((t.hipBlockIdx_y : Int) * L.stridex) : Int)
          + ((t.hipBlockIdx_x * L.hipBlockDim_x + t.hipThreadIdx_x : Nat) : Int) * L.incx := by
    intro t a ht h
    obtain ⟨hx, -, htx⟩ := (hmem t).mp ht
    unfold scal_launch.address at h
    rw [htid _ _ hx htx] at h
    split at h
    · rename_i hlt
      simp only [Option.some.injEq] at h
      exact ⟨hlt, h.symm⟩
    · cases h
  have hpw : schedule.Pairwise
      (fun t1 t2 => ∀ a, L.address t1 = some a → L.address t2 ≠ some a) := by
    apply List.Pairwise.imp_of_mem _ hnodup
    intro t1 t2 h1 h2 hne a ha1 ha2
    apply hne
    obtain ⟨hlt1, he1⟩ := haddr t1 a h1 ha1
    obtain ⟨hlt2, he2⟩ := haddr t2 a h2 ha2
    obtain ⟨-, hy1, hx1⟩ := (hmem t1).mp h1
    obtain ⟨-, hy2, hx2⟩ := (hmem t2).mp h2
    have hb : t1.hipBlockIdx_y = t2.hipBlockIdx_y :=
      hdisj _ _ _ _ hy1 hy2 hlt1 hlt2 (he1.symm.trans he2)
    have htid1 : ((t1.hipBlockIdx_x * L.hipBlockDim_x + t1.hipThreadIdx_x : Nat) : Int)
        = ((t2.hipBlockIdx_x * L.hipBlockDim_x + t2.hipThreadIdx_x : Nat) : Int) := by
      have h3 := he1.symm.trans he2
      rw [hb] at h3
      have h4 : ((t1.hipBlockIdx_x * L.hipBlockDim_x + t1.hipThreadIdx_x : Nat) : Int)
            * L.incx
          = ((t2.hipBlockIdx_x * L.hipBlockDim_x + t2.hipThreadIdx_x : Nat) : Int)
            * L.incx := by
        linarith
      exact Int.eq_of_mul_eq_mul_right (ne_of_gt hincx) h4
    have htid2 : t1.hipBlockIdx_x * L.hipBlockDim_x + t1.hipThreadIdx_x
        = t2.hipBlockIdx_x * L.hipBlockDim_x + t2.hipThreadIdx_x := by
      exact_mod_cast htid1
    obtain ⟨h5, h6⟩ := block_thread_unique _ _ _ _ _ hx1 hx2 htid2
    cases t1
    cases t2
    simp only [scal_thread.mk.injEq]
    exact ⟨h5, hb, h6⟩
  rw [scal_launch_run_eq]
  constructor
  · intro b i hb hi
    -- the thread that handles element `i` of member `b`
    have hdiv : i / L.hipBlockDim_x < L.gridDim_x := by
      have h1 : (i : Int) < (L.gridDim_x : Int) * (L.hipBlockDim_x : Int) :=
        lt_of_lt_of_le hi hcover
      have h2 : i < L.gridDim_x * L.hipBlockDim_x := by exact_mod_cast h1
      exact Nat.div_lt_of_lt_mul (by rw [Nat.mul_comm]; exact h2)
    have hin : (⟨i / L.hipBlockDim_x, b, i % L.hipBlockDim_x⟩ : scal_thread) ∈ schedule := by
      rw [hmem]
      exact ⟨hdiv, hb, Nat.mod_lt _ hd⟩
    have hidx : i / L.hipBlockDim_x * L.hipBlockDim_x + i % L.hipBlockDim_x = i :=
      Nat.div_add_mod' i L.hipBlockDim_x
    have hat : L.address ⟨i / L.hipBlockDim_x, b, i % L.hipBlockDim_x⟩
        = some (L.xa + (toUInt32 ((b : Int) * L.stridex) : Int) + (i : Int) * L.incx) := by
      unfold scal_launch.address
      dsimp only
      rw [htid _ _ hdiv (Nat.mod_lt _ hd), hidx, if_pos hi]
    exact ((foldl_point_step L.address (fun _ v => v * L.alpha) schedule mem hpw _).1
      _ hin hat)
  · intro a ha
    apply (foldl_point_step L.address (fun _ v => v * L.alpha) schedule mem hpw a).2
    intro t ht hat
    obtain ⟨hlt, he⟩ := haddr t a ht hat
    obtain ⟨-, hy, -⟩ := (hmem t).mp ht
    exact ha _ _ hy hlt he

/-- The launch issued by `rocblas_scal_template` on a call that is not a quick
return, for 32-bit `n`, `batch_count` and block size `NB > 0`: its grid has
`(n - 1) / NB + 1` blocks of `NB` threads for each of the `batch_count` batch
members, and its kernel arguments are those of the call. -/
theorem scal_template_launch {α : Type} (NB : Int) (handle : _rocblas_handle) (n : Int)
    (alpha : α) (x : Ptr) (offsetx incx stridex batch_count : Int)
    (hNB : 0 < NB) (hNB32 : isInt32 NB) (hn : n > 0) (hn32 : isInt32 n) (hincx : incx > 0)
    (hb : batch_count > 0) (hb32 : isInt32 batch_count) :
    ∃ L : scal_launch α,
      rocblas_scal_template NB handle n alpha x offsetx incx stridex batch_count
        = (rocblas_status_success, [L])
      ∧ (L.gridDim_x : Int) = (n - 1) / NB + 1 ∧ (L.gridDim_y : Int) = batch_count
      ∧ (L.hipBlockDim_x : Int) = NB ∧ L.n = n ∧ L.alpha = alpha ∧ L.xa = x
      ∧ L.incx = incx ∧ L.stridex = stridex := by
  unfold isInt32 at hNB32 hn32 hb32
  have hquick : ¬ (n ≤ 0 ∨ incx ≤ 0 ∨ batch_count ≤ 0) := by omega
  have hq0 : 0 ≤ (n - 1) / NB := Int.ediv_nonneg (by omega) (le_of_lt hNB)
  have hq1 : (n - 1) / NB ≤ n - 1 := Int.ediv_le_self _ (by omega)
  have h1 : wrapInt32 (n - 1) = n - 1 :=
    wrapInt32_of_isInt32 _ (by unfold isInt32; constructor <;> omega)
  have h2 : Int.tdiv (n - 1) NB = (n - 1) / NB :=
    Int.tdiv_eq_ediv (by omega) (le_of_lt hNB)
  have h3 : wrapInt32 ((n - 1) / NB) = (n - 1) / NB :=
    wrapInt32_of_isInt32 _ (by unfold isInt32; constructor <;> omega)
  have h4 : wrapInt32 ((n - 1) / NB + 1) = (n - 1) / NB + 1 :=
    wrapInt32_of_isInt32 _ (by unfold isInt32; constructor <;> omega)
  have hu : ∀ z : Int, 0 ≤ z → z < 2 ^ 31 → ((toUInt32 z : Nat) : Int) = z := by
    intro z hz0 hz1
    unfold toUInt32
    rw [Int.emod_eq_of_lt hz0 (by omega)]
    exact Int.toNat_of_nonneg hz0
  have hgx : ((toUInt32 (wrapInt32 (wrapInt32 (Int.tdiv (wrapInt32 (n - 1)) NB) + 1)) : Nat)
      : Int) = (n - 1) / NB + 1 := by
    rw [h1, h2, h3, h4]
    exact hu _ (by omega) (by omega)
  have hgy := hu batch_count (by omega) hb32.2
  have hbd := hu NB (by omega) hNB32.2
  simp only [rocblas_scal_template]
  rw [if_neg hquick]
  by_cases hp : rocblas_pointer_mode_device = handle.pointer_mode
  · rw [if_pos hp]
    exact ⟨_, rfl, hgx, hgy, hbd, rfl, rfl, rfl, rfl, rfl⟩
  · rw [if_neg hp]
    exact ⟨_, rfl, hgx, hgy, hbd, rfl, rfl, rfl, rfl, rfl⟩

/-- The buffer after a call of `rocblas_scal_template` that is not a quick
return, when distinct batch members address distinct locations: under every
schedule of the grid, element `i < n` of batch member `b < batch_count`, at
`x + o + i * incx` for `o` the 32-bit unsigned product `b * stridex` of the
kernel, has been multiplied by `alpha`, and every other location is unchanged;
this holds for every `offsetx`. -/
theorem scal_template_run_spec {α : Type} [Mul α] (NB : Int) (handle : _rocblas_handle)
    (n : Int) (alpha : α) (x : Ptr) (offsetx incx stridex batch_count : Int)
    (mem : Int → α)
    (hNB : 0 < NB) (hNB32 : isInt32 NB) (hn : n > 0) (hn32 : isInt32 n) (hincx : incx > 0)
    (hb : batch_count > 0) (hb32 : isInt32 batch_count)
    (hdisj : ∀ b b2 i i2 : Int, 0 ≤ b → b < batch_count → 0 ≤ b2 → b2 < batch_count →
      0 ≤ i → i < n → 0 ≤ i2 → i2 < n →
      x + (toUInt32 (b * stridex) : Int) + i * incx
        = x + (toUInt32 (b2 * stridex) : Int) + i2 * incx → b = b2)
    (schedule : scal_launch α → List scal_thread)
    (hs : ∀ L : scal_launch α, (schedule L).Perm L.threads) :
    (∀ b i : Int, 0 ≤ b → b < batch_count → 0 ≤ i → i < n →
        scal_template_run schedule NB handle n alpha x offsetx incx stridex batch_count mem
            (x + (toUInt32 (b * stridex) : Int) + i * incx)
          = mem (x + (toUInt32 (b * stridex) : Int) + i * incx) * alpha)
    ∧ (∀ a : Int, (∀ b i : Int, 0 ≤ b → b < batch_count → 0 ≤ i → i < n →
          a ≠ x + (toUInt32 (b * stridex) : Int) + i * incx) →
        scal_template_run schedule NB handle n alpha x offsetx incx stridex batch_count mem a
          = mem a) := by
  obtain ⟨L, hL, hgx, hgy, hbd, hLn, hLa, hLx, hLi, hLs⟩ :=
    scal_template_launch NB handle n alpha x offsetx incx stridex batch_count hNB hNB32 hn
      hn32 hincx hb hb32
  have hrun : scal_template_run schedule NB handle n alpha x offsetx incx stridex
      batch_count mem = L.run (schedule L) mem := by
    unfold scal_template_run
    rw [hL]
    rfl
  have hd : 0 < L.hipBlockDim_x := by
    have : (0 : Int) < (L.hipBlockDim_x : Int) := by rw [hbd]; exact hNB
    exact_mod_cast this
  have hmul := Int.lt_ediv_add_one_mul_self (n - 1) hNB
  have hmul2 : (n - 1) / NB * NB ≤ n - 1 := Int.ediv_mul_le _ (ne_of_gt hNB)
  have hcover : L.n ≤ (L.gridDim_x : Int) * (L.hipBlockDim_x : Int) := by
    rw [hLn, hgx, hbd]
    omega
  have hgrid : L.gridDim_x * L.hipBlockDim_x ≤ 2 ^ 32 := by
    have h1 : ((L.gridDim_x * L.hipBlockDim_x : Nat) : Int) ≤ 2 ^ 32 := by
      push_cast
      rw [hgx, hbd]
      unfold isInt32 at hNB32 hn32
      have h2 : ((n - 1) / NB + 1) * NB = (n - 1) / NB * NB + NB := by ring
      omega
    exact_mod_cast h1
  have hgyN : ∀ b : Nat, b < L.gridDim_y ↔ (b : Int) < batch_count := by
    intro b
    rw [← hgy]
    exact Nat.cast_lt.symm
  have hdisjN : ∀ b b2 i i2 : Nat, b < L.gridDim_y → b2 < L.gridDim_y → (i : Int) < L.n →
      (i2 : Int) < L.n →
      L.xa + (toUInt32 ((b : Int) * L.stridex) : Int) + (i : Int) * L.incx
        = L.xa + (toUInt32 ((b2 : Int) * L.stridex) : Int) + (i2 : Int) * L.incx → b = b2 := by
    intro b b2 i i2 h1 h2 h3 h4 h5
    rw [hLn] at h3 h4
    rw [hLx, hLs, hLi] at h5
    have := hdisj b b2 i i2 (Int.natCast_nonneg b) ((hgyN b).mp h1) (Int.natCast_nonneg b2)
      ((hgyN b2).mp h2) (Int.natCast_nonneg i) h3 (Int.natCast_nonneg i2) h4 h5
    exact_mod_cast this
  obtain ⟨hA, hB⟩ := scal_launch_run_spec L mem hd (by rw [hLi]; exact hincx) hcover hgrid
    hdisjN (schedule L) (hs L)
  rw [hrun]
  constructor
  · intro b i hb0 hb1 hi0 hi1
    have h := hA b.toNat i.toNat ((hgyN _).mpr (by rw [Int.toNat_of_nonneg hb0]; exact hb1))
      (by rw [Int.toNat_of_nonneg hi0, hLn]; exact hi1)
    rw [Int.toNat_of_nonneg hb0, Int.toNat_of_nonneg hi0, hLx, hLs, hLi, hLa] at h
    exact h
  · intro a ha
    apply hB a
    intro b i h1 h2
    rw [hLx, hLs, hLi]
    rw [hLn] at h2
    exact ha b i (Int.natCast_nonneg b) ((hgyN b).mp h1) (Int.natCast_nonneg i) h2

/-- The buffer after a call of `rocblas_scal_template` that is not a quick
return, when the batch offsets `b * stridex` lie in the range of a 32-bit
unsigned integer and distinct batch members address distinct locations: under
every schedule of the grid, element `i < n` of batch member `b < batch_count`,
at `x + b * stridex + i * incx`, has been multiplied by `alpha`, and every other
location is unchanged. -/
theorem scal_template_run_spec_exact {α : Type} [Mul α] (NB : Int)
    (handle : _rocblas_handle) (n : Int) (alpha : α) (x : Ptr)
    (offsetx incx stridex batch_count : Int) (mem : Int → α)
    (hNB : 0 < NB) (hNB32 : isInt32 NB) (hn : n > 0) (hn32 : isInt32 n) (hincx : incx > 0)
    (hb : batch_count > 0) (hb32 : isInt32 batch_count)
    (hrange : ∀ b : Int, 0 ≤ b → b < batch_count → 0 ≤ b * stridex ∧ b * stridex < 2 ^ 32)
    (hdisj : ∀ b b2 i i2 : Int, 0 ≤ b → b < batch_count → 0 ≤ b2 → b2 < batch_count →
      0 ≤ i → i < n → 0 ≤ i2 → i2 < n →
      x + b * stridex + i * incx = x + b2 * stridex + i2 * incx → b = b2)
    (schedule : scal_launch α → List scal_thread)
    (hs : ∀ L : scal_launch α, (schedule L).Perm L.threads) :
    (∀ b i : Int, 0 ≤ b → b < batch_count → 0 ≤ i → i < n →
        scal_template_run schedule NB handle n alpha x offsetx incx stridex batch_count mem
            (x + b * stridex + i * incx)
          = mem (x + b * stridex + i * incx) * alpha)
    ∧ (∀ a : Int, (∀ b i : Int, 0 ≤ b → b < batch_count → 0 ≤ i → i < n →
          a ≠ x + b * stridex + i * incx) →
        scal_template_run schedule NB handle n alpha x offsetx incx stridex batch_count mem a
          = mem a) := by
  have hw : ∀ b : Int, 0 ≤ b → b < batch_count →
      ((toUInt32 (b * stridex) : Nat) : Int) = b * stridex :=
    fun b h0 h1 => toUInt32_of_range _ (hrange b h0 h1).1 (hrange b h0 h1).2
  obtain ⟨hA, hB⟩ := scal_template_run_spec NB handle n alpha x offsetx incx stridex
    batch_count mem hNB hNB32 hn hn32 hincx hb hb32
    (by
      intro b b2 i i2 hb0 hb1 hb20 hb21 hi0 hi1 hi20 hi21 h
      rw [hw b hb0 hb1, hw b2 hb20 hb21] at h
      exact hdisj b b2 i i2 hb0 hb1 hb20 hb21 hi0 hi1 hi20 hi21 h)
    schedule hs
  constructor
  · intro b i hb0 hb1 hi0 hi1
    have h := hA b i hb0 hb1 hi0 hi1
    rw [hw b hb0 hb1] at h
    exact h
  · intro a ha
    apply hB a
    intro b i hb0 hb1 hi0 hi1
    rw [hw b hb0 hb1]
    exact ha b i hb0 hb1 hi0 hi1

/-- The result of `rocblas_scal_template` on the strided layout with `n > 0`,
`incx > 0`, `batch_count > 0`, offset 0, batch offsets `b * stridex` in the
range of a 32-bit unsigned integer and batch members whose addressed positions
do not overlap: the status is `success`, one grid of
`((n - 1) / NB + 1, batch_count)` blocks of `NB` threads is launched and, after
it has run (under any schedule of its threads), for every batch `b < batch_count`
and every `i < n` the element at `x + b * stridex + i * incx` is `alpha` times
its previous value, and every other element of the buffer is unchanged. -/
theorem scal_template_result {α : Type} [CommMagma α] (NB : Int) (handle : _rocblas_handle)
    (n : Int) (alpha : α) (x : Ptr) (incx stridex batch_count : Int) (mem : Int → α)
    (hNB : 0 < NB) (hNB32 : isInt32 NB) (hn : n > 0) (hn32 : isInt32 n) (hincx : incx > 0)
    (hb : batch_count > 0) (hb32 : isInt32 batch_count)
    (hrange : ∀ b : Int, 0 ≤ b → b < batch_count → 0 ≤ b * stridex ∧ b * stridex < 2 ^ 32)
    (hdisj : ∀ b b2 i i2 : Int, 0 ≤ b → b < batch_count → 0 ≤ b2 → b2 < batch_count →
      0 ≤ i → i < n → 0 ≤ i2 → i2 < n →
      x + b * stridex + i * incx = x + b2 * stridex + i2 * incx → b = b2)
    (schedule : scal_launch α → List scal_thread)
    (hs : ∀ L : scal_launch α, (schedule L).Perm L.threads) :
    (rocblas_scal_template NB handle n alpha x 0 incx stridex batch_count).1
      = rocblas_status_success
    ∧ (rocblas_scal_template NB handle n alpha x 0 incx stridex batch_count).2.map
        (fun L => ((L.gridDim_x : Int), (L.gridDim_y : Int), (L.hipBlockDim_x : Int)))
      = [((n - 1) / NB + 1, batch_count, NB)]
    ∧ (∀ b i : Int, 0 ≤ b → b < batch_count → 0 ≤ i → i < n →
        scal_template_run schedule NB handle n alpha x 0 incx stridex batch_count mem
            (x + b * stridex + i * incx)
          = alpha * mem (x + b * stridex + i * incx))
    ∧ (∀ a : Int, (∀ b i : Int, 0 ≤ b → b < batch_count → 0 ≤ i → i < n →
          a ≠ x + b * stridex + i * incx) →
        scal_template_run schedule NB handle n alpha x 0 incx stridex batch_count mem a
          = mem a) := by
  obtain ⟨L, hL, hgx, hgy, hbd, -⟩ :=
    scal_template_launch NB handle n alpha x 0 incx stridex batch_count hNB hNB32 hn hn32
      hincx hb hb32
  obtain ⟨hA, hB⟩ := scal_template_run_spec_exact NB handle n alpha x 0 incx stridex
    batch_count mem hNB hNB32 hn hn32 hincx hb hb32 hrange hdisj schedule hs
  refine ⟨by rw [hL], ?_, ?_, hB⟩
  · rw [hL]
    simp only [List.map_cons, List.map_nil, hgx, hgy, hbd]
  · intro b i hb0 hb1 hi0 hi1
    rw [hA b i hb0 hb1 hi0 hi1]
    exact mul_comm _ _

/-- The scenario of the vector-scale operation: with `n = 5`, `incx = 1`,
`alpha = 2` and the input `[1, 2, 3, 4, 5]` at positions `0, …, 4`, the output
is `[2, 4, 6, 8, 10]`. -/
theorem scal_template_result_scenario :
    [0, 1, 2, 3, 4].map
        (scal_template_run scal_launch.threads 256 sample_handle 5 (2 : Int) 0 0 1 5 1
          (fun a => if 0 ≤ a ∧ a < 5 then a + 1 else 0))
      = [2, 4, 6, 8, 10] := by
  have h := (scal_template_result 256 sample_handle 5 (2 : Int) 0 1 5 1
    (fun a => if 0 ≤ a ∧ a < 5 then a + 1 else 0) (by decide) (by decide) (by decide)
    (by decide) (by decide) (by decide) (by decide)
    (by intro b hb0 hb1; omega)
    (by intro b b2 i i2 _ _ _ _ _ _ _ _ _; omega) scal_launch.threads
    (fun L => List.Perm.refl _)).2.2.1
  have h0 := h 0 0 (by decide) (by decide) (by decide) (by decide)
  have h1 := h 0 1 (by decide) (by decide) (by decide) (by decide)
  have h2 := h 0 2 (by decide) (by decide) (by decide) (by decide)
  have h3 := h 0 3 (by decide) (by decide) (by decide) (by decide)
  have h4 := h 0 4 (by decide) (by decide) (by decide) (by decide)
  norm_num at h0 h1 h2 h3 h4
  simp only [List.map_cons, List.map_nil, h0, h1, h2, h3, h4]

/-- The buffer after the first `k` of the single-member calls. -/
theorem scal_sequence_spec {α : Type} [Mul α] (NB : Int) (handle : _rocblas_handle)
    (n : Int) (alpha : α) (x : Ptr) (incx s B : Int) (mem : Int → α)
    (hNB : 0 < NB) (hNB32 : isInt32 NB) (hn : n > 0) (hn32 : isInt32 n) (hincx : incx > 0)
    (hdisj : ∀ b b2 i i2 : Int, 0 ≤ b → b < B → 0 ≤ b2 → b2 < B →
      0 ≤ i → i < n → 0 ≤ i2 → i2 < n →
      x + b * s + i * incx = x + b2 * s + i2 * incx → b = b2)
    (schedules : Nat → scal_launch α → List scal_thread)
    (hss : ∀ (b : Nat) (L : scal_launch α), (schedules b L).Perm L.threads) :
    ∀ k : Nat, (k : Int) ≤ B →
      (∀ b i : Int, 0 ≤ b → b < k → 0 ≤ i → i < n →
          (List.range k).foldl
              (fun buf (b : Nat) => scal_template_run (schedules b) NB handle n alpha
                (x + (b : Int) * s) 0 incx s 1 buf) mem (x + b * s + i * incx)
            = mem (x + b * s + i * incx) * alpha)
      ∧ (∀ a : Int, (∀ b i : Int, 0 ≤ b → b < k → 0 ≤ i → i < n →
            a ≠ x + b * s + i * incx) →
          (List.range k).foldl
              (fun buf (b : Nat) => scal_template_run (schedules b) NB handle n alpha
                (x + (b : Int) * s) 0 incx s 1 buf) mem a
            = mem a) := by
  intro k
  induction k with
  | zero =>
    intro _
    refine ⟨?_, fun a _ => rfl⟩
    intro b i hb0 hb1
    simp only [Nat.cast_zero] at hb1
    omega
  | succ k ih =>
    intro hk
    have hk2 : (k : Int) < B := by push_cast at hk; omega
    obtain ⟨ihA, ihB⟩ := ih (le_of_lt hk2)
    obtain ⟨hA, hB⟩ := scal_template_run_spec_exact NB handle n alpha (x + (k : Int) * s) 0
      incx s 1 ((List.range k).foldl
          (fun buf (b : Nat) => scal_template_run (schedules b) NB handle n alpha
            (x + (b : Int) * s) 0 incx s 1 buf) mem)
      hNB hNB32 hn hn32 hincx (by decide) (by decide)
      (by
        intro b hb0 hb1
        have hb : b = 0 := by omega
        subst hb
        simp)
      (by intro b b2 i i2 _ _ _ _ _ _ _ _ _; omega) (schedules k) (hss k)
    rw [List.range_succ, List.foldl_append]
    simp only [List.foldl_cons, List.foldl_nil]
    constructor
    · intro b i hb0 hb1 hi0 hi1
      push_cast at hb1
      by_cases hbk : b = k
      · subst hbk
        have h := hA 0 i (le_refl _) (by decide) hi0 hi1
        have he : x + (k : Int) * s + 0 * s + i * incx = x + (k : Int) * s + i * incx := by
          ring
        rw [he] at h
        rw [h]
        congr 1
        apply ihB
        intro b2 i2 hb20 hb21 hi20 hi21 heq
        have := hdisj k b2 i i2 hb0 hk2 hb20 (by omega) hi0 hi1 hi20 hi21 heq
        omega
      · have hlt : b < k := by omega
        rw [hB, ihA b i hb0 hlt hi0 hi1]
        intro b2 i2 hb20 hb21 hi20 hi21 heq
        have hb2 : b2 = 0 := by omega
        subst hb2
        have he : x + (k : Int) * s + 0 * s + i2 * incx = x + (k : Int) * s + i2 * incx := by
          ring
        rw [he] at heq
        have := hdisj b k i i2 hb0 (by omega) (Int.natCast_nonneg k) hk2 hi0 hi1 hi20 hi21 heq
        omega
    · intro a ha
      rw [hB, ihB]
      · intro b i hb0 hb1 hi0 hi1
        exact ha b i hb0 (by push_cast; omega) hi0 hi1
      · intro b2 i2 hb20 hb21 hi20 hi21 heq
        have hb2 : b2 = 0 := by omega
        subst hb2
        apply ha k i2 (Int.natCast_nonneg k) (by push_cast; omega) hi20 hi21
        rw [heq]
        ring

/-- The batched call and the sequence of single-member calls. For the strided
scaling operation with `n > 0`, `incx > 0`, `B > 0`, batch offsets `b * s` in
the range of a 32-bit unsigned integer and batch members that do not overlap,
one call of `rocblas_scal_template` with `batch_count = B` and stride `s` leaves
the buffer in the same state as the sequence of `B` calls with
`batch_count = 1`, the `b`-th applied to the sub-slice starting at `x + b * s`
(`b = 0, …, B - 1`), for every initial buffer, every `alpha` and every schedule
of each launched grid. -/
theorem scal_batched_sequence_in_range {α : Type} [Mul α] (NB : Int)
    (handle : _rocblas_handle) (n : Int) (alpha : α) (x : Ptr) (incx s B : Int)
    (mem : Int → α)
    (hNB : 0 < NB) (hNB32 : isInt32 NB) (hn : n > 0) (hn32 : isInt32 n) (hincx : incx > 0)
    (hB : B > 0) (hB32 : isInt32 B)
    (hrange : ∀ b : Int, 0 ≤ b → b < B → 0 ≤ b * s ∧ b * s < 2 ^ 32)
    (hdisj : ∀ b b2 i i2 : Int, 0 ≤ b → b < B → 0 ≤ b2 → b2 < B →
      0 ≤ i → i < n → 0 ≤ i2 → i2 < n →
      x + b * s + i * incx = x + b2 * s + i2 * incx → b = b2)
    (schedule : scal_launch α → List scal_thread)
    (hs : ∀ L : scal_launch α, (schedule L).Perm L.threads)
    (schedules : Nat → scal_launch α → List scal_thread)
    (hss : ∀ (b : Nat) (L : scal_launch α), (schedules b L).Perm L.threads) :
    scal_template_run schedule NB handle n alpha x 0 incx s B mem
      = (List.range B.toNat).foldl
          (fun buf (b : Nat) => scal_template_run (schedules b) NB handle n alpha
            (x + (b : Int) * s) 0 incx s 1 buf) mem := by
  have hcast : (B.toNat : Int) = B := Int.toNat_of_nonneg (le_of_lt hB)
  obtain ⟨hA, hB2⟩ := scal_template_run_spec_exact NB handle n alpha x 0 incx s B mem hNB
    hNB32 hn hn32 hincx hB hB32 hrange hdisj schedule hs
  obtain ⟨hC, hD⟩ := scal_sequence_spec NB handle n alpha x incx s B mem hNB hNB32 hn hn32
    hincx hdisj schedules hss B.toNat (le_of_eq hcast)
  rw [hcast] at hC hD
  funext a
  by_cases h : ∃ b i : Int, 0 ≤ b ∧ b < B ∧ 0 ≤ i ∧ i < n ∧ a = x + b * s + i * incx
  · obtain ⟨b, i, hb0, hb1, hi0, hi1, rfl⟩ := h
    rw [hA b i hb0 hb1 hi0 hi1, hC b i hb0 hb1 hi0 hi1]
  · have hne : ∀ b i : Int, 0 ≤ b → b < B → 0 ≤ i → i < n → a ≠ x + b * s + i * incx :=
      fun b i hb0 hb1 hi0 hi1 heq => h ⟨b, i, hb0, hb1, hi0, hi1, heq⟩
    rw [hB2 a hne, hD a hne]

/-! ## The rank-1 update kernel -/

/-- A fold of steps that all succeed is the fold of their results. -/
theorem foldlM_eq_some_foldl {σ τ : Type} (g : σ → τ → Option σ) (g2 : σ → τ → σ) :
    ∀ (l : List τ) (a : σ), (∀ t ∈ l, ∀ a, g a t = some (g2 a t)) →
      l.foldlM g a = some (l.foldl g2 a) := by
  intro l
  induction l with
  | nil =>
    intro a _
    rfl
  | cons t l ih =>
    intro a h
    rw [List.foldlM_cons, h t (List.mem_cons_self _ _) a, List.foldl_cons]
    exact ih (g2 a t) (fun t2 ht2 => h t2 (List.mem_cons_of_mem _ ht2))

/-- A fold over the blocks of the folds over their threads is one fold over the
list of all the threads. -/
theorem foldl_flatMap_eq {σ τ υ : Type} (f : σ → υ → σ) (g : τ → List υ) :
    ∀ (l : List τ) (a : σ),
      (l.flatMap g).foldl f a = l.foldl (fun acc s => (g s).foldl f acc) a := by
  intro l
  induction l with
  | nil =>
    intro a
    rfl
  | cons s l ih =>
    intro a
    rw [List.flatMap_cons, List.foldl_append, List.foldl_cons, ih]

/-- The blocks of the grid of a launch of `ger_kernel`. -/
theorem ger_launch_mem_blocks {α : Type} (L : ger_launch α) (blk : ger_block) :
    blk ∈ L.blocks ↔ blk.hipBlockIdx_x < L.gridDim_x ∧ blk.hipBlockIdx_y < L.gridDim_y
      ∧ blk.hipBlockIdx_z < L.gridDim_z := by
  unfold ger_launch.blocks
  simp only [List.mem_map, Prod.exists, List.pair_mem_product, List.mem_range]
  constructor
  · rintro ⟨b, c, d, ⟨hb, hc, hd⟩, rfl⟩
    exact ⟨hd, hc, hb⟩
  · rintro ⟨h1, h2, h3⟩
    exact ⟨blk.hipBlockIdx_z, blk.hipBlockIdx_y, blk.hipBlockIdx_x, ⟨h3, h2, h1⟩, rfl⟩

/-- The list of the blocks of a grid has no duplicate. -/
theorem ger_launch_nodup_blocks {α : Type} (L : ger_launch α) : L.blocks.Nodup := by
  unfold ger_launch.blocks
  apply List.Nodup.map
  · rintro ⟨a, b, c⟩ ⟨a2, b2, c2⟩ h
    simp only [ger_block.mk.injEq] at h
    obtain ⟨h1, h2, h3⟩ := h
    subst h1; subst h2; subst h3
    rfl
  · exact List.Nodup.product (List.nodup_range _)
      (List.Nodup.product (List.nodup_range _) (List.nodup_range _))

/-- The threads of a block of a launch of `ger_kernel`. -/
theorem ger_launch_mem_block_threads {α : Type} (L : ger_launch α) (t : ger_thread) :
    t ∈ L.block_threads ↔ t.hipThreadIdx_x < L.hipBlockDim_x
      ∧ t.hipThreadIdx_y < L.hipBlockDim_y := by
  unfold ger_launch.block_threads
  simp only [List.mem_map, Prod.exists, List.pair_mem_product, List.mem_range]
  constructor
  · rintro ⟨b, c, ⟨hb, hc⟩, rfl⟩
    exact ⟨hc, hb⟩
  · rintro ⟨h1, h2⟩
    exact ⟨t.hipThreadIdx_y, t.hipThreadIdx_x, ⟨h2, h1⟩, rfl⟩

/-- The list of the threads of a block has no duplicate. -/
theorem ger_launch_nodup_block_threads {α : Type} (L : ger_launch α) :
    L.block_threads.Nodup := by
  unfold ger_launch.block_threads
  apply List.Nodup.map
  · rintro ⟨a, b⟩ ⟨a2, b2⟩ h
    simp only [ger_thread.mk.injEq] at h
    obtain ⟨h1, h2⟩ := h
    subst h1; subst h2
    rfl
  · exact List.Nodup.product (List.nodup_range _) (List.nodup_range _)

/-- The part of `ger_kernel` before the barrier acts on `xdata` as a write of
one slot. -/
theorem ger_kernel_load_xdata {α : Type} (L : ger_launch α) (dev : Int → α)
    (blk : ger_block) (t : ger_thread) (sh : ger_shared α) :
    (ger_kernel_load L dev blk t sh).xdata
      = point_step
          (fun t : ger_thread =>
            if t.hipThreadIdx_y = 0
                ∧ (blk.hipBlockIdx_x : Int) * (L.hipBlockDim_x : Int) + (t.hipThreadIdx_x : Int)
                  < L.m
            then some t.hipThreadIdx_x else none)
          (fun t _ => some (dev (load_ptr_batch L.xa blk.hipBlockIdx_z L.shiftx L.stridex
            + ((blk.hipBlockIdx_x : Int) * (L.hipBlockDim_x : Int) + (t.hipThreadIdx_x : Int))
              * L.incx)))
          sh.xdata t := by
  unfold ger_kernel_load point_step
  by_cases h1 : t.hipThreadIdx_y = 0
      ∧ (blk.hipBlockIdx_x : Int) * (L.hipBlockDim_x : Int) + (t.hipThreadIdx_x : Int) < L.m
  · by_cases h2 : t.hipThreadIdx_x = 0
        ∧ (blk.hipBlockIdx_y : Int) * (L.hipBlockDim_y : Int) + (t.hipThreadIdx_y : Int) < L.n
    · simp only [if_pos h1, if_pos h2]
    · simp only [if_pos h1, if_neg h2]
  · by_cases h2 : t.hipThreadIdx_x = 0
        ∧ (blk.hipBlockIdx_y : Int) * (L.hipBlockDim_y : Int) + (t.hipThreadIdx_y : Int) < L.n
    · simp only [if_neg h1, if_pos h2]
    · simp only [if_neg h1, if_neg h2]

/-- The part of `ger_kernel` before the barrier acts on `ydata` as a write of
one slot. -/
theorem ger_kernel_load_ydata {α : Type} (L : ger_launch α) (dev : Int → α)
    (blk : ger_block) (t : ger_thread) (sh : ger_shared α) :
    (ger_kernel_load L dev blk t sh).ydata
      = point_step
          (fun t : ger_thread =>
            if t.hipThreadIdx_x = 0
                ∧ (blk.hipBlockIdx_y : Int) * (L.hipBlockDim_y : Int) + (t.hipThreadIdx_y : Int)
                  < L.n
            then some t.hipThreadIdx_y else none)
          (fun t _ => some (dev (load_ptr_batch L.ya blk.hipBlockIdx_z L.shifty L.stridey
            + ((blk.hipBlockIdx_y : Int) * (L.hipBlockDim_y : Int) + (t.hipThreadIdx_y : Int))
              * L.incy)))
          sh.ydata t := by
  unfold ger_kernel_load point_step
  by_cases h1 : t.hipThreadIdx_y = 0
      ∧ (blk.hipBlockIdx_x : Int) * (L.hipBlockDim_x : Int) + (t.hipThreadIdx_x : Int) < L.m
  · by_cases h2 : t.hipThreadIdx_x = 0
        ∧ (blk.hipBlockIdx_y : Int) * (L.hipBlockDim_y : Int) + (t.hipThreadIdx_y : Int) < L.n
    · simp only [if_pos h1, if_pos h2]
    · simp only [if_pos h1, if_neg h2]
  · by_cases h2 : t.hipThreadIdx_x = 0
        ∧ (blk.hipBlockIdx_y : Int) * (L.hipBlockDim_y : Int) + (t.hipThreadIdx_y : Int) < L.n
    · simp only [if_neg h1, if_pos h2]
    · simp only [if_neg h1, if_neg h2]

/-- A fold of a step on a pair of arrays that acts on each array on its own is
the pair of the folds. -/
theorem ger_load_fold_components {α : Type} (L : ger_launch α) (dev : Int → α)
    (blk : ger_block) (ax ay : ger_thread → Option Nat)
    (fx fy : ger_thread → Option α → Option α)
    (hx : ∀ t sh, (ger_kernel_load L dev blk t sh).xdata = point_step ax fx sh.xdata t)
    (hy : ∀ t sh, (ger_kernel_load L dev blk t sh).ydata = point_step ay fy sh.ydata t) :
    ∀ (l : List ger_thread) (sh : ger_shared α),
      (l.foldl (fun sh t => ger_kernel_load L dev blk t sh) sh).xdata
          = l.foldl (point_step ax fx) sh.xdata
      ∧ (l.foldl (fun sh t => ger_kernel_load L dev blk t sh) sh).ydata
          = l.foldl (point_step ay fy) sh.ydata := by
  intro l
  induction l with
  | nil =>
    intro sh
    exact ⟨rfl, rfl⟩
  | cons t l ih =>
    intro sh
    rw [List.foldl_cons, List.foldl_cons, List.foldl_cons]
    obtain ⟨h1, h2⟩ := ih (ger_kernel_load L dev blk t sh)
    rw [h1, h2, hx, hy]
    exact ⟨rfl, rfl⟩

/-- The shared arrays of a block at the barrier, whatever the order in which
the threads of the block ran: slot `c` of `xdata` holds `x[tx * incx]` for
`tx = hipBlockIdx_x * hipBlockDim_x + c` whenever `tx < m`, and slot `c` of
`ydata` holds `y[ty * incy]` for `ty = hipBlockIdx_y * hipBlockDim_y + c`
whenever `ty < n`. -/
theorem ger_load_phase {α : Type} (L : ger_launch α) (dev : Int → α) (blk : ger_block)
    (l : List ger_thread) (hl : l.Perm L.block_threads) (hdx : 0 < L.hipBlockDim_x)
    (hdy : 0 < L.hipBlockDim_y) :
    (∀ c : Nat, c < L.hipBlockDim_x →
        (blk.hipBlockIdx_x : Int) * (L.hipBlockDim_x : Int) + (c : Int) < L.m →
        (l.foldl (fun sh t => ger_kernel_load L dev blk t sh)
            { xdata := fun _ => none, ydata := fun _ => none }).xdata c
          = some (dev (load_ptr_batch L.xa blk.hipBlockIdx_z L.shiftx L.stridex
              + ((blk.hipBlockIdx_x : Int) * (L.hipBlockDim_x : Int) + (c : Int)) * L.incx)))
    ∧ (∀ c : Nat, c < L.hipBlockDim_y →
        (blk.hipBlockIdx_y : Int) * (L.hipBlockDim_y : Int) + (c : Int) < L.n →
        (l.foldl (fun sh t => ger_kernel_load L dev blk t sh)
            { xdata := fun _ => none, ydata := fun _ => none }).ydata c
          = some (dev (load_ptr_batch L.ya blk.hipBlockIdx_z L.shifty L.stridey
              + ((blk.hipBlockIdx_y : Int) * (L.hipBlockDim_y : Int) + (c : Int)) * L.incy))) := by
  have hmem : ∀ t, t ∈ l ↔ t.hipThreadIdx_x < L.hipBlockDim_x
      ∧ t.hipThreadIdx_y < L.hipBlockDim_y :=
    fun t => (hl.mem_iff).trans (ger_launch_mem_block_threads L t)
  have hnodup : l.Nodup := (hl.nodup_iff).mpr (ger_launch_nodup_block_threads L)
  obtain ⟨hX, hY⟩ := ger_load_fold_components L dev blk _ _ _ _
    (ger_kernel_load_xdata L dev blk) (ger_kernel_load_ydata L dev blk) l
    { xdata := fun _ => none, ydata := fun _ => none }
  rw [hX, hY]
  constructor
  · intro c hc hlt
    have hpw : l.Pairwise (fun t1 t2 : ger_thread => ∀ a,
        (if t1.hipThreadIdx_y = 0
            ∧ (blk.hipBlockIdx_x : Int) * (L.hipBlockDim_x : Int) + (t1.hipThreadIdx_x : Int)
              < L.m
          then some t1.hipThreadIdx_x else none) = some a →
        (if t2.hipThreadIdx_y = 0
            ∧ (blk.hipBlockIdx_x : Int) * (L.hipBlockDim_x : Int) + (t2.hipThreadIdx_x : Int)
              < L.m
          then some t2.hipThreadIdx_x else none) ≠ some a) := by
      apply List.Pairwise.imp_of_mem _ hnodup
      intro t1 t2 _ _ hne a h1 h2
      apply hne
      split at h1
      · rename_i c1
        split at h2
        · rename_i c2
          simp only [Option.some.injEq] at h1 h2
          cases t1
          cases t2
          simp only [ger_thread.mk.injEq]
          simp only at h1 h2 c1 c2
          exact ⟨by omega, by omega⟩
        · cases h2
      · cases h1
    have hin : (⟨c, 0⟩ : ger_thread) ∈ l := (hmem _).mpr ⟨hc, hdy⟩
    refine (foldl_point_step _ _ l _ hpw c).1 ⟨c, 0⟩ hin ?_
    rw [if_pos ⟨rfl, hlt⟩]
  · intro c hc hlt
    have hpw : l.Pairwise (fun t1 t2 : ger_thread => ∀ a,
        (if t1.hipThreadIdx_x = 0
            ∧ (blk.hipBlockIdx_y : Int) * (L.hipBlockDim_y : Int) + (t1.hipThreadIdx_y : Int)
              < L.n
          then some t1.hipThreadIdx_y else none) = some a →
        (if t2.hipThreadIdx_x = 0
            ∧ (blk.hipBlockIdx_y : Int) * (L.hipBlockDim_y : Int) + (t2.hipThreadIdx_y : Int)
              < L.n
          then some t2.hipThreadIdx_y else none) ≠ some a) := by
      apply List.Pairwise.imp_of_mem _ hnodup
      intro t1 t2 _ _ hne a h1 h2
      apply hne
      split at h1
      · rename_i c1
        split at h2
        · rename_i c2
          simp only [Option.some.injEq] at h1 h2
          cases t1
          cases t2
          simp only [ger_thread.mk.injEq]
          simp only at h1 h2 c1 c2
          exact ⟨by omega, by omega⟩
        · cases h2
      · cases h1
    have hin : (⟨0, c⟩ : ger_thread) ∈ l := (hmem _).mpr ⟨hdx, hc⟩
    refine (foldl_point_step _ _ l _ hpw c).1 ⟨0, c⟩ hin ?_
    rw [if_pos ⟨rfl, hlt⟩]

/-- The position `i + lda * j` of an element of a matrix with `0 ≤ i < lda`
determines its row `i` and its column `j`. -/
theorem index_pair_unique (lda i j i2 j2 : Int) (hi : 0 ≤ i) (hi2 : 0 ≤ i2) (h1 : i < lda)
    (h2 : i2 < lda) (h : i + lda * j = i2 + lda * j2) : i = i2 ∧ j = j2 := by
  have hl : 0 ≤ lda := by omega
  have hj : j = j2 := by
    rcases lt_trichotomy j j2 with hlt | heq | hgt
    · have h3 := mul_le_mul_of_nonneg_left (show (1 : Int) ≤ j2 - j by omega) hl
      rw [mul_sub, mul_one] at h3
      omega
    · exact heq
    · have h3 := mul_le_mul_of_nonneg_left (show (1 : Int) ≤ j - j2 by omega) hl
      rw [mul_sub, mul_one] at h3
      omega
  subst hj
  exact ⟨by omega, rfl⟩

/-- After the barrier a thread of `ger_kernel` that finds the shared slots it
reads written with the elements of `x` and `y` updates at most the location
`ger_launch.address`, to which it adds `ger_launch.increment`. -/
theorem ger_kernel_update_point_step {α : Type} [Add α] [Mul α] (conj : α → α)
    (L : ger_launch α) (dev : Int → α) (blk : ger_block) (t : ger_thread)
    (sh : ger_shared α) (Amem : Int → α)
    (hx : (blk.hipBlockIdx_x : Int) * (L.hipBlockDim_x : Int) + (t.hipThreadIdx_x : Int) < L.m →
      sh.xdata t.hipThreadIdx_x
        = some (dev (load_ptr_batch L.xa blk.hipBlockIdx_z L.shiftx L.stridex
            + ((blk.hipBlockIdx_x : Int) * (L.hipBlockDim_x : Int) + (t.hipThreadIdx_x : Int))
              * L.incx)))
    (hy : (blk.hipBlockIdx_y : Int) * (L.hipBlockDim_y : Int) + (t.hipThreadIdx_y : Int) < L.n →
      sh.ydata t.hipThreadIdx_y
        = some (dev (load_ptr_batch L.ya blk.hipBlockIdx_z L.shifty L.stridey
            + ((blk.hipBlockIdx_y : Int) * (L.hipBlockDim_y : Int) + (t.hipThreadIdx_y : Int))
              * L.incy))) :
    ger_kernel_update conj L dev blk t sh Amem
      = some (point_step L.address (fun p v => v + L.increment conj dev p) Amem (blk, t)) := by
  unfold ger_kernel_update point_step ger_launch.address ger_launch.increment
  by_cases h : (blk.hipBlockIdx_x : Int) * (L.hipBlockDim_x : Int) + (t.hipThreadIdx_x : Int)
        < L.m
      ∧ (blk.hipBlockIdx_y : Int) * (L.hipBlockDim_y : Int) + (t.hipThreadIdx_y : Int) < L.n
  · simp only [if_pos h, hx h.1, hy h.2]
  · simp only [if_neg h]

/-- The matrix memory after one block has run under a schedule of its threads:
the fold of the updates of its threads. -/
theorem ger_run_block_eq {α : Type} [Add α] [Mul α] (conj : α → α) (L : ger_launch α)
    (dev : Int → α) (s : ger_block_schedule) (Amem : Int → α)
    (hs1 : s.load_order.Perm L.block_threads) (hs2 : s.update_order.Perm L.block_threads)
    (hdx : 0 < L.hipBlockDim_x) (hdy : 0 < L.hipBlockDim_y) :
    L.run_block conj dev s Amem
      = some ((s.update_order.map fun t => (s.block, t)).foldl
          (point_step L.address (fun p v => v + L.increment conj dev p)) Amem) := by
  obtain ⟨hX, hY⟩ := ger_load_phase L dev s.block s.load_order hs1 hdx hdy
  unfold ger_launch.run_block
  rw [List.foldl_map]
  apply foldlM_eq_some_foldl
  intro t ht A
  obtain ⟨htx, hty⟩ := (ger_launch_mem_block_threads L t).mp ((hs2.mem_iff).mp ht)
  exact ger_kernel_update_point_step conj L dev s.block t _ A (hX _ htx) (hY _ hty)

/-- The matrix memory after a launch of `ger_kernel` has run under a schedule:
the fold of the updates of all the threads of the grid. -/
theorem ger_run_eq {α : Type} [Add α] [Mul α] (conj : α → α) (L : ger_launch α)
    (dev : Int → α) (schedule : List ger_block_schedule) (Amem : Int → α)
    (hv : L.valid_schedule schedule) (hdx : 0 < L.hipBlockDim_x)
    (hdy : 0 < L.hipBlockDim_y) :
    L.run conj dev schedule Amem
      = some ((schedule.flatMap fun s => s.update_order.map fun t => (s.block, t)).foldl
          (point_step L.address (fun p v => v + L.increment conj dev p)) Amem) := by
  unfold ger_launch.run
  rw [foldl_flatMap_eq]
  apply foldlM_eq_some_foldl
  intro s hs A
  exact ger_run_block_eq conj L dev s A (hv.2 s hs).1 (hv.2 s hs).2 hdx hdy

/-- The threads that run under a schedule of a launch of `ger_kernel`: every
thread of every block of the grid, once. -/
theorem ger_schedule_threads {α : Type} (L : ger_launch α)
    (schedule : List ger_block_schedule) (hv : L.valid_schedule schedule) :
    (schedule.flatMap fun s => s.update_order.map fun t => (s.block, t)).Nodup
    ∧ ∀ p : ger_block × ger_thread,
        p ∈ (schedule.flatMap fun s => s.update_order.map fun t => (s.block, t))
          ↔ (p.1.hipBlockIdx_x < L.gridDim_x ∧ p.1.hipBlockIdx_y < L.gridDim_y
              ∧ p.1.hipBlockIdx_z < L.gridDim_z)
            ∧ p.2.hipThreadIdx_x < L.hipBlockDim_x ∧ p.2.hipThreadIdx_y < L.hipBlockDim_y := by
  obtain ⟨hb, ht⟩ := hv
  constructor
  · rw [List.nodup_flatMap]
    constructor
    · intro s hs
      apply List.Nodup.map
      · intro t1 t2 h
        exact (Prod.mk.injEq _ _ _ _ ▸ h : s.block = s.block ∧ t1 = t2).2
      · exact ((ht s hs).2.nodup_iff).mpr (ger_launch_nodup_block_threads L)
    · have hnd : (schedule.map fun s => s.block).Nodup :=
        (hb.nodup_iff).mpr (ger_launch_nodup_blocks L)
      have hpw : schedule.Pairwise (fun s1 s2 => s1.block ≠ s2.block) := by
        unfold List.Nodup at hnd
        rw [List.pairwise_map] at hnd
        exact hnd
      apply List.Pairwise.imp _ hpw
      intro s1 s2 hne p hp1 hp2
      simp only [List.mem_map] at hp1 hp2
      obtain ⟨t1, -, rfl⟩ := hp1
      obtain ⟨t2, -, h2⟩ := hp2
      simp only [Prod.mk.injEq] at h2
      exact hne h2.1.symm
  · intro p
    simp only [List.mem_flatMap, List.mem_map]
    constructor
    · rintro ⟨s, hs, t, htm, rfl⟩
      have h1 : s.block ∈ L.blocks :=
        (hb.mem_iff).mp (List.mem_map.mpr ⟨s, hs, rfl⟩)
      exact ⟨(ger_launch_mem_blocks L _).mp h1,
        (ger_launch_mem_block_threads L t).mp (((ht s hs).2.mem_iff).mp htm)⟩
    · rintro ⟨h1, h2⟩
      have h3 : p.1 ∈ (schedule.map fun s => s.block) :=
        (hb.mem_iff).mpr ((ger_launch_mem_blocks L _).mpr h1)
      obtain ⟨s, hs, hsb⟩ := List.mem_map.mp h3
      refine ⟨s, hs, p.2, ?_, ?_⟩
      · exact ((ht s hs).2.mem_iff).mpr ((ger_launch_mem_block_threads L _).mpr h2)
      · rw [hsb]

/-- The state of the matrix memory after a launch of `ger_kernel` whose grid
covers the `m` by `n` window of each of its `gridDim_z` batch members, with
`lda ≥ m`, when distinct batch members address distinct locations: under every
schedule the run ends, element `(i, j)` of member `b` has received
`alpha * x[i * incx] * y[j * incy]` (the last factor conjugated when `CONJ` is
set) and every other location is unchanged. -/
theorem ger_launch_run_spec {α : Type} [Add α] [Mul α] (conj : α → α) (L : ger_launch α)
    (dev : Int → α) (Amem : Int → α)
    (hdx : 0 < L.hipBlockDim_x) (hdy : 0 < L.hipBlockDim_y)
    (hcx : L.m ≤ (L.gridDim_x : Int) * (L.hipBlockDim_x : Int))
    (hcy : L.n ≤ (L.gridDim_y : Int) * (L.hipBlockDim_y : Int))
    (hlda : L.m ≤ L.lda)
    (hdisj : ∀ b b2 i i2 j j2 : Nat, b < L.gridDim_z → b2 < L.gridDim_z →
      (i : Int) < L.m → (i2 : Int) < L.m → (j : Int) < L.n → (j2 : Int) < L.n →
      load_ptr_batch L.Aa b L.shifta L.strideA + ((i : Int) + L.lda * (j : Int))
        = load_ptr_batch L.Aa b2 L.shifta L.strideA + ((i2 : Int) + L.lda * (j2 : Int)) →
      b = b2)
    (schedule : List ger_block_schedule) (hv : L.valid_schedule schedule) :
    ∃ A2 : Int → α, L.run conj dev schedule Amem = some A2
      ∧ (∀ b i j : Nat, b < L.gridDim_z → (i : Int) < L.m → (j : Int) < L.n →
          A2 (load_ptr_batch L.Aa b L.shifta L.strideA + ((i : Int) + L.lda * (j : Int)))
            = Amem (load_ptr_batch L.Aa b L.shifta L.strideA + ((i : Int) + L.lda * (j : Int)))
              + load_scalar dev L.alpha_device_host b L.stride_alpha
                * dev (load_ptr_batch L.xa b L.shiftx L.stridex + (i : Int) * L.incx)
                * (if L.CONJ then
                    conj (dev (load_ptr_batch L.ya b L.shifty L.stridey + (j : Int) * L.incy))
                  else dev (load_ptr_batch L.ya b L.shifty L.stridey + (j : Int) * L.incy)))
      ∧ (∀ a : Int, (∀ b i j : Nat, b < L.gridDim_z → (i : Int) < L.m → (j : Int) < L.n →
            a ≠ load_ptr_batch L.Aa b L.shifta L.strideA + ((i : Int) + L.lda * (j : Int))) →
          A2 a = Amem a) := by
  obtain ⟨hnd, hmemP⟩ := ger_schedule_threads L schedule hv
  have haddr : ∀ (p : ger_block × ger_thread) (a : Int), L.address p = some a →
      ((p.1.hipBlockIdx_x * L.hipBlockDim_x + p.2.hipThreadIdx_x : Nat) : Int) < L.m
      ∧ ((p.1.hipBlockIdx_y * L.hipBlockDim_y + p.2.hipThreadIdx_y : Nat) : Int) < L.n
      ∧ a = load_ptr_batch L.Aa p.1.hipBlockIdx_z L.shifta L.strideA
          + (((p.1.hipBlockIdx_x * L.hipBlockDim_x + p.2.hipThreadIdx_x : Nat) : Int)
            + L.lda * ((p.1.hipBlockIdx_y * L.hipBlockDim_y + p.2.hipThreadIdx_y : Nat) : Int)) := by
    intro p a h
    unfold ger_launch.address at h
    split at h
    · rename_i hlt
      simp only [Option.some.injEq] at h
      push_cast
      exact ⟨hlt.1, hlt.2, h.symm⟩
    · cases h
  have hpw : (schedule.flatMap fun s => s.update_order.map fun t => (s.block, t)).Pairwise
      (fun p1 p2 => ∀ a, L.address p1 = some a → L.address p2 ≠ some a) := by
    apply List.Pairwise.imp_of_mem _ hnd
    intro p1 p2 h1 h2 hne a ha1 ha2
    apply hne
    obtain ⟨hx1, hy1, he1⟩ := haddr p1 a ha1
    obtain ⟨hx2, hy2, he2⟩ := haddr p2 a ha2
    obtain ⟨⟨-, -, hz1⟩, htx1, hty1⟩ := (hmemP p1).mp h1
    obtain ⟨⟨-, -, hz2⟩, htx2, hty2⟩ := (hmemP p2).mp h2
    have hz : p1.1.hipBlockIdx_z = p2.1.hipBlockIdx_z :=
      hdisj _ _ _ _ _ _ hz1 hz2 hx1 hx2 hy1 hy2 (he1.symm.trans he2)
    have h3 := he1.symm.trans he2
    rw [hz] at h3
    have h4 := index_pair_unique L.lda _ _ _ _ (Int.natCast_nonneg _) (Int.natCast_nonneg _)
      (lt_of_lt_of_le hx1 hlda) (lt_of_lt_of_le hx2 hlda) (add_left_cancel h3)
    have h5 : p1.1.hipBlockIdx_x * L.hipBlockDim_x + p1.2.hipThreadIdx_x
        = p2.1.hipBlockIdx_x * L.hipBlockDim_x + p2.2.hipThreadIdx_x := by
      exact_mod_cast h4.1
    have h6 : p1.1.hipBlockIdx_y * L.hipBlockDim_y + p1.2.hipThreadIdx_y
        = p2.1.hipBlockIdx_y * L.hipBlockDim_y + p2.2.hipThreadIdx_y := by
      exact_mod_cast h4.2
    obtain ⟨h7, h8⟩ := block_thread_unique _ _ _ _ _ htx1 htx2 h5
    obtain ⟨h9, h10⟩ := block_thread_unique _ _ _ _ _ hty1 hty2 h6
    obtain ⟨⟨bx1, by1, bz1⟩, ⟨tx1, ty1⟩⟩ := p1
    obtain ⟨⟨bx2, by2, bz2⟩, ⟨tx2, ty2⟩⟩ := p2
    simp only at hz h7 h8 h9 h10
    subst hz; subst h7; subst h8; subst h9; subst h10
    rfl
  refine ⟨_, ger_run_eq conj L dev schedule Amem hv hdx hdy, ?_, ?_⟩
  · intro b i j hb hi hj
    have hix : i / L.hipBlockDim_x * L.hipBlockDim_x + i % L.hipBlockDim_x = i :=
      Nat.div_add_mod' i L.hipBlockDim_x
    have hjy : j / L.hipBlockDim_y * L.hipBlockDim_y + j % L.hipBlockDim_y = j :=
      Nat.div_add_mod' j L.hipBlockDim_y
    have hcastx : ((i / L.hipBlockDim_x : Nat) : Int) * (L.hipBlockDim_x : Int)
        + ((i % L.hipBlockDim_x : Nat) : Int) = (i : Int) := by
      exact_mod_cast hix
    have hcasty : ((j / L.hipBlockDim_y : Nat) : Int) * (L.hipBlockDim_y : Int)
        + ((j % L.hipBlockDim_y : Nat) : Int) = (j : Int) := by
      exact_mod_cast hjy
    have hin : ((⟨i / L.hipBlockDim_x, j / L.hipBlockDim_y, b⟩, ⟨i % L.hipBlockDim_x,
        j % L.hipBlockDim_y⟩) : ger_block × ger_thread)
        ∈ (schedule.flatMap fun s => s.update_order.map fun t => (s.block, t)) := by
      rw [hmemP]
      refine ⟨⟨?_, ?_, hb⟩, Nat.mod_lt _ hdx, Nat.mod_lt _ hdy⟩
      · have h1 : (i : Int) < (L.gridDim_x : Int) * (L.hipBlockDim_x : Int) :=
          lt_of_lt_of_le hi hcx
        have h2 : i < L.gridDim_x * L.hipBlockDim_x := by exact_mod_cast h1
        exact Nat.div_lt_of_lt_mul (by rw [Nat.mul_comm]; exact h2)
      · have h1 : (j : Int) < (L.gridDim_y : Int) * (L.hipBlockDim_y : Int) :=
          lt_of_lt_of_le hj hcy
        have h2 : j < L.gridDim_y * L.hipBlockDim_y := by exact_mod_cast h1
        exact Nat.div_lt_of_lt_mul (by rw [Nat.mul_comm]; exact h2)
    have hat : L.address (⟨i / L.hipBlockDim_x, j / L.hipBlockDim_y, b⟩,
        ⟨i % L.hipBlockDim_x, j % L.hipBlockDim_y⟩)
        = some (load_ptr_batch L.Aa b L.shifta L.strideA + ((i : Int) + L.lda * (j : Int))) := by
      unfold ger_launch.address
      simp only [hcastx, hcasty, if_pos (And.intro hi hj)]
    have h := (foldl_point_step L.address (fun p v => v + L.increment conj dev p) _ Amem hpw
      _).1 _ hin hat
    rw [h]
    unfold ger_launch.increment
    simp only [hcastx, hcasty]
  · intro a ha
    apply (foldl_point_step L.address (fun p v => v + L.increment conj dev p) _ Amem hpw a).2
    intro p hp hat
    obtain ⟨hx, hy, he⟩ := haddr p a hat
    obtain ⟨⟨-, -, hz⟩, -, -⟩ := (hmemP p).mp hp
    exact ha _ _ _ hz hx hy he

/-- For `rocblas_int` arguments and `len ≥ 1` the 64-bit arithmetic of the shift
does not wrap. -/
theorem inc_shift_exact (offset inc len : Int) (ho : isInt32 offset) (hinc : isInt32 inc)
    (hl : isInt32 len) (hlen : len ≥ 1) :
    inc_shift offset inc len = if inc < 0 then offset - inc * (len - 1) else offset := by
  unfold isInt32 at ho hinc hl
  by_cases hneg : inc < 0
  · have hlen1 : wrapInt32 (len - 1) = len - 1 :=
      wrapInt32_of_isInt32 _ (by unfold isInt32; constructor <;> omega)
    have hcw : wrapInt64 inc = inc :=
      wrapInt64_of_isInt64 _ (by unfold isInt64; constructor <;> omega)
    have hp1 : inc * (len - 1) ≤ 0 :=
      mul_nonpos_of_nonpos_of_nonneg (le_of_lt hneg) (by omega)
    have hp2 : -(2 ^ 31 * 2 ^ 31) ≤ inc * (len - 1) := by
      have h1 : (-inc) * (len - 1) ≤ 2 ^ 31 * 2 ^ 31 :=
        mul_le_mul (by omega) (by omega) (by omega) (by norm_num)
      have h2 : (-inc) * (len - 1) = -(inc * (len - 1)) := by ring
      omega
    have hpw : wrapInt64 (inc * (len - 1)) = inc * (len - 1) :=
      wrapInt64_of_isInt64 _ (by unfold isInt64; constructor <;> omega)
    have hdw : wrapInt64 (offset - inc * (len - 1)) = offset - inc * (len - 1) :=
      wrapInt64_of_isInt64 _ (by unfold isInt64; constructor <;> omega)
    unfold inc_shift
    rw [if_pos hneg, if_pos hneg, hlen1, hcw, hpw, hdw]
  · unfold inc_shift
    rw [if_neg hneg, if_neg hneg]

/-- The position visited at logical index `i` through the shifted pointer is,
counted from the unshifted one, `(len - 1 - i) * |inc|` for a negative increment
and `i * inc` otherwise. -/
theorem inc_shift_position (offset inc len i : Int) (ho : isInt32 offset)
    (hinc : isInt32 inc) (hl : isInt32 len) (hlen : len ≥ 1) :
    inc_shift offset inc len + i * inc
      = offset + (if inc < 0 then (len - 1 - i) * |inc| else i * inc) := by
  rw [inc_shift_exact offset inc len ho hinc hl hlen]
  by_cases hneg : inc < 0
  · rw [if_pos hneg, if_pos hneg, abs_of_neg hneg]
    ring
  · rw [if_neg hneg, if_neg hneg]

/-- The resolved pointer of a batch member depends on the element offset by a
translation. -/
theorem load_ptr_batch_offset (p : batch_operand) (b : Nat) (o o2 stride d d2 : Int)
    (h : o + d = o2 + d2) :
    load_ptr_batch p b o stride + d = load_ptr_batch p b o2 stride + d2 := by
  cases p with
  | strided base =>
    simp only [load_ptr_batch]
    linarith
  | batched pointers =>
    simp only [load_ptr_batch]
    linarith

/-- The number of blocks `(len - 1) / D + 1` computed in `rocblas_int` for a
dimension `0 < len` and a block size `0 < D`: the value passed to the grid, and
the fact that the blocks cover the dimension. -/
theorem launch_blocks_cover (len D : Int) (hlen : 0 < len) (hl32 : isInt32 len)
    (hD : 0 < D) :
    ((toUInt32 (wrapInt32 (wrapInt32 (Int.tdiv (wrapInt32 (len - 1)) D) + 1)) : Nat) : Int)
        = (len - 1) / D + 1
    ∧ len ≤ ((len - 1) / D + 1) * D := by
  unfold isInt32 at hl32
  have hq0 : 0 ≤ (len - 1) / D := Int.ediv_nonneg (by omega) (le_of_lt hD)
  have hq1 : (len - 1) / D ≤ len - 1 := Int.ediv_le_self _ (by omega)
  have h1 : wrapInt32 (len - 1) = len - 1 :=
    wrapInt32_of_isInt32 _ (by unfold isInt32; constructor <;> omega)
  have h2 : Int.tdiv (len - 1) D = (len - 1) / D :=
    Int.tdiv_eq_ediv (by omega) (le_of_lt hD)
  have h3 : wrapInt32 ((len - 1) / D) = (len - 1) / D :=
    wrapInt32_of_isInt32 _ (by unfold isInt32; constructor <;> omega)
  have h4 : wrapInt32 ((len - 1) / D + 1) = (len - 1) / D + 1 :=
    wrapInt32_of_isInt32 _ (by unfold isInt32; constructor <;> omega)
  constructor
  · rw [h1, h2, h3, h4]
    unfold toUInt32
    rw [Int.emod_eq_of_lt (by omega) (by omega)]
    exact Int.toNat_of_nonneg (by omega)
  · have := Int.lt_ediv_add_one_mul_self (len - 1) hD
    omega

/-- The schedule that follows the coordinates is a schedule of the launch. -/
theorem ger_launch_schedule_valid {α : Type} (L : ger_launch α) :
    L.valid_schedule L.schedule := by
  unfold ger_launch.valid_schedule ger_launch.schedule
  constructor
  · rw [List.map_map]
    have : ((fun s : ger_block_schedule => s.block) ∘ fun blk =>
        ({ block := blk, load_order := L.block_threads, update_order := L.block_threads }
          : ger_block_schedule)) = id := rfl
    rw [this, List.map_id]
  · intro s hs
    obtain ⟨blk, -, rfl⟩ := List.mem_map.mp hs
    exact ⟨List.Perm.refl _, List.Perm.refl _⟩

/-- The launch issued by `rocblas_ger_template` on a call that is not a quick
return: one launch, whose scalar argument is the pointer `alpha` in device
pointer mode and the value `*alpha` in host pointer mode. -/
theorem ger_template_eq {α : Type} (CONJ : Bool) (handle : _rocblas_handle)
    (host : Int → α) (m n : Int) (alpha : Ptr) (stride_alpha : Int) (x : batch_operand)
    (offsetx incx stridex : Int) (y : batch_operand) (offsety incy stridey : Int)
    (A : batch_operand) (offsetA lda strideA batch_count : Int)
    (hq : ¬ (m = 0 ∨ n = 0 ∨ batch_count = 0)) :
    rocblas_ger_template CONJ handle host m n alpha stride_alpha x offsetx incx stridex y
        offsety incy stridey A offsetA lda strideA batch_count
      = (rocblas_status_success,
          [ger_template_launch CONJ handle host m n alpha stride_alpha x offsetx incx stridex
            y offsety incy stridey A offsetA lda strideA batch_count]) := by
  simp only [rocblas_ger_template, ger_template_launch]
  rw [if_neg hq]
  by_cases hp : handle.pointer_mode = rocblas_pointer_mode_device
  · rw [if_pos hp, if_pos hp]
  · rw [if_neg hp, if_neg hp]

/-- C13: for `rocblas_ger_template` with `m > 0`, `n > 0`, `batch_count > 0`,
`lda ≥ m` and batch members of `A` that do not overlap, the status is `success`
and, after the launched `ger_kernel` grid has run (under any schedule of its
blocks and threads), for every batch `b < batch_count`, row `i < m` and column
`j < n` the element `A_b[i + j * lda]` is its previous value plus
`alpha * x_b(i) * y_b(j)`, with `y_b(j)` conjugated when `CONJ` is set, where
`x_b(i)` and `y_b(j)` are the `i`-th and `j`-th logical elements of the vectors
of the batch (at `(len - 1 - i) * |inc|` from the start for a negative increment,
at `i * inc` otherwise) and `alpha` is `*alpha` in host pointer mode and the
scalar of the batch in device pointer mode; every other element of the matrix
memory is unchanged. -/
theorem ger_template_result {α : Type} [Add α] [Mul α] (conj : α → α) (dev host : Int → α)
    (CONJ : Bool) (handle : _rocblas_handle) (m n : Int) (alpha : Ptr) (stride_alpha : Int)
    (x : batch_operand) (offsetx incx stridex : Int) (y : batch_operand)
    (offsety incy stridey : Int) (A : batch_operand) (offsetA lda strideA batch_count : Int)
    (Amem : Int → α)
    (hm : m > 0) (hm32 : isInt32 m) (hn : n > 0) (hn32 : isInt32 n) (hb : batch_count > 0)
    (hb32 : isInt32 batch_count) (hlda : lda ≥ m) (hincx : incx ≠ 0)
    (hincx32 : isInt32 incx) (hincy : incy ≠ 0) (hincy32 : isInt32 incy)
    (hox : isInt32 offsetx) (hoy : isInt32 offsety)
    (hdisj : ∀ b b2 i i2 j j2 : Nat, (b : Int) < batch_count → (b2 : Int) < batch_count →
      (i : Int) < m → (i2 : Int) < m → (j : Int) < n → (j2 : Int) < n →
      load_ptr_batch A b offsetA strideA + ((i : Int) + (j : Int) * lda)
        = load_ptr_batch A b2 offsetA strideA + ((i2 : Int) + (j2 : Int) * lda) → b = b2)
    (schedule : ger_launch α → List ger_block_schedule)
    (hs : ∀ L : ger_launch α, L.valid_schedule (schedule L)) :
    (rocblas_ger_template CONJ handle host m n alpha stride_alpha x offsetx incx stridex y
        offsety incy stridey A offsetA lda strideA batch_count).1 = rocblas_status_success
    ∧ ∃ A2 : Int → α,
        ger_template_run conj schedule dev CONJ handle host m n alpha stride_alpha x offsetx
            incx stridex y offsety incy stridey A offsetA lda strideA batch_count Amem
          = some A2
        ∧ (∀ b i j : Nat, (b : Int) < batch_count → (i : Int) < m → (j : Int) < n →
            A2 (load_ptr_batch A b offsetA strideA + ((i : Int) + (j : Int) * lda))
              = Amem (load_ptr_batch A b offsetA strideA + ((i : Int) + (j : Int) * lda))
                + (if handle.pointer_mode = rocblas_pointer_mode_device then
                    dev (alpha + (b : Int) * stride_alpha)
                  else host alpha)
                  * dev (load_ptr_batch x b offsetx stridex
                      + (if incx < 0 then (m - 1 - (i : Int)) * |incx| else (i : Int) * incx))
                  * (if CONJ then
                      conj (dev (load_ptr_batch y b offsety stridey
                        + (if incy < 0 then (n - 1 - (j : Int)) * |incy| else (j : Int) * incy)))
                    else
                      dev (load_ptr_batch y b offsety stridey
                        + (if incy < 0 then (n - 1 - (j : Int)) * |incy| else (j : Int) * incy))))
        ∧ (∀ a : Int, (∀ b i j : Nat, (b : Int) < batch_count → (i : Int) < m →
              (j : Int) < n →
              a ≠ load_ptr_batch A b offsetA strideA + ((i : Int) + (j : Int) * lda)) →
            A2 a = Amem a) := by
  have hq : ¬ (m = 0 ∨ n = 0 ∨ batch_count = 0) := by omega
  have hT := ger_template_eq CONJ handle host m n alpha stride_alpha x offsetx incx stridex y
    offsety incy stridey A offsetA lda strideA batch_count hq
  obtain ⟨hgx, hcx⟩ := launch_blocks_cover m 64 hm hm32 (by norm_num)
  obtain ⟨hgy, hcy⟩ := launch_blocks_cover n 16 hn hn32 (by norm_num)
  have hgz : ((toUInt32 batch_count : Nat) : Int) = batch_count := by
    unfold isInt32 at hb32
    unfold toUInt32
    rw [Int.emod_eq_of_lt (by omega) (by omega)]
    exact Int.toNat_of_nonneg (by omega)
  have hbx : toUInt32 64 = 64 := by decide
  have hby : toUInt32 16 = 16 := by decide
  have hgzN : ∀ b : Nat, b < toUInt32 batch_count ↔ (b : Int) < batch_count := by
    intro b
    constructor
    · intro h
      have h2 : (b : Int) < ((toUInt32 batch_count : Nat) : Int) := by exact_mod_cast h
      omega
    · intro h
      have h2 : (b : Int) < ((toUInt32 batch_count : Nat) : Int) := by omega
      exact_mod_cast h2
  have hcomm : ∀ i j : Int, i + lda * j = i + j * lda := fun i j => by ring
  refine ⟨by rw [hT], ?_⟩
  unfold ger_template_run
  rw [hT]
  simp only [List.foldlM_cons, List.foldlM_nil, bind_pure]
  obtain ⟨A2, hrun, hA, hB⟩ := ger_launch_run_spec conj
    (ger_template_launch CONJ handle host m n alpha stride_alpha x offsetx incx stridex y
      offsety incy stridey A offsetA lda strideA batch_count) dev Amem
    (by simp only [ger_template_launch, hbx]; norm_num)
    (by simp only [ger_template_launch, hby]; norm_num)
    (by simp only [ger_template_launch, hbx, hgx]; exact hcx)
    (by simp only [ger_template_launch, hby, hgy]; exact hcy) hlda
    (by
      intro b b2 i i2 j j2 h1 h2 h3 h4 h5 h6 h7
      simp only [ger_template_launch, hcomm] at h7
      exact hdisj b b2 i i2 j j2 ((hgzN b).mp h1) ((hgzN b2).mp h2) h3 h4 h5 h6 h7)
    (schedule _) (hs _)
  simp only [ger_template_launch] at hA hB
  refine ⟨A2, hrun, ?_, ?_⟩
  · intro b i j hb1 hi hj
    have h := hA b i j ((hgzN b).mpr hb1) hi hj
    simp only [hcomm] at h
    rw [h]
    have hxp : load_ptr_batch x b (inc_shift offsetx incx m) stridex + (i : Int) * incx
        = load_ptr_batch x b offsetx stridex
          + (if incx < 0 then (m - 1 - (i : Int)) * |incx| else (i : Int) * incx) :=
      load_ptr_batch_offset x b _ _ stridex _ _
        (inc_shift_position offsetx incx m i hox hincx32 hm32 (by omega))
    have hyp : load_ptr_batch y b (inc_shift offsety incy n) stridey + (j : Int) * incy
        = load_ptr_batch y b offsety stridey
          + (if incy < 0 then (n - 1 - (j : Int)) * |incy| else (j : Int) * incy) :=
      load_ptr_batch_offset y b _ _ stridey _ _
        (inc_shift_position offsety incy n j hoy hincy32 hn32 (by omega))
    simp only [hxp, hyp]
    by_cases hp : handle.pointer_mode = rocblas_pointer_mode_device
    · simp only [if_pos hp, load_scalar]
    · simp only [if_neg hp, load_scalar]
  · intro a ha
    apply hB a
    intro b i j h1 h2 h3
    simp only [hcomm]
    exact ha b i j ((hgzN b).mp h1) h2 h3

/-- Witness of C13: with `batch_count = 3`, `m = n = 2`, `x = y = [1, 1]`,
`alpha = 1` and `A = 0` (leading dimension 2, batch stride 4), the twelve
elements of the three batch members of `A` all become 1. -/
theorem ger_template_result_witness :
    (ger_template_run id ger_launch.schedule (fun _ => (1 : Int)) false sample_handle
        (fun _ => (1 : Int)) 2 2 0 0 (batch_operand.strided 0) 0 1 2
        (batch_operand.strided 100) 0 1 2 (batch_operand.strided 0) 0 2 4 3
        (fun _ => (0 : Int))).map
      (fun A2 => (List.range 12).map fun a => A2 (a : Int))
      = some [1, 1, 1, 1, 1, 1, 1, 1, 1, 1, 1, 1] := by
  obtain ⟨-, A2, hrun, hA, -⟩ := ger_template_result id (fun _ => (1 : Int))
    (fun _ => (1 : Int)) false sample_handle 2 2 0 0 (batch_operand.strided 0) 0 1 2
    (batch_operand.strided 100) 0 1 2 (batch_operand.strided 0) 0 2 4 3 (fun _ => (0 : Int))
    (by decide) (by decide) (by decide) (by decide) (by decide) (by decide) (by decide)
    (by decide) (by decide) (by decide) (by decide) (by decide) (by decide)
    (fun b b2 i i2 j j2 _ _ _ _ _ _
      (h : (0 : Int) + (b : Int) * 4 + 0 + ((i : Int) + (j : Int) * 2)
        = 0 + (b2 : Int) * 4 + 0 + ((i2 : Int) + (j2 : Int) * 2)) => by omega)
    ger_launch.schedule ger_launch_schedule_valid
  rw [hrun]
  have e : ∀ b i j : Nat, (b : Int) < 3 → (i : Int) < 2 → (j : Int) < 2 →
      A2 ((b : Int) * 4 + (i : Int) + (j : Int) * 2) = 1 := by
    intro b i j hb hi hj
    have h := hA b i j hb hi hj
    simp only [load_ptr_batch] at h
    have hadd : (0 : Int) + (b : Int) * 4 + 0 + ((i : Int) + (j : Int) * 2)
        = (b : Int) * 4 + (i : Int) + (j : Int) * 2 := by ring
    rw [hadd] at h
    rw [h]
    simp [sample_handle]
  have e0 := e 0 0 0 (by decide) (by decide) (by decide)
  have e1 := e 0 1 0 (by decide) (by decide) (by decide)
  have e2 := e 0 0 1 (by decide) (by decide) (by decide)
  have e3 := e 0 1 1 (by decide) (by decide) (by decide)
  have e4 := e 1 0 0 (by decide) (by decide) (by decide)
  have e5 := e 1 1 0 (by decide) (by decide) (by decide)
  have e6 := e 1 0 1 (by decide) (by decide) (by decide)
  have e7 := e 1 1 1 (by decide) (by decide) (by decide)
  have e8 := e 2 0 0 (by decide) (by decide) (by decide)
  have e9 := e 2 1 0 (by decide) (by decide) (by decide)
  have e10 := e 2 0 1 (by decide) (by decide) (by decide)
  have e11 := e 2 1 1 (by decide) (by decide) (by decide)
  norm_num at e0 e1 e2 e3 e4 e5 e6 e7 e8 e9 e10 e11
  simp [List.range, List.range.loop, e0, e1, e2, e3, e4, e5, e6, e7, e8, e9, e10, e11]

/-! ## The order of the checks of the batched matrix-vector product -/

/-- Every record of `gemv_log_records` is a log record. -/
theorem gemv_log_records_is_log {α : Type} (layer_mode : Nat)
    (pointer_mode : rocblas_pointer_mode) :
    ∀ e ∈ (gemv_log_records layer_mode pointer_mode : List (Effect α)), e.is_log = true := by
  intro e he
  unfold gemv_log_records at he
  split_ifs at he <;> simp at he <;> rcases he with rfl | rfl | rfl <;> rfl

/-- A call of `rocblas_gemv_batched_impl` outside size-query mode in which one
of `alpha`, `beta`, `A`, `x`, `y` is null returns `invalid_pointer`, whatever
the sizes are, and does not call the template. -/
theorem gemv_batched_null_pointer (tmpl : gemv_template_args → rocblas_status)
    (h : _rocblas_handle) (transA : rocblas_operation) (m n : Int) (alpha A : Ptr) (lda : Int)
    (x : Ptr) (incx : Int) (beta y : Ptr) (incy batch_count : Int)
    (hq : h.is_device_memory_size_query = false)
    (hp : alpha = 0 ∨ beta = 0 ∨ A = 0 ∨ x = 0 ∨ y = 0) :
    (rocblas_gemv_batched_impl tmpl (some h) transA m n alpha A lda x incx beta y incy
        batch_count).1 = rocblas_status_invalid_pointer
    ∧ ∀ e ∈ (rocblas_gemv_batched_impl tmpl (some h) transA m n alpha A lda x incx beta y incy
        batch_count).2, e.is_template_call = false := by
  unfold rocblas_gemv_batched_impl RETURN_ZERO_DEVICE_MEMORY_SIZE_IF_QUERIED
  simp only [hq, Bool.false_eq_true, if_false]
  by_cases hab : alpha = 0 ∨ beta = 0
  · rw [if_pos hab]
    exact ⟨rfl, fun e he => absurd he (List.not_mem_nil e)⟩
  · have hAxy : A = 0 ∨ x = 0 ∨ y = 0 := by
      rcases hp with hp | hp | hp | hp | hp
      · exact absurd (Or.inl hp) hab
      · exact absurd (Or.inr hp) hab
      · exact Or.inl hp
      · exact Or.inr (Or.inl hp)
      · exact Or.inr (Or.inr hp)
    rw [if_neg hab, if_pos hAxy]
    exact ⟨rfl, fun e he =>
      (is_log_exclusive e (gemv_log_records_is_log _ _ e he)).2.2⟩

/-- C21 (counterexample): a leading dimension smaller than `m` passed together
with null pointers gives `invalid_pointer`, not `invalid_size`: with all five
pointers null, and also with non-null `alpha` and `beta` and a null `A`. -/
theorem gemv_batched_invalid_size_counterexample :
    (rocblas_gemv_batched_impl (fun _ => rocblas_status_success) (some sample_handle)
        rocblas_operation_none 4 4 0 0 2 0 1 0 0 1 1).1 = rocblas_status_invalid_pointer
    ∧ (rocblas_gemv_batched_impl (fun _ => rocblas_status_success) (some sample_handle)
        rocblas_operation_none 4 4 8 0 2 64 1 16 128 1 1).1 = rocblas_status_invalid_pointer
    ∧ rocblas_status_invalid_pointer ≠ rocblas_status_invalid_size := by
  refine ⟨?_, ?_, by decide⟩
  · exact (gemv_batched_null_pointer _ sample_handle _ 4 4 0 0 2 0 1 0 0 1 1 rfl
      (Or.inl rfl)).1
  · exact (gemv_batched_null_pointer _ sample_handle _ 4 4 8 0 2 64 1 16 128 1 1 rfl
      (Or.inr (Or.inr (Or.inl rfl)))).1

/-- C21 (amended): in `rocblas_gemv_batched_impl` with a non-null handle that is
not in size-query mode, whenever `m < 0`, `n < 0`, `lda < m`, `lda < 1`,
`incx = 0`, `incy = 0` or `batch_count < 0`, the result is `invalid_size`
provided `alpha`, `beta`, `A`, `x` and `y` are all non-null; when one of them is
null the pointer checks, which come first, give `invalid_pointer`. -/
theorem gemv_batched_invalid_size (tmpl : gemv_template_args → rocblas_status)
    (h : _rocblas_handle) (transA : rocblas_operation) (m n : Int) (alpha A : Ptr) (lda : Int)
    (x : Ptr) (incx : Int) (beta y : Ptr) (incy batch_count : Int)
    (hq : h.is_device_memory_size_query = false)
    (hs : m < 0 ∨ n < 0 ∨ lda < m ∨ lda < 1 ∨ incx = 0 ∨ incy = 0 ∨ batch_count < 0) :
    (alpha ≠ 0 ∧ beta ≠ 0 ∧ A ≠ 0 ∧ x ≠ 0 ∧ y ≠ 0 →
      (rocblas_gemv_batched_impl tmpl (some h) transA m n alpha A lda x incx beta y incy
        batch_count).1 = rocblas_status_invalid_size)
    ∧ (alpha = 0 ∨ beta = 0 ∨ A = 0 ∨ x = 0 ∨ y = 0 →
      (rocblas_gemv_batched_impl tmpl (some h) transA m n alpha A lda x incx beta y incy
        batch_count).1 = rocblas_status_invalid_pointer) := by
  refine ⟨?_, fun hp =>
    (gemv_batched_null_pointer tmpl h transA m n alpha A lda x incx beta y incy batch_count
      hq hp).1⟩
  rintro ⟨ha, hb, hA, hx, hy⟩
  unfold rocblas_gemv_batched_impl RETURN_ZERO_DEVICE_MEMORY_SIZE_IF_QUERIED
  simp only [hq, Bool.false_eq_true, if_false]
  have hab : ¬ (alpha = 0 ∨ beta = 0) := by
    rintro (h0 | h0)
    · exact ha h0
    · exact hb h0
  have hAxy : ¬ (A = 0 ∨ x = 0 ∨ y = 0) := by
    rintro (h0 | h0 | h0)
    · exact hA h0
    · exact hx h0
    · exact hy h0
  rw [if_neg hab, if_neg hAxy]
  by_cases hsz : m < 0 ∨ n < 0 ∨ lda < m ∨ lda < 1 ∨ incx = 0 ∨ incy = 0
  · rw [if_pos hsz]
  · have hbc : batch_count < 0 := by
      rcases hs with hs | hs | hs | hs | hs | hs | hs
      · exact absurd (Or.inl hs) hsz
      · exact absurd (Or.inr (Or.inl hs)) hsz
      · exact absurd (Or.inr (Or.inr (Or.inl hs))) hsz
      · exact absurd (Or.inr (Or.inr (Or.inr (Or.inl hs)))) hsz
      · exact absurd (Or.inr (Or.inr (Or.inr (Or.inr (Or.inl hs))))) hsz
      · exact absurd (Or.inr (Or.inr (Or.inr (Or.inr (Or.inr hs))))) hsz
      · exact hs
    rw [if_neg hsz, if_pos hbc]

/-- Witness of C21 (amended): a leading dimension 2 for `m = 4`, with five
non-null pointers. -/
theorem gemv_batched_invalid_size_witness :
    (rocblas_gemv_batched_impl (fun _ => rocblas_status_success) (some sample_handle)
        rocblas_operation_none 4 4 8 32 2 64 1 16 128 1 1).1 = rocblas_status_invalid_size :=
  (gemv_batched_invalid_size (fun _ => rocblas_status_success) sample_handle
    rocblas_operation_none 4 4 8 32 2 64 1 16 128 1 1 rfl
    (Or.inr (Or.inr (Or.inl (by decide))))).1
    ⟨by decide, by decide, by decide, by decide, by decide⟩

/-- C22 (counterexample): a degenerate shape (`m = 0`, and also
`batch_count = 0`) with valid sizes and a null `A` returns `invalid_pointer`,
not `success`. -/
theorem gemv_batched_degenerate_counterexample :
    (rocblas_gemv_batched_impl (fun _ => rocblas_status_success) (some sample_handle)
        rocblas_operation_none 0 4 8 0 1 64 1 16 128 1 1).1 = rocblas_status_invalid_pointer
    ∧ (rocblas_gemv_batched_impl (fun _ => rocblas_status_success) (some sample_handle)
        rocblas_operation_none 4 4 8 0 4 64 1 16 128 1 0).1 = rocblas_status_invalid_pointer
    ∧ rocblas_status_invalid_pointer ≠ rocblas_status_success := by
  refine ⟨?_, ?_, by decide⟩
  · exact (gemv_batched_null_pointer _ sample_handle _ 0 4 8 0 1 64 1 16 128 1 1 rfl
      (Or.inr (Or.inr (Or.inl rfl)))).1
  · exact (gemv_batched_null_pointer _ sample_handle _ 4 4 8 0 4 64 1 16 128 1 0 rfl
      (Or.inr (Or.inr (Or.inl rfl)))).1

/-- C22 (amended): in `rocblas_gemv_batched_impl` with a non-null handle that is
not in size-query mode, valid sizes and a degenerate shape (`m = 0` or `n = 0`
or `batch_count = 0`), every call in which at least one of `alpha`, `beta`, `A`,
`x`, `y` is null returns `invalid_pointer` and does not reach the kernel
template: the implementation has no quick return for a degenerate shape. -/
theorem gemv_batched_degenerate_null_pointer (tmpl : gemv_template_args → rocblas_status)
    (h : _rocblas_handle) (transA : rocblas_operation) (m n : Int) (alpha A : Ptr) (lda : Int)
    (x : Ptr) (incx : Int) (beta y : Ptr) (incy batch_count : Int)
    (hq : h.is_device_memory_size_query = false)
    (hm : m ≥ 0) (hn : n ≥ 0) (hlda : lda ≥ m) (hlda1 : lda ≥ 1) (hincx : incx ≠ 0)
    (hincy : incy ≠ 0) (hbc : batch_count ≥ 0)
    (hd : m = 0 ∨ n = 0 ∨ batch_count = 0)
    (hp : alpha = 0 ∨ beta = 0 ∨ A = 0 ∨ x = 0 ∨ y = 0) :
    (rocblas_gemv_batched_impl tmpl (some h) transA m n alpha A lda x incx beta y incy
        batch_count).1 = rocblas_status_invalid_pointer
    ∧ (rocblas_gemv_batched_impl tmpl (some h) transA m n alpha A lda x incx beta y incy
        batch_count).2.all (fun e => !e.is_template_call) = true := by
  have hnp := gemv_batched_null_pointer tmpl h transA m n alpha A lda x incx beta y incy
    batch_count hq hp
  refine ⟨hnp.1, ?_⟩
  rw [List.all_eq_true]
  intro e he
  rw [hnp.2 e he]
  rfl

/-- Witness of C22 (amended): `m = 0` with a null `A`. -/
theorem gemv_batched_degenerate_null_pointer_witness :
    (rocblas_gemv_batched_impl (fun _ => rocblas_status_success) (some sample_handle)
        rocblas_operation_none 0 4 8 0 1 64 1 16 128 1 1).1 = rocblas_status_invalid_pointer
    ∧ (rocblas_gemv_batched_impl (fun _ => rocblas_status_success) (some sample_handle)
        rocblas_operation_none 0 4 8 0 1 64 1 16 128 1 1).2.all
          (fun e => !e.is_template_call) = true :=
  gemv_batched_degenerate_null_pointer (fun _ => rocblas_status_success) sample_handle
    rocblas_operation_none 0 4 8 0 1 64 1 16 128 1 1 rfl (by decide) (by decide) (by decide)
    (by decide) (by decide) (by decide) (by decide) (Or.inl rfl)
    (Or.inr (Or.inr (Or.inl rfl)))

/-! ## Quick returns of the templates, and the increments of the rank-1 update -/

/-- C23: a call of `rocblas_scal_template` with `n ≤ 0` or `incx ≤ 0` or
`batch_count ≤ 0` returns `success` and launches no kernel, and its result is
the same for every handle, every `alpha` and every `x` (none of them is read);
every other call returns `success` and launches exactly one kernel. -/
theorem scal_template_quick_return {α : Type} (NB : Int) (handle handle2 : _rocblas_handle)
    (n : Int) (alpha alpha2 : α) (x x2 : Ptr) (batched_offsetx incx stridex batch_count : Int) :
    ((n ≤ 0 ∨ incx ≤ 0 ∨ batch_count ≤ 0) →
      rocblas_scal_template NB handle n alpha x batched_offsetx incx stridex batch_count
        = (rocblas_status_success, [])
      ∧ rocblas_scal_template NB handle n alpha x batched_offsetx incx stridex batch_count
        = rocblas_scal_template NB handle2 n alpha2 x2 batched_offsetx incx stridex
            batch_count)
    ∧ (¬ (n ≤ 0 ∨ incx ≤ 0 ∨ batch_count ≤ 0) →
      (rocblas_scal_template NB handle n alpha x batched_offsetx incx stridex
          batch_count).1 = rocblas_status_success
      ∧ (rocblas_scal_template NB handle n alpha x batched_offsetx incx stridex
          batch_count).2.length = 1) := by
  constructor
  · intro hq
    unfold rocblas_scal_template
    rw [if_pos hq, if_pos hq]
    exact ⟨rfl, rfl⟩
  · intro hq
    unfold rocblas_scal_template
    rw [if_neg hq]
    by_cases hp : rocblas_pointer_mode_device = handle.pointer_mode
    · rw [if_pos hp]
      exact ⟨rfl, rfl⟩
    · rw [if_neg hp]
      exact ⟨rfl, rfl⟩

/-- Witness of C23: `n = 0` returns at once; `n = 5`, `incx = 1` and three batch
members launch one kernel. -/
theorem scal_template_quick_return_witness :
    rocblas_scal_template 256 sample_handle 0 (2 : Int) 0 0 1 1 1
      = (rocblas_status_success, [])
    ∧ (rocblas_scal_template 256 sample_handle 5 (2 : Int) 0 0 1 5 3).2.length = 1 :=
  ⟨((scal_template_quick_return 256 sample_handle sample_query_handle 0 (2 : Int) 3 0 0 0 1
      1 1).1 (Or.inl (by decide))).1,
    ((scal_template_quick_return 256 sample_handle sample_query_handle 5 (2 : Int) 3 0 0 0 1
      5 3).2 (by decide)).2⟩

/-- C24 (counterexample): with `n = 1` and `batch_count = -1` the template of
the batched swap issues a kernel launch, whose second grid dimension is the
negative `batch_count`. -/
theorem swap_batched_quick_return_counterexample :
    rocblas_swap_batched_template 256 1 1000 0 1 2000 0 1 (-1)
      = (rocblas_status_success,
          [{ blocks := 1, batch_count := -1, NB := 256, n := 1, x := 1000, shiftx := 0,
             incx := 1, y := 2000, shifty := 0, incy := 1 }])
    ∧ (rocblas_swap_batched_template 256 1 1000 0 1 2000 0 1 (-1)).2 ≠ [] := by
  constructor <;> decide

/-- C24 (amended): every call of `rocblas_swap_batched_template` with
`batch_count = 0` returns `success` and launches no kernel, so that no element
of a batch member of `x` or `y` is read or written. -/
theorem swap_batched_quick_return (NB n : Int) (x : Ptr) (offsetx incx : Int) (y : Ptr)
    (offsety incy batch_count : Int) (hb : batch_count = 0) :
    rocblas_swap_batched_template NB n x offsetx incx y offsety incy batch_count
      = (rocblas_status_success, []) := by
  unfold rocblas_swap_batched_template
  rw [if_pos (Or.inr hb)]

/-- Witness of C24 (amended): `batch_count = 0` with `n = 5`. -/
theorem swap_batched_quick_return_witness :
    rocblas_swap_batched_template 256 5 1000 0 1 2000 0 1 0 = (rocblas_status_success, []) :=
  swap_batched_quick_return 256 5 1000 0 1 2000 0 1 0 rfl

/-- C25 (counterexample): with `incx = -1` (and also with `incy = -1`), valid
sizes, a non-degenerate shape and four non-null pointers,
`rocblas_ger_arg_check` returns `continue`, not `invalid_size`. -/
theorem ger_arg_check_increment_counterexample :
    rocblas_ger_arg_check 2 2 8 0 16 0 (-1) 0 32 0 1 0 64 0 2 0 1 = rocblas_status_continue
    ∧ rocblas_ger_arg_check 2 2 8 0 16 0 1 0 32 0 (-1) 0 64 0 2 0 1 = rocblas_status_continue
    ∧ rocblas_status_continue ≠ rocblas_status_invalid_size := by
  refine ⟨?_, ?_, ?_⟩ <;> decide

/-- C25 (amended): `rocblas_ger_arg_check` returns `invalid_size` for every
argument tuple in which `incx` or `incy` is zero, whatever the other arguments
are; a negative increment is not rejected: when `m ≥ 0`, `n ≥ 0`, `lda ≥ m`,
`lda ≥ 1`, `batch_count ≥ 0` and both increments are non-zero, of either sign,
the result is not `invalid_size`. -/
theorem ger_arg_check_increment (m n : Int) (alpha : Ptr) (stride_alpha : Int)
    (x : Ptr) (offsetx incx stridex : Int) (y : Ptr) (offsety incy stridey : Int)
    (A : Ptr) (offsetA lda strideA : Int) (batch_count : Int) :
    (incx = 0 ∨ incy = 0 →
      rocblas_ger_arg_check m n alpha stride_alpha x offsetx incx stridex y offsety incy
        stridey A offsetA lda strideA batch_count = rocblas_status_invalid_size)
    ∧ (m ≥ 0 → n ≥ 0 → lda ≥ m → lda ≥ 1 → batch_count ≥ 0 → incx ≠ 0 → incy ≠ 0 →
      rocblas_ger_arg_check m n alpha stride_alpha x offsetx incx stridex y offsety incy
        stridey A offsetA lda strideA batch_count ≠ rocblas_status_invalid_size) := by
  constructor
  · intro h
    unfold rocblas_ger_arg_check
    rw [if_pos (by rcases h with h | h <;> simp [h])]
  · intro hm hn hlda hlda1 hb hx hy
    unfold rocblas_ger_arg_check
    have hs : ¬ (m < 0 ∨ n < 0 ∨ incx = 0 ∨ incy = 0 ∨ lda < m ∨ lda < 1 ∨ batch_count < 0) := by
      rintro (h | h | h | h | h | h | h)
      · omega
      · omega
      · exact hx h
      · exact hy h
      · omega
      · omega
      · omega
    rw [if_neg hs]
    split_ifs <;> decide

/-- Witness of C25 (amended): `incx = 0` is rejected, `incx = -1` is not. -/
theorem ger_arg_check_increment_witness :
    rocblas_ger_arg_check 2 2 8 0 16 0 0 0 32 0 1 0 64 0 2 0 1 = rocblas_status_invalid_size
    ∧ rocblas_ger_arg_check 2 2 8 0 16 0 (-1) 0 32 0 1 0 64 0 2 0 1
        ≠ rocblas_status_invalid_size :=
  ⟨(ger_arg_check_increment 2 2 8 0 16 0 0 0 32 0 1 0 64 0 2 0 1).1 (Or.inl rfl),
    (ger_arg_check_increment 2 2 8 0 16 0 (-1) 0 32 0 1 0 64 0 2 0 1).2 (by decide)
      (by decide) (by decide) (by decide) (by decide) (by decide) (by decide)⟩

/-! ## The log records of a call -/

/-- Each kind of record occurs at most once among the records of `log_records`. -/
theorem log_records_countP {α : Type} (layer_mode : Nat) :
    (log_records layer_mode : List (Effect α)).countP Effect.is_log_trace ≤ 1
    ∧ (log_records layer_mode : List (Effect α)).countP Effect.is_log_bench ≤ 1
    ∧ (log_records layer_mode : List (Effect α)).countP Effect.is_log_profile ≤ 1 := by
  unfold log_records
  split_ifs <;>
    simp [List.countP_cons, Effect.is_log_trace, Effect.is_log_bench, Effect.is_log_profile]

/-- Each kind of record occurs at most once among the records of
`gemv_log_records`. -/
theorem gemv_log_records_countP {α : Type} (layer_mode : Nat)
    (pointer_mode : rocblas_pointer_mode) :
    (gemv_log_records layer_mode pointer_mode : List (Effect α)).countP
        Effect.is_log_trace ≤ 1
    ∧ (gemv_log_records layer_mode pointer_mode : List (Effect α)).countP
        Effect.is_log_bench ≤ 1
    ∧ (gemv_log_records layer_mode pointer_mode : List (Effect α)).countP
        Effect.is_log_profile ≤ 1 := by
  unfold gemv_log_records
  split_ifs <;>
    simp [List.countP_cons, Effect.is_log_trace, Effect.is_log_bench, Effect.is_log_profile]

/-- The log records of a list of effects that consists of log records followed
by effects that are not log records: the records are the first part, and each
kind occurs as often as in the first part. -/
theorem log_part_of_append {α : Type} (logged rest : List (Effect α))
    (hl : ∀ e ∈ logged, e.is_log = true) (hr : ∀ e ∈ rest, e.is_log = false) :
    (logged ++ rest).filter Effect.is_log = logged
    ∧ (logged ++ rest).countP Effect.is_log_trace = logged.countP Effect.is_log_trace
    ∧ (logged ++ rest).countP Effect.is_log_bench = logged.countP Effect.is_log_bench
    ∧ (logged ++ rest).countP Effect.is_log_profile = logged.countP Effect.is_log_profile := by
  have h0 : ∀ p : Effect α → Bool, (∀ e, p e = true → e.is_log = true) →
      rest.countP p = 0 := by
    intro p hp
    rw [List.countP_eq_zero]
    intro e he hpe
    have := hp e hpe
    rw [hr e he] at this
    exact Bool.noConfusion this
  refine ⟨?_, ?_, ?_, ?_⟩
  · rw [List.filter_append, List.filter_eq_self.mpr hl, List.filter_eq_nil_iff.mpr, List.append_nil]
    intro e he
    rw [hr e he]
    exact Bool.noConfusion
  · rw [List.countP_append, h0 _ (fun e he => by cases e <;> first | rfl | exact Bool.noConfusion he),
      Nat.add_zero]
  · rw [List.countP_append, h0 _ (fun e he => by cases e <;> first | rfl | exact Bool.noConfusion he),
      Nat.add_zero]
  · rw [List.countP_append, h0 _ (fun e he => by cases e <;> first | rfl | exact Bool.noConfusion he),
      Nat.add_zero]

/-- The effects of `rocblas_trmv_strided_batched_impl` with a non-null handle
are the log records followed by effects that are not log records. -/
theorem trmv_effects_shape (T : rocblas_type) (tmpl : trmv_template_args → rocblas_status)
    (h : _rocblas_handle) (uplo : rocblas_fill) (transa : rocblas_operation)
    (diag : rocblas_diagonal) (m : Int) (a : Ptr) (lda stridea : Int) (x : Ptr)
    (incx stridex batch_count : Int) :
    ∃ rest : List (Effect trmv_template_args),
      (rocblas_trmv_strided_batched_impl T tmpl (some h) uplo transa diag m a lda stridea x
        incx stridex batch_count).2 = log_records h.layer_mode ++ rest
      ∧ ∀ e ∈ rest, e.is_log = false := by
  unfold rocblas_trmv_strided_batched_impl
  dsimp only
  split_ifs
  all_goals first
    | exact ⟨[], (List.append_nil _).symm, fun e he => absurd he (List.not_mem_nil e)⟩
    | refine ⟨_, rfl, fun e he => ?_⟩
      simp only [List.mem_cons, List.mem_singleton, List.not_mem_nil, or_false] at he
      rcases he with rfl | rfl <;> rfl

/-- The effects of `rocblas_spmv_strided_batched_impl` with a non-null handle
outside size-query mode are the log records followed by effects that are not
log records. -/
theorem spmv_effects_shape (arg_check tmpl : _rocblas_handle → spmv_args → rocblas_status)
    (h : _rocblas_handle) (uplo : rocblas_fill) (n : Int) (alpha A : Ptr) (strideA : Int)
    (x : Ptr) (incx stridex : Int) (beta y : Ptr) (incy stridey batch_count : Int)
    (hq : h.is_device_memory_size_query = false) :
    ∃ rest : List (Effect spmv_args),
      (rocblas_spmv_strided_batched_impl arg_check tmpl (some h) uplo n alpha A strideA x incx
        stridex beta y incy stridey batch_count).2 = log_records h.layer_mode ++ rest
      ∧ ∀ e ∈ rest, e.is_log = false := by
  unfold rocblas_spmv_strided_batched_impl RETURN_ZERO_DEVICE_MEMORY_SIZE_IF_QUERIED
  simp only [hq, Bool.false_eq_true, if_false]
  split_ifs
  · exact ⟨[], (List.append_nil _).symm, fun e he => absurd he (List.not_mem_nil e)⟩
  · refine ⟨_, rfl, fun e he => ?_⟩
    simp only [List.mem_singleton] at he
    subst he
    rfl

/-- The effects of `rocblas_gemv_batched_impl` with a non-null handle outside
size-query mode and non-null `alpha` and `beta` are the log records followed by
effects that are not log records. -/
theorem gemv_effects_shape (tmpl : gemv_template_args → rocblas_status)
    (h : _rocblas_handle) (transA : rocblas_operation) (m n : Int) (alpha A : Ptr) (lda : Int)
    (x : Ptr) (incx : Int) (beta y : Ptr) (incy batch_count : Int)
    (hq : h.is_device_memory_size_query = false) (hab : ¬ (alpha = 0 ∨ beta = 0)) :
    ∃ rest : List (Effect gemv_template_args),
      (rocblas_gemv_batched_impl tmpl (some h) transA m n alpha A lda x incx beta y incy
        batch_count).2 = gemv_log_records h.layer_mode h.pointer_mode ++ rest
      ∧ ∀ e ∈ rest, e.is_log = false := by
  unfold rocblas_gemv_batched_impl RETURN_ZERO_DEVICE_MEMORY_SIZE_IF_QUERIED
  simp only [hq, Bool.false_eq_true, if_false]
  rw [if_neg hab]
  split_ifs
  all_goals first
    | exact ⟨[], (List.append_nil _).symm, fun e he => absurd he (List.not_mem_nil e)⟩
    | refine ⟨_, rfl, fun e he => ?_⟩
      simp only [List.mem_singleton] at he
      subst he
      rfl

/-- C26 (counterexample): with all three log flags set, a call of
`rocblas_trmv_strided_batched_impl` that returns `invalid_size` (`lda = 50` for
`m = 100`) has emitted a trace, a bench and a profile record, and so has a call
of `rocblas_gemv_batched_impl` that returns `invalid_pointer` (null `A`). -/
theorem log_records_emission_counterexample :
    ((rocblas_trmv_strided_batched_impl .double (fun _ => rocblas_status_success)
        (some sample_handle) rocblas_fill_lower rocblas_operation_transpose
        rocblas_diagonal_unit 100 0 50 10000 0 1 100 5).1 = rocblas_status_invalid_size
      ∧ (rocblas_trmv_strided_batched_impl .double (fun _ => rocblas_status_success)
        (some sample_handle) rocblas_fill_lower rocblas_operation_transpose
        rocblas_diagonal_unit 100 0 50 10000 0 1 100 5).2.map Effect.is_log
          = [true, true, true])
    ∧ ((rocblas_gemv_batched_impl (fun _ => rocblas_status_success) (some sample_handle)
        rocblas_operation_none 4 4 8 0 4 64 1 16 128 1 1).1 = rocblas_status_invalid_pointer
      ∧ (rocblas_gemv_batched_impl (fun _ => rocblas_status_success) (some sample_handle)
        rocblas_operation_none 4 4 8 0 4 64 1 16 128 1 1).2.map Effect.is_log
          = [true, true, true]) := by
  refine ⟨⟨?_, ?_⟩, ⟨?_, ?_⟩⟩ <;> decide

/-- C26 (amended): in `rocblas_trmv_strided_batched_impl`,
`rocblas_spmv_strided_batched_impl` and `rocblas_gemv_batched_impl` each kind of
record (trace, bench, profile) is emitted at most once per call, and the records
of a call do not depend on the outcome of the argument validation, which comes
after them: they are the records selected by the layer-mode flags whenever the
handle is non-null and, for spmv and gemv, not in size-query mode and, for gemv,
`alpha` and `beta` are non-null; no record is emitted otherwise. -/
theorem log_records_emission :
    (∀ (T : rocblas_type) (tmpl : trmv_template_args → rocblas_status)
        (handle : rocblas_handle) (uplo : rocblas_fill) (transa : rocblas_operation)
        (diag : rocblas_diagonal) (m : Int) (a : Ptr) (lda stridea : Int) (x : Ptr)
        (incx stridex batch_count : Int),
      (rocblas_trmv_strided_batched_impl T tmpl handle uplo transa diag m a lda stridea x
          incx stridex batch_count).2.filter Effect.is_log
        = (match handle with
            | none => []
            | some h => log_records h.layer_mode)
      ∧ (rocblas_trmv_strided_batched_impl T tmpl handle uplo transa diag m a lda stridea x
          incx stridex batch_count).2.countP Effect.is_log_trace ≤ 1
      ∧ (rocblas_trmv_strided_batched_impl T tmpl handle uplo transa diag m a lda stridea x
          incx stridex batch_count).2.countP Effect.is_log_bench ≤ 1
      ∧ (rocblas_trmv_strided_batched_impl T tmpl handle uplo transa diag m a lda stridea x
          incx stridex batch_count).2.countP Effect.is_log_profile ≤ 1)
    ∧ (∀ (arg_check tmpl : _rocblas_handle → spmv_args → rocblas_status)
        (handle : rocblas_handle) (uplo : rocblas_fill) (n : Int) (alpha A : Ptr)
        (strideA : Int) (x : Ptr) (incx stridex : Int) (beta y : Ptr)
        (incy stridey batch_count : Int),
      (rocblas_spmv_strided_batched_impl arg_check tmpl handle uplo n alpha A strideA x incx
          stridex beta y incy stridey batch_count).2.filter Effect.is_log
        = (match handle with
            | none => []
            | some h =>
              if h.is_device_memory_size_query then [] else log_records h.layer_mode)
      ∧ (rocblas_spmv_strided_batched_impl arg_check tmpl handle uplo n alpha A strideA x incx
          stridex beta y incy stridey batch_count).2.countP Effect.is_log_trace ≤ 1
      ∧ (rocblas_spmv_strided_batched_impl arg_check tmpl handle uplo n alpha A strideA x incx
          stridex beta y incy stridey batch_count).2.countP Effect.is_log_bench ≤ 1
      ∧ (rocblas_spmv_strided_batched_impl arg_check tmpl handle uplo n alpha A strideA x incx
          stridex beta y incy stridey batch_count).2.countP Effect.is_log_profile ≤ 1)
    ∧ (∀ (tmpl : gemv_template_args → rocblas_status) (handle : rocblas_handle)
        (transA : rocblas_operation) (m n : Int) (alpha A : Ptr) (lda : Int) (x : Ptr)
        (incx : Int) (beta y : Ptr) (incy batch_count : Int),
      (rocblas_gemv_batched_impl tmpl handle transA m n alpha A lda x incx beta y incy
          batch_count).2.filter Effect.is_log
        = (match handle with
            | none => []
            | some h =>
              if h.is_device_memory_size_query then []
              else if alpha = 0 ∨ beta = 0 then []
              else gemv_log_records h.layer_mode h.pointer_mode)
      ∧ (rocblas_gemv_batched_impl tmpl handle transA m n alpha A lda x incx beta y incy
          batch_count).2.countP Effect.is_log_trace ≤ 1
      ∧ (rocblas_gemv_batched_impl tmpl handle transA m n alpha A lda x incx beta y incy
          batch_count).2.countP Effect.is_log_bench ≤ 1
      ∧ (rocblas_gemv_batched_impl tmpl handle transA m n alpha A lda x incx beta y incy
          batch_count).2.countP Effect.is_log_profile ≤ 1) := by
  refine ⟨?_, ?_, ?_⟩
  · intro T tmpl handle uplo transa diag m a lda stridea x incx stridex batch_count
    cases handle with
    | none => exact ⟨rfl, Nat.zero_le _, Nat.zero_le _, Nat.zero_le _⟩
    | some h =>
      obtain ⟨rest, heq, hrest⟩ := trmv_effects_shape T tmpl h uplo transa diag m a lda
        stridea x incx stridex batch_count
      have hp := log_part_of_append _ rest (log_records_is_log h.layer_mode) hrest
      have hc := @log_records_countP trmv_template_args h.layer_mode
      rw [heq, hp.1, hp.2.1, hp.2.2.1, hp.2.2.2]
      exact ⟨rfl, hc⟩
  · intro arg_check tmpl handle uplo n alpha A strideA x incx stridex beta y incy stridey
      batch_count
    cases handle with
    | none => exact ⟨rfl, Nat.zero_le _, Nat.zero_le _, Nat.zero_le _⟩
    | some h =>
      cases hq : h.is_device_memory_size_query with
      | true =>
        have h0 : (rocblas_spmv_strided_batched_impl arg_check tmpl (some h) uplo n alpha A
            strideA x incx stridex beta y incy stridey batch_count).2 = [] := by
          unfold rocblas_spmv_strided_batched_impl RETURN_ZERO_DEVICE_MEMORY_SIZE_IF_QUERIED
          simp only [hq, if_true]
        rw [h0]
        exact ⟨by simp [hq], Nat.zero_le _, Nat.zero_le _, Nat.zero_le _⟩
      | false =>
        obtain ⟨rest, heq, hrest⟩ := spmv_effects_shape arg_check tmpl h uplo n alpha A
          strideA x incx stridex beta y incy stridey batch_count hq
        have hp := log_part_of_append _ rest (log_records_is_log h.layer_mode) hrest
        have hc := @log_records_countP spmv_args h.layer_mode
        rw [heq, hp.1, hp.2.1, hp.2.2.1, hp.2.2.2]
        exact ⟨by simp [hq], hc⟩
  · intro tmpl handle transA m n alpha A lda x incx beta y incy batch_count
    cases handle with
    | none => exact ⟨rfl, Nat.zero_le _, Nat.zero_le _, Nat.zero_le _⟩
    | some h =>
      cases hq : h.is_device_memory_size_query with
      | true =>
        have h0 : (rocblas_gemv_batched_impl tmpl (some h) transA m n alpha A lda x incx beta
            y incy batch_count).2 = [] := by
          unfold rocblas_gemv_batched_impl RETURN_ZERO_DEVICE_MEMORY_SIZE_IF_QUERIED
          simp only [hq, if_true]
        rw [h0]
        exact ⟨by simp [hq], Nat.zero_le _, Nat.zero_le _, Nat.zero_le _⟩
      | false =>
        by_cases hab : alpha = 0 ∨ beta = 0
        · have h0 : (rocblas_gemv_batched_impl tmpl (some h) transA m n alpha A lda x incx
              beta y incy batch_count).2 = [] := by
            unfold rocblas_gemv_batched_impl RETURN_ZERO_DEVICE_MEMORY_SIZE_IF_QUERIED
            simp only [hq, Bool.false_eq_true, if_false]
            rw [if_pos hab]
          rw [h0]
          exact ⟨by simp [hq, hab], Nat.zero_le _, Nat.zero_le _, Nat.zero_le _⟩
        · obtain ⟨rest, heq, hrest⟩ := gemv_effects_shape tmpl h transA m n alpha A lda x
            incx beta y incy batch_count hq hab
          have hp := log_part_of_append _ rest
            (gemv_log_records_is_log h.layer_mode h.pointer_mode) hrest
          have hc := @gemv_log_records_countP gemv_template_args h.layer_mode
            h.pointer_mode
          rw [heq, hp.1, hp.2.1, hp.2.2.1, hp.2.2.2]
          exact ⟨by simp [hq, hab], hc⟩

/-! ## The dispatch of the extended triangular solve -/

/-- C27: `rocblas_trsm_strided_batched_ex` returns `not_implemented` for every
`compute_type` other than `rocblas_datatype_f64_r` and `rocblas_datatype_f32_r`,
whatever the other arguments are, without calling the implementation; for
`f64_r` and `f32_r` it calls `rocblas_trsm_strided_batched_ex_impl` once,
instantiated with block size 128 (for `double` and `float`), on the same
arguments up to `invA_size`, and returns its status. -/
theorem trsm_strided_batched_ex_dispatch (impl : trsm_ex_impl_call → rocblas_status)
    (handle : rocblas_handle) (side : rocblas_side) (uplo : rocblas_fill)
    (transA : rocblas_operation) (diag : rocblas_diagonal) (m n : Int) (alpha : Ptr)
    (A : Ptr) (lda stride_A : Int) (B : Ptr) (ldb stride_B batch_count : Int)
    (invA : Ptr) (invA_size stride_invA : Int) :
    (∀ compute_type : rocblas_datatype,
      compute_type ≠ rocblas_datatype_f64_r → compute_type ≠ rocblas_datatype_f32_r →
      rocblas_trsm_strided_batched_ex impl handle side uplo transA diag m n alpha A lda
          stride_A B ldb stride_B batch_count invA invA_size stride_invA compute_type
        = (rocblas_status_not_implemented, []))
    ∧ rocblas_trsm_strided_batched_ex impl handle side uplo transA diag m n alpha A lda
          stride_A B ldb stride_B batch_count invA invA_size stride_invA
          rocblas_datatype_f64_r
        = (impl { BLOCK := 128, T := rocblas_type.double, handle := handle, side := side,
                  uplo := uplo, transA := transA, diag := diag, m := m, n := n,
                  alpha := alpha, A := A, lda := lda, stride_A := stride_A, B := B,
                  ldb := ldb, stride_B := stride_B, batch_count := batch_count,
                  invA := invA, invA_size := invA_size },
           [{ BLOCK := 128, T := rocblas_type.double, handle := handle, side := side,
              uplo := uplo, transA := transA, diag := diag, m := m, n := n,
              alpha := alpha, A := A, lda := lda, stride_A := stride_A, B := B,
              ldb := ldb, stride_B := stride_B, batch_count := batch_count,
              invA := invA, invA_size := invA_size }])
    ∧ rocblas_trsm_strided_batched_ex impl handle side uplo transA diag m n alpha A lda
          stride_A B ldb stride_B batch_count invA invA_size stride_invA
          rocblas_datatype_f32_r
        = (impl { BLOCK := 128, T := rocblas_type.float, handle := handle, side := side,
                  uplo := uplo, transA := transA, diag := diag, m := m, n := n,
                  alpha := alpha, A := A, lda := lda, stride_A := stride_A, B := B,
                  ldb := ldb, stride_B := stride_B, batch_count := batch_count,
                  invA := invA, invA_size := invA_size },
           [{ BLOCK := 128, T := rocblas_type.float, handle := handle, side := side,
              uplo := uplo, transA := transA, diag := diag, m := m, n := n,
              alpha := alpha, A := A, lda := lda, stride_A := stride_A, B := B,
              ldb := ldb, stride_B := stride_B, batch_count := batch_count,
              invA := invA, invA_size := invA_size }]) := by
  refine ⟨?_, rfl, rfl⟩
  intro compute_type h64 h32
  cases compute_type <;> first | rfl | exact absurd rfl h64 | exact absurd rfl h32

/-- Witness of C27: the compute type `f16_r` is not implemented, for an
implementation that would have reported `success`. -/
theorem trsm_strided_batched_ex_dispatch_witness :
    rocblas_trsm_strided_batched_ex
        (fun c => if c.BLOCK = 128 then rocblas_status_success
          else rocblas_status_internal_error)
        (some sample_handle) rocblas_side.rocblas_side_left rocblas_fill_lower
        rocblas_operation_none rocblas_diagonal_non_unit 4 3 8 16 4 16 32 4 12 2 64 128 16384
        rocblas_datatype_f16_r
      = (rocblas_status_not_implemented, []) :=
  (trsm_strided_batched_ex_dispatch
    (fun c => if c.BLOCK = 128 then rocblas_status_success else rocblas_status_internal_error)
    (some sample_handle) rocblas_side.rocblas_side_left rocblas_fill_lower
    rocblas_operation_none rocblas_diagonal_non_unit 4 3 8 16 4 16 32 4 12 2 64 128
    16384).1 rocblas_datatype_f16_r (by decide) (by decide)

/-! ## The offset in the scaling kernel -/

/-- C29 (failing input): for `T = float`, `m = 65536` and `batch_count = 65536`,
which pass validation with `lda = 65536` and `incx = 1`, the product
`m * batch_count` is `2 ^ 32` and is truncated to the 32-bit `0` before it is
widened: `dev_bytes` is `0`, not `65536 * 65536 * 4 = 17179869184`, and a size
query reports zero bytes (the handle answers `size_unchanged`, as it does for
zero bytes only); for `m = 65536` and `batch_count = 32768` the truncated
product is negative and `dev_bytes` is `2 ^ 64 - 2 ^ 33`, not `2 ^ 33`. -/
theorem trmv_dev_bytes_wraps :
    trmv_dev_bytes .float 65536 65536 = 0
    ∧ (65536 : Int) * 65536 * (rocblas_type.float.sizeof : Int) = 17179869184
    ∧ isInt32 65536
    ∧ rocblas_trmv_strided_batched_impl .float (fun _ => rocblas_status_success)
        (some sample_query_handle) rocblas_fill_lower rocblas_operation_none
        rocblas_diagonal_non_unit 65536 0 65536 0 0 1 65536 65536
      = (rocblas_status_size_unchanged, [Effect.set_optimal_device_memory_size 0])
    ∧ trmv_dev_bytes .float 65536 32768 = 2 ^ 64 - 2 ^ 33
    ∧ (65536 : Int) * 32768 * (rocblas_type.float.sizeof : Int) = 2 ^ 33 := by
  refine ⟨by decide, by decide, by decide, ?_, by decide, by decide⟩
  have h : trmv_dev_bytes .float 65536 65536 = 0 := by decide
  unfold rocblas_trmv_strided_batched_impl
  simp only [h]
  rfl

/-! ## The threads of the rank-1 update and the shared slots they read -/

/-- The shared slots an updating thread of a block reads. For a thread of the
block with `tx < m` and `ty < n`: the threads `(threadIdx.x, 0)` and
`(0, threadIdx.y)` belong to the block; before the barrier the first stores
`x[tx * incx]` in `xdata[threadIdx.x]` and the second `y[ty * incy]` in
`ydata[threadIdx.y]`; at the barrier, whatever the order in which the threads
of the block ran, the two slots hold these values; and the update of the
thread reads them and is defined. -/
theorem ger_shared_slots {α : Type} [Add α] [Mul α] (conj : α → α) (L : ger_launch α)
    (dev : Int → α) (blk : ger_block) (order : List ger_thread) (t : ger_thread)
    (hperm : order.Perm L.block_threads) (ht : t ∈ L.block_threads)
    (hdx : 0 < L.hipBlockDim_x) (hdy : 0 < L.hipBlockDim_y)
    (htx : (blk.hipBlockIdx_x : Int) * (L.hipBlockDim_x : Int) + (t.hipThreadIdx_x : Int) < L.m)
    (hty : (blk.hipBlockIdx_y : Int) * (L.hipBlockDim_y : Int) + (t.hipThreadIdx_y : Int)
      < L.n) :
    (({ hipThreadIdx_x := t.hipThreadIdx_x, hipThreadIdx_y := 0 } : ger_thread)
        ∈ L.block_threads
      ∧ ({ hipThreadIdx_x := 0, hipThreadIdx_y := t.hipThreadIdx_y } : ger_thread)
        ∈ L.block_threads)
    ∧ (∀ sh0 : ger_shared α,
        (ger_kernel_load L dev blk { hipThreadIdx_x := t.hipThreadIdx_x, hipThreadIdx_y := 0 }
            sh0).xdata t.hipThreadIdx_x
          = some (dev (load_ptr_batch L.xa blk.hipBlockIdx_z L.shiftx L.stridex
              + ((blk.hipBlockIdx_x : Int) * (L.hipBlockDim_x : Int) + (t.hipThreadIdx_x : Int))
                * L.incx)))
    ∧ (∀ sh0 : ger_shared α,
        (ger_kernel_load L dev blk { hipThreadIdx_x := 0, hipThreadIdx_y := t.hipThreadIdx_y }
            sh0).ydata t.hipThreadIdx_y
          = some (dev (load_ptr_batch L.ya blk.hipBlockIdx_z L.shifty L.stridey
              + ((blk.hipBlockIdx_y : Int) * (L.hipBlockDim_y : Int) + (t.hipThreadIdx_y : Int))
                * L.incy)))
    ∧ (order.foldl (fun sh t => ger_kernel_load L dev blk t sh)
          { xdata := fun _ => none, ydata := fun _ => none }).xdata t.hipThreadIdx_x
        = some (dev (load_ptr_batch L.xa blk.hipBlockIdx_z L.shiftx L.stridex
            + ((blk.hipBlockIdx_x : Int) * (L.hipBlockDim_x : Int) + (t.hipThreadIdx_x : Int))
              * L.incx))
    ∧ (order.foldl (fun sh t => ger_kernel_load L dev blk t sh)
          { xdata := fun _ => none, ydata := fun _ => none }).ydata t.hipThreadIdx_y
        = some (dev (load_ptr_batch L.ya blk.hipBlockIdx_z L.shifty L.stridey
            + ((blk.hipBlockIdx_y : Int) * (L.hipBlockDim_y : Int) + (t.hipThreadIdx_y : Int))
              * L.incy))
    ∧ (∀ Amem : Int → α,
        (ger_kernel_update conj L dev blk t
          (order.foldl (fun sh t => ger_kernel_load L dev blk t sh)
            { xdata := fun _ => none, ydata := fun _ => none }) Amem).isSome = true) := by
  have htm := (ger_launch_mem_block_threads L t).mp ht
  obtain ⟨hX, hY⟩ := ger_load_phase L dev blk order hperm hdx hdy
  have hxs := hX t.hipThreadIdx_x htm.1 htx
  have hys := hY t.hipThreadIdx_y htm.2 hty
  refine ⟨⟨?_, ?_⟩, ?_, ?_, hxs, hys, ?_⟩
  · exact (ger_launch_mem_block_threads L _).mpr ⟨htm.1, hdy⟩
  · exact (ger_launch_mem_block_threads L _).mpr ⟨hdx, htm.2⟩
  · intro sh0
    rw [ger_kernel_load_xdata]
    unfold point_step
    simp only [htx, and_self, if_true, Function.update_same]
  · intro sh0
    rw [ger_kernel_load_ydata]
    unfold point_step
    simp only [hty, and_self, if_true, Function.update_same]
  · intro Amem
    rw [ger_kernel_update_point_step conj L dev blk t _ Amem (fun _ => hxs) (fun _ => hys)]
    rfl

/-- C30: in the launch of `ger_kernel` that `rocblas_ger_template` issues for
`m > 0`, `n > 0` (blocks of 64 by 16 threads, grid `((m-1)/64 + 1, (n-1)/16 + 1,
batch_count)`): (a) every index pair `(i, j)` with `i < m` and `j < n` is the
pair `(tx, ty)` of exactly one thread of exactly one block for each batch
member; (b) for every thread with `tx < m` and `ty < n`, the threads
`(threadIdx.x, 0)` and `(0, threadIdx.y)` of its block store `x[tx * incx]` in
`xdata[threadIdx.x]` and `y[ty * incy]` in `ydata[threadIdx.y]` before the
barrier, the two slots hold these values at the barrier for every order of the
threads, and the update of the thread reads no unwritten slot. -/
theorem ger_kernel_coverage {α : Type} [Add α] [Mul α] (conj : α → α) (dev host : Int → α)
    (CONJ : Bool) (handle : _rocblas_handle) (m n : Int) (alpha : Ptr) (stride_alpha : Int)
    (x : batch_operand) (offsetx incx stridex : Int) (y : batch_operand)
    (offsety incy stridey : Int) (A : batch_operand) (offsetA lda strideA batch_count : Int)
    (hm : m > 0) (hm32 : isInt32 m) (hn : n > 0) (hn32 : isInt32 n) (hb : batch_count > 0)
    (hb32 : isInt32 batch_count) :
    (rocblas_ger_template CONJ handle host m n alpha stride_alpha x offsetx incx stridex y
        offsety incy stridey A offsetA lda strideA batch_count).2.length = 1
    ∧ ∀ L ∈ (rocblas_ger_template CONJ handle host m n alpha stride_alpha x offsetx incx
        stridex y offsety incy stridey A offsetA lda strideA batch_count).2,
      (L.hipBlockDim_x = 64 ∧ L.hipBlockDim_y = 16
        ∧ (L.gridDim_x : Int) = (m - 1) / 64 + 1 ∧ (L.gridDim_y : Int) = (n - 1) / 16 + 1
        ∧ (L.gridDim_z : Int) = batch_count ∧ L.m = m ∧ L.n = n)
      ∧ (∀ b i j : Nat, (b : Int) < batch_count → (i : Int) < m → (j : Int) < n →
          ∃! p : ger_block × ger_thread,
            p.1 ∈ L.blocks ∧ p.2 ∈ L.block_threads ∧ p.1.hipBlockIdx_z = b
            ∧ p.1.hipBlockIdx_x * 64 + p.2.hipThreadIdx_x = i
            ∧ p.1.hipBlockIdx_y * 16 + p.2.hipThreadIdx_y = j)
      ∧ (∀ (blk : ger_block) (order : List ger_thread) (t : ger_thread),
          blk ∈ L.blocks → order.Perm L.block_threads → t ∈ L.block_threads →
          (blk.hipBlockIdx_x : Int) * (L.hipBlockDim_x : Int) + (t.hipThreadIdx_x : Int) < L.m →
          (blk.hipBlockIdx_y : Int) * (L.hipBlockDim_y : Int) + (t.hipThreadIdx_y : Int) < L.n →
          (({ hipThreadIdx_x := t.hipThreadIdx_x, hipThreadIdx_y := 0 } : ger_thread)
              ∈ L.block_threads
            ∧ ({ hipThreadIdx_x := 0, hipThreadIdx_y := t.hipThreadIdx_y } : ger_thread)
              ∈ L.block_threads)
          ∧ (∀ sh0 : ger_shared α,
              (ger_kernel_load L dev blk
                  { hipThreadIdx_x := t.hipThreadIdx_x, hipThreadIdx_y := 0 }
                  sh0).xdata t.hipThreadIdx_x
                = some (dev (load_ptr_batch L.xa blk.hipBlockIdx_z L.shiftx L.stridex
                    + ((blk.hipBlockIdx_x : Int) * (L.hipBlockDim_x : Int)
                        + (t.hipThreadIdx_x : Int)) * L.incx)))
          ∧ (∀ sh0 : ger_shared α,
              (ger_kernel_load L dev blk
                  { hipThreadIdx_x := 0, hipThreadIdx_y := t.hipThreadIdx_y }
                  sh0).ydata t.hipThreadIdx_y
                = some (dev (load_ptr_batch L.ya blk.hipBlockIdx_z L.shifty L.stridey
                    + ((blk.hipBlockIdx_y : Int) * (L.hipBlockDim_y : Int)
                        + (t.hipThreadIdx_y : Int)) * L.incy)))
          ∧ (order.foldl (fun sh t => ger_kernel_load L dev blk t sh)
                { xdata := fun _ => none, ydata := fun _ => none }).xdata t.hipThreadIdx_x
              = some (dev (load_ptr_batch L.xa blk.hipBlockIdx_z L.shiftx L.stridex
                  + ((blk.hipBlockIdx_x : Int) * (L.hipBlockDim_x : Int)
                      + (t.hipThreadIdx_x : Int)) * L.incx))
          ∧ (order.foldl (fun sh t => ger_kernel_load L dev blk t sh)
                { xdata := fun _ => none, ydata := fun _ => none }).ydata t.hipThreadIdx_y
              = some (dev (load_ptr_batch L.ya blk.hipBlockIdx_z L.shifty L.stridey
                  + ((blk.hipBlockIdx_y : Int) * (L.hipBlockDim_y : Int)
                      + (t.hipThreadIdx_y : Int)) * L.incy))
          ∧ (∀ Amem : Int → α,
              (ger_kernel_update conj L dev blk t
                (order.foldl (fun sh t => ger_kernel_load L dev blk t sh)
                  { xdata := fun _ => none, ydata := fun _ => none }) Amem).isSome = true)) := by
  have hq : ¬ (m = 0 ∨ n = 0 ∨ batch_count = 0) := by omega
  have hT := ger_template_eq CONJ handle host m n alpha stride_alpha x offsetx incx stridex y
    offsety incy stridey A offsetA lda strideA batch_count hq
  obtain ⟨hgx, hcx⟩ := launch_blocks_cover m 64 hm hm32 (by norm_num)
  obtain ⟨hgy, hcy⟩ := launch_blocks_cover n 16 hn hn32 (by norm_num)
  have hgz : ((toUInt32 batch_count : Nat) : Int) = batch_count := by
    unfold isInt32 at hb32
    unfold toUInt32
    rw [Int.emod_eq_of_lt (by omega) (by omega)]
    exact Int.toNat_of_nonneg (by omega)
  have hbx : toUInt32 64 = 64 := by decide
  have hby : toUInt32 16 = 16 := by decide
  rw [hT]
  refine ⟨rfl, ?_⟩
  intro L hL
  rw [List.mem_singleton] at hL
  subst hL
  refine ⟨⟨hbx, hby, hgx, hgy, hgz, rfl, rfl⟩, ?_, ?_⟩
  · intro b i j hb1 hi hj
    simp only [ger_launch_mem_blocks, ger_launch_mem_block_threads]
    simp only [ger_template_launch, hbx, hby]
    generalize toUInt32 (wrapInt32 (wrapInt32 (Int.tdiv (wrapInt32 (m - 1)) 64) + 1)) = gx
      at hgx
    generalize toUInt32 (wrapInt32 (wrapInt32 (Int.tdiv (wrapInt32 (n - 1)) 16) + 1)) = gy
      at hgy
    generalize toUInt32 batch_count = gz at hgz
    refine ⟨({ hipBlockIdx_x := i / 64, hipBlockIdx_y := j / 16, hipBlockIdx_z := b },
      { hipThreadIdx_x := i % 64, hipThreadIdx_y := j % 16 }), ?_, ?_⟩
    · dsimp only
      refine ⟨⟨?_, ?_, ?_⟩, ⟨?_, ?_⟩, rfl, ?_, ?_⟩ <;> omega
    · rintro ⟨⟨bx, by2, bz⟩, ⟨tx, ty⟩⟩ ⟨⟨h1, h2, h3⟩, ⟨h4, h5⟩, h6, h7, h8⟩
      dsimp only at h1 h2 h3 h4 h5 h6 h7 h8
      simp only [Prod.mk.injEq, ger_block.mk.injEq, ger_thread.mk.injEq]
      refine ⟨⟨?_, ?_, ?_⟩, ?_, ?_⟩ <;> omega
  · intro blk order t hblk hperm ht htx hty
    exact ger_shared_slots conj _ dev blk order t hperm ht
      (by simp only [ger_template_launch, hbx]; norm_num)
      (by simp only [ger_template_launch, hby]; norm_num) htx hty

/-- Witness of C30: `m = n = 2` and three batch members; one launch is issued. -/
theorem ger_kernel_coverage_witness :
    (rocblas_ger_template false sample_handle (fun _ => (1 : Int)) 2 2 0 0
        (batch_operand.strided 0) 0 1 2 (batch_operand.strided 100) 0 1 2
        (batch_operand.strided 0) 0 2 4 3).2.length = 1 :=
  (ger_kernel_coverage id (fun _ => (1 : Int)) (fun _ => (1 : Int)) false sample_handle 2 2 0
    0 (batch_operand.strided 0) 0 1 2 (batch_operand.strided 100) 0 1 2
    (batch_operand.strided 0) 0 2 4 3 (by decide) (by decide) (by decide) (by decide)
    (by decide) (by decide)).1

/-! ## The batch offset of the scaling kernel at a stride that wraps -/

/-- C12 (failing input): `rocblas_scal_template` in host pointer mode with
`n = 1`, `incx = 1`, `alpha = 2`, base `1000`, offset 0. With `stridex = -1` and
two batch members (positions `1000` and `999`, which do not overlap), the
launched grid scales the element at `1000` and the element at
`1000 + 4294967295`, and leaves the element at `1000 + 1 * (-1)` unchanged:
the batch offset `hipBlockIdx_y * stridex` is a 32-bit unsigned product. With
`stridex = 2147483647` and four batch members, the fourth member is scaled at
`1000 + 2147483645` and the element at `1000 + 3 * 2147483647` is unchanged. -/
theorem scal_template_stride_wraps :
    (scal_template_run scal_launch.threads 256 sample_handle 1 (2 : Int) 1000 0 1 (-1) 2
        (fun a => a) 1000 = 2000
      ∧ scal_template_run scal_launch.threads 256 sample_handle 1 (2 : Int) 1000 0 1 (-1) 2
        (fun a => a) (1000 + 1 * (-1)) = 1000 + 1 * (-1)
      ∧ scal_template_run scal_launch.threads 256 sample_handle 1 (2 : Int) 1000 0 1 (-1) 2
        (fun a => a) (1000 + 4294967295) = (1000 + 4294967295) * 2)
    ∧ (scal_template_run scal_launch.threads 256 sample_handle 1 (2 : Int) 1000 0 1
        2147483647 4 (fun a => a) (1000 + 3 * 2147483647) = 1000 + 3 * 2147483647
      ∧ scal_template_run scal_launch.threads 256 sample_handle 1 (2 : Int) 1000 0 1
        2147483647 4 (fun a => a) (1000 + 2147483645) = (1000 + 2147483645) * 2) := by
  have hc2 : ∀ b : Int, 0 ≤ b → b < 2 → b = 0 ∨ b = 1 := fun b h0 h1 => by omega
  have hc4 : ∀ b : Int, 0 ≤ b → b < 4 → b = 0 ∨ b = 1 ∨ b = 2 ∨ b = 3 :=
    fun b h0 h1 => by omega
  have hi : ∀ i : Int, 0 ≤ i → i < 1 → i = 0 := fun i h0 h1 => by omega
  constructor
  · have h := scal_template_run_spec 256 sample_handle 1 (2 : Int) 1000 0 1 (-1) 2
      (fun a => a) (by decide) (by decide) (by decide) (by decide) (by decide) (by decide)
      (by decide)
      (by
        intro b b2 i i2 hb0 hb1 hb20 hb21 hi0 hi1 hi20 hi21 h
        obtain rfl := hi i hi0 hi1
        obtain rfl := hi i2 hi20 hi21
        rcases hc2 b hb0 hb1 with rfl | rfl <;> rcases hc2 b2 hb20 hb21 with rfl | rfl <;>
          first
            | rfl
            | exact absurd h (by decide))
      scal_launch.threads (fun L => List.Perm.refl _)
    have h0 := h.1 0 0 (by decide) (by decide) (by decide) (by decide)
    have h1 := h.1 1 0 (by decide) (by decide) (by decide) (by decide)
    have e0 : (1000 : Int) + ((toUInt32 (0 * (-1)) : Nat) : Int) + 0 * 1 = 1000 := by decide
    have e1 : (1000 : Int) + ((toUInt32 (1 * (-1)) : Nat) : Int) + 0 * 1
        = 1000 + 4294967295 := by decide
    rw [e0] at h0
    rw [e1] at h1
    refine ⟨h0, ?_, h1⟩
    apply h.2
    intro b i hb0 hb1 hi0 hi1
    obtain rfl := hi i hi0 hi1
    rcases hc2 b hb0 hb1 with rfl | rfl <;> decide
  · have h := scal_template_run_spec 256 sample_handle 1 (2 : Int) 1000 0 1 2147483647 4
      (fun a => a) (by decide) (by decide) (by decide) (by decide) (by decide) (by decide)
      (by decide)
      (by
        intro b b2 i i2 hb0 hb1 hb20 hb21 hi0 hi1 hi20 hi21 h
        obtain rfl := hi i hi0 hi1
        obtain rfl := hi i2 hi20 hi21
        rcases hc4 b hb0 hb1 with rfl | rfl | rfl | rfl <;>
          rcases hc4 b2 hb20 hb21 with rfl | rfl | rfl | rfl <;>
          first
            | rfl
            | exact absurd h (by decide))
      scal_launch.threads (fun L => List.Perm.refl _)
    have h3 := h.1 3 0 (by decide) (by decide) (by decide) (by decide)
    have e3 : (1000 : Int) + ((toUInt32 (3 * 2147483647) : Nat) : Int) + 0 * 1
        = 1000 + 2147483645 := by decide
    rw [e3] at h3
    refine ⟨?_, h3⟩
    apply h.2
    intro b i hb0 hb1 hi0 hi1
    obtain rfl := hi i hi0 hi1
    rcases hc4 b hb0 hb1 with rfl | rfl | rfl | rfl <;> decide

/-- C15 (failing input): the strided scaling operation with `n = 2`, `incx = 1`,
`alpha = 3`, base `1000`, `B = 2` and stride `s = -2` (members at `1000, 1001`
and `998, 999`, which do not overlap). The sequence of the two calls with
`batch_count = 1`, the second at `x + 1 * s`, multiplies the element at `998`
by 3; the one call with `batch_count = 2` leaves it unchanged and scales the
element at `1000 + 4294967294` instead, so the two buffers differ. -/
theorem scal_batched_sequence_differs :
    (List.range 2).foldl
        (fun buf (b : Nat) => scal_template_run scal_launch.threads 256 sample_handle 2
          (3 : Int) (1000 + (b : Int) * (-2)) 0 1 (-2) 1 buf) (fun a => a) 998 = 998 * 3
    ∧ scal_template_run scal_launch.threads 256 sample_handle 2 (3 : Int) 1000 0 1 (-2) 2
        (fun a => a) 998 = 998
    ∧ scal_template_run scal_launch.threads 256 sample_handle 2 (3 : Int) 1000 0 1 (-2) 2
        (fun a => a) (1000 + 4294967294) = (1000 + 4294967294) * 3
    ∧ scal_template_run scal_launch.threads 256 sample_handle 2 (3 : Int) 1000 0 1 (-2) 2
        (fun a => a)
      ≠ (List.range 2).foldl
          (fun buf (b : Nat) => scal_template_run scal_launch.threads 256 sample_handle 2
            (3 : Int) (1000 + (b : Int) * (-2)) 0 1 (-2) 1 buf) (fun a => a) := by
  have hc2 : ∀ b : Int, 0 ≤ b → b < 2 → b = 0 ∨ b = 1 := fun b h0 h1 => by omega
  have hseq := (scal_sequence_spec 256 sample_handle 2 (3 : Int) 1000 1 (-2) 2 (fun a => a)
    (by decide) (by decide) (by decide) (by decide) (by decide)
    (fun b b2 i i2 _ _ _ _ _ _ _ _
      (h : (1000 : Int) + b * (-2) + i * 1 = 1000 + b2 * (-2) + i2 * 1) => by omega)
    (fun _ => scal_launch.threads) (fun _ L => List.Perm.refl _) 2 (by decide)).1 1 0
    (by decide) (by decide) (by decide) (by decide)
  have es : (1000 : Int) + 1 * (-2) + 0 * 1 = 998 := by decide
  rw [es] at hseq
  have h := scal_template_run_spec 256 sample_handle 2 (3 : Int) 1000 0 1 (-2) 2
    (fun a => a) (by decide) (by decide) (by decide) (by decide) (by decide) (by decide)
    (by decide)
    (by
      intro b b2 i i2 hb0 hb1 hb20 hb21 hi0 hi1 hi20 hi21 h
      rcases hc2 b hb0 hb1 with rfl | rfl <;> rcases hc2 b2 hb20 hb21 with rfl | rfl <;>
        rcases hc2 i hi0 hi1 with rfl | rfl <;> rcases hc2 i2 hi20 hi21 with rfl | rfl <;>
        first
          | rfl
          | exact absurd h (by decide))
    scal_launch.threads (fun L => List.Perm.refl _)
  have h1 := h.1 1 0 (by decide) (by decide) (by decide) (by decide)
  have e1 : (1000 : Int) + ((toUInt32 (1 * (-2)) : Nat) : Int) + 0 * 1
      = 1000 + 4294967294 := by decide
  rw [e1] at h1
  have hun : scal_template_run scal_launch.threads 256 sample_handle 2 (3 : Int) 1000 0 1
      (-2) 2 (fun a => a) 998 = 998 := by
    apply h.2
    intro b i hb0 hb1 hi0 hi1
    rcases hc2 b hb0 hb1 with rfl | rfl <;> rcases hc2 i hi0 hi1 with rfl | rfl <;> decide
  refine ⟨hseq, hun, h1, ?_⟩
  intro heq
  have h2 := congrFun heq 998
  rw [hun, hseq] at h2
  exact absurd h2 (by decide)

/-! ## The positions visited under a negative increment -/

/-- C14: the shift computed once per operand by `rocblas_ger_template` and
`rocblas_swap_batched_template`, as the kernels use it, for `rocblas_int`
offsets, increments and lengths `len ≥ 1`. In the launch of
`rocblas_ger_template`, the thread that loads logical index `i < m` of `x`
reads, when `incx < 0`, the position `offsetx + (m - 1 - i) * |incx|` of the
batch member, and likewise for `y` with `n` and `incy`. In the launch of
`rocblas_swap_batched_template`, the thread of logical index `i < n` exchanges
the positions `offset + (n - 1 - i) * |inc|` of the batch members of `x` and `y`
for a negative increment (`offset + i * inc` otherwise); in particular the
thread of index `i` of the call with increments `-1` does what the thread of
index `n - 1 - i` of the call with increments `+1` does. -/
theorem negative_increment_positions :
    (∀ (α : Type) (dev host : Int → α) (CONJ : Bool) (handle : _rocblas_handle)
        (m n : Int) (alpha : Ptr) (stride_alpha : Int) (x : batch_operand)
        (offsetx incx stridex : Int) (y : batch_operand) (offsety incy stridey : Int)
        (A : batch_operand) (offsetA lda strideA batch_count : Int),
      m ≥ 1 → isInt32 m → n ≥ 1 → isInt32 n → batch_count ≠ 0 →
      isInt32 offsetx → isInt32 incx → isInt32 offsety → isInt32 incy →
      (rocblas_ger_template CONJ handle host m n alpha stride_alpha x offsetx incx stridex y
          offsety incy stridey A offsetA lda strideA batch_count).2.length = 1
      ∧ ∀ L ∈ (rocblas_ger_template CONJ handle host m n alpha stride_alpha x offsetx incx
          stridex y offsety incy stridey A offsetA lda strideA batch_count).2,
        ∀ (blk : ger_block) (t : ger_thread) (sh0 : ger_shared α) (i j : Nat),
          blk.hipBlockIdx_x * 64 + t.hipThreadIdx_x = i → (i : Int) < m →
          blk.hipBlockIdx_y * 16 + t.hipThreadIdx_y = j → (j : Int) < n →
          (incx < 0 →
            (ger_kernel_load L dev blk
                { hipThreadIdx_x := t.hipThreadIdx_x, hipThreadIdx_y := 0 }
                sh0).xdata t.hipThreadIdx_x
              = some (dev (load_ptr_batch x blk.hipBlockIdx_z offsetx stridex
                  + (m - 1 - (i : Int)) * |incx|)))
          ∧ (incy < 0 →
            (ger_kernel_load L dev blk
                { hipThreadIdx_x := 0, hipThreadIdx_y := t.hipThreadIdx_y }
                sh0).ydata t.hipThreadIdx_y
              = some (dev (load_ptr_batch y blk.hipBlockIdx_z offsety stridey
                  + (n - 1 - (j : Int)) * |incy|))))
    ∧ (∀ (α : Type) (rocblas_swap_vals : Ptr → Ptr → (Int → α) → (Int → α))
        (arrays : Ptr → Nat → Ptr) (NB n : Int) (x : Ptr) (offsetx incx : Int) (y : Ptr)
        (offsety incy batch_count : Int) (mem : Int → α),
      n ≥ 1 → isInt32 n → batch_count ≠ 0 →
      isInt32 offsetx → isInt32 incx → isInt32 offsety → isInt32 incy →
      (rocblas_swap_batched_template NB n x offsetx incx y offsety incy
          batch_count).2.length = 1
      ∧ ∀ L ∈ (rocblas_swap_batched_template NB n x offsetx incx y offsety incy
          batch_count).2,
        ∀ (t : swap_thread) (i : Nat),
          t.blockIdx_x * toUInt32 NB + t.threadIdx_x = i → (i : Int) < n →
          L.thread rocblas_swap_vals arrays t mem
            = rocblas_swap_vals
                (arrays x t.blockIdx_y
                  + (offsetx + (if incx < 0 then (n - 1 - (i : Int)) * |incx|
                      else (i : Int) * incx)))
                (arrays y t.blockIdx_y
                  + (offsety + (if incy < 0 then (n - 1 - (i : Int)) * |incy|
                      else (i : Int) * incy)))
                mem)
    ∧ (∀ (α : Type) (rocblas_swap_vals : Ptr → Ptr → (Int → α) → (Int → α))
        (arrays : Ptr → Nat → Ptr) (NB n : Int) (x : Ptr) (offsetx : Int) (y : Ptr)
        (offsety batch_count : Int) (mem : Int → α),
      n ≥ 1 → isInt32 n → batch_count ≠ 0 → isInt32 offsetx → isInt32 offsety →
      ∀ L1 ∈ (rocblas_swap_batched_template NB n x offsetx (-1) y offsety (-1)
          batch_count).2,
        ∀ L2 ∈ (rocblas_swap_batched_template NB n x offsetx 1 y offsety 1 batch_count).2,
          ∀ (t t2 : swap_thread) (i : Nat),
            t.blockIdx_x * toUInt32 NB + t.threadIdx_x = i → (i : Int) < n →
            ((t2.blockIdx_x * toUInt32 NB + t2.threadIdx_x : Nat) : Int) = n - 1 - (i : Int) →
            t2.blockIdx_y = t.blockIdx_y →
            L1.thread rocblas_swap_vals arrays t mem
              = L2.thread rocblas_swap_vals arrays t2 mem) := by
  have hbx : toUInt32 64 = 64 := by decide
  have hby : toUInt32 16 = 16 := by decide
  -- the launch of the batched swap and one of its threads
  have hswap : ∀ (α : Type) (rocblas_swap_vals : Ptr → Ptr → (Int → α) → (Int → α))
      (arrays : Ptr → Nat → Ptr) (NB n : Int) (x : Ptr) (offsetx incx : Int) (y : Ptr)
      (offsety incy batch_count : Int) (mem : Int → α),
      n ≥ 1 → isInt32 n → batch_count ≠ 0 →
      isInt32 offsetx → isInt32 incx → isInt32 offsety → isInt32 incy →
      (rocblas_swap_batched_template NB n x offsetx incx y offsety incy
          batch_count).2.length = 1
      ∧ ∀ L ∈ (rocblas_swap_batched_template NB n x offsetx incx y offsety incy
          batch_count).2,
        ∀ (t : swap_thread) (i : Nat),
          t.blockIdx_x * toUInt32 NB + t.threadIdx_x = i → (i : Int) < n →
          L.thread rocblas_swap_vals arrays t mem
            = rocblas_swap_vals
                (arrays x t.blockIdx_y
                  + (offsetx + (if incx < 0 then (n - 1 - (i : Int)) * |incx|
                      else (i : Int) * incx)))
                (arrays y t.blockIdx_y
                  + (offsety + (if incy < 0 then (n - 1 - (i : Int)) * |incy|
                      else (i : Int) * incy)))
                mem := by
    intro α sv arrays NB n x offsetx incx y offsety incy batch_count mem hn hn32 hb hox hix
      hoy hiy
    have hq : ¬ (n ≤ 0 ∨ batch_count = 0) := by omega
    unfold rocblas_swap_batched_template
    rw [if_neg hq]
    refine ⟨rfl, ?_⟩
    intro L hL
    rw [List.mem_singleton] at hL
    subst hL
    intro t i hti hi
    have htid : ((toUInt32 ((t.blockIdx_x : Int) * ((toUInt32 NB : Nat) : Int)
        + (t.threadIdx_x : Int)) : Nat) : Int) = (i : Int) := by
      have h1 : (t.blockIdx_x : Int) * ((toUInt32 NB : Nat) : Int) + (t.threadIdx_x : Int)
          = (i : Int) := by
        rw [← hti]
        push_cast
        rfl
      rw [h1]
      unfold isInt32 at hn32
      exact toUInt32_of_range _ (Int.natCast_nonneg _) (by omega)
    have hpx := inc_shift_position offsetx incx n i hox hix hn32 hn
    have hpy := inc_shift_position offsety incy n i hoy hiy hn32 hn
    unfold swap_batched_launch.thread rocblas_swap_kernel_batched
    dsimp only
    rw [htid, if_pos hi, add_assoc, add_assoc, hpx, hpy]
  refine ⟨?_, hswap, ?_⟩
  · intro α dev host CONJ handle m n alpha stride_alpha x offsetx incx stridex y offsety incy
      stridey A offsetA lda strideA batch_count hm hm32 hn hn32 hb hox hix hoy hiy
    have hq : ¬ (m = 0 ∨ n = 0 ∨ batch_count = 0) := by omega
    rw [ger_template_eq CONJ handle host m n alpha stride_alpha x offsetx incx stridex y
      offsety incy stridey A offsetA lda strideA batch_count hq]
    refine ⟨rfl, ?_⟩
    intro L hL
    rw [List.mem_singleton] at hL
    subst hL
    intro blk t sh0 i j hti hi htj hj
    have htx : (blk.hipBlockIdx_x : Int) * ((toUInt32 64 : Nat) : Int)
        + (t.hipThreadIdx_x : Int) = (i : Int) := by
      rw [hbx, ← hti]
      push_cast
      rfl
    have hty : (blk.hipBlockIdx_y : Int) * ((toUInt32 16 : Nat) : Int)
        + (t.hipThreadIdx_y : Int) = (j : Int) := by
      rw [hby, ← htj]
      push_cast
      rfl
    constructor
    · intro hneg
      have hp := inc_shift_position offsetx incx m i hox hix hm32 hm
      rw [if_pos hneg] at hp
      rw [ger_kernel_load_xdata]
      unfold point_step
      simp only [ger_template_launch, htx, hi, and_self, if_true, Function.update_same]
      rw [load_ptr_batch_offset x blk.hipBlockIdx_z _ offsetx stridex _ _ hp]
    · intro hneg
      have hp := inc_shift_position offsety incy n j hoy hiy hn32 hn
      rw [if_pos hneg] at hp
      rw [ger_kernel_load_ydata]
      unfold point_step
      simp only [ger_template_launch, hty, hj, and_self, if_true, Function.update_same]
      rw [load_ptr_batch_offset y blk.hipBlockIdx_z _ offsety stridey _ _ hp]
  · intro α sv arrays NB n x offsetx y offsety batch_count mem hn hn32 hb hox hoy L1 hL1 L2
      hL2 t t2 i hti hi ht2 hy
    have hi2 : ((t2.blockIdx_x * toUInt32 NB + t2.threadIdx_x : Nat) : Int) < n := by omega
    have h1 := (hswap α sv arrays NB n x offsetx (-1) y offsety (-1) batch_count mem hn hn32
      hb hox (by decide) hoy (by decide)).2 L1 hL1 t i hti hi
    have h2 := (hswap α sv arrays NB n x offsetx 1 y offsety 1 batch_count mem hn hn32
      hb hox (by decide) hoy (by decide)).2 L2 hL2 t2 _ rfl hi2
    rw [h1, h2, hy, ht2]
    norm_num

/-- Witness of C14: the batched swap of vectors of length 5 with `incx = -2` at
offset 10 and `incy = 1`; the thread of logical index 1 of batch member 1
exchanges position `10 + (5 - 1 - 1) * 2` of `x` (address `1116`) with position
`1` of `y` (address `2101`). -/
theorem negative_increment_positions_witness :
    (rocblas_swap_batched_template 256 5 1000 10 (-2) 2000 0 1 3).2.map
        (fun L => L.thread
          (fun p q (mem : Int → Int) => Function.update (Function.update mem p (mem q)) q (mem p))
          (fun p b => p + 100 * (b : Int))
          { blockIdx_x := 0, blockIdx_y := 1, threadIdx_x := 1 } (fun a => a) 1116)
      = [2101] := by
  have h := (negative_increment_positions.2.1 Int
    (fun p q (mem : Int → Int) => Function.update (Function.update mem p (mem q)) q (mem p))
    (fun p b => p + 100 * (b : Int)) 256 5 1000 10 (-2) 2000 0 1 3 (fun a => a)
    (by decide) (by decide) (by decide) (by decide) (by decide) (by decide) (by decide)).2
  have hl : (rocblas_swap_batched_template 256 5 1000 10 (-2) 2000 0 1 3).2
      = [{ blocks := 1, batch_count := 3, NB := 256, n := 5, x := 1000, shiftx := 18,
           incx := -2, y := 2000, shifty := 0, incy := 1 }] := by decide
  rw [hl] at h ⊢
  have h1 := h _ (List.mem_singleton.mpr rfl)
    { blockIdx_x := 0, blockIdx_y := 1, threadIdx_x := 1 } 1 (by decide) (by decide)
  simp only [List.map_cons, List.map_nil]
  rw [h1]
  decide

/-! ## The size query of the triangular product at large sizes -/

/-- C7 (failing input): a size query of `rocblas_trmv_strided_batched_impl` for
`T = double`, `uplo` upper, `m = 65536`, `lda = 65536`, `incx = 1` and
`batch_count = 65536`, with null and with non-null `a` and `x`: the call makes
no allocation and no template call, but the size it reports is
`K = 0`, not `m * batch_count * sizeof(T) = 34359738368`, and the status is the
one the handle returns for zero bytes. -/
theorem trmv_size_query_wraps :
    rocblas_trmv_strided_batched_impl .double (fun _ => rocblas_status_success)
        (some sample_query_handle) rocblas_fill_upper rocblas_operation_transpose
        rocblas_diagonal_unit 65536 0 65536 0 0 1 65536 65536
      = (sample_query_handle.set_optimal_device_memory_size 0,
          [Effect.set_optimal_device_memory_size 0])
    ∧ rocblas_trmv_strided_batched_impl .double (fun _ => rocblas_status_success)
        (some sample_query_handle) rocblas_fill_upper rocblas_operation_transpose
        rocblas_diagonal_unit 65536 4096 65536 0 8192 1 65536 65536
      = (sample_query_handle.set_optimal_device_memory_size 0,
          [Effect.set_optimal_device_memory_size 0])
    ∧ sample_query_handle.set_optimal_device_memory_size 0 = rocblas_status_size_unchanged
    ∧ sample_query_handle.set_optimal_device_memory_size 34359738368
        = rocblas_status_size_increased
    ∧ (65536 : Int) * 65536 * (rocblas_type.double.sizeof : Int) = 34359738368 := by
  have h : trmv_dev_bytes .double 65536 65536 = 0 := by decide
  refine ⟨?_, ?_, by decide, by decide, by decide⟩
  · unfold rocblas_trmv_strided_batched_impl
    simp only [h]
    rfl
  · unfold rocblas_trmv_strided_batched_impl
    simp only [h]
    rfl

end RocBLAS
